import Mathlib

/-!
# Base64 stream decoder of simdzone (`src/generic/base64.h`)

A shallow embedding of the table-driven, resumable Base64 decoder and of its
callers, followed by theorems about it.

Conventions of the embedding:

* an input byte (`uint8_t`, `char`) is a `Fin 256`; the tables are lists of
  natural numbers indexed by the value of the byte;
* `int` fields are `Int`; `size_t` counters are `Nat` (they only ever count
  down from `srclen` or up to the number of bytes written, so no wrap-around
  is reachable); values stored into a `uint8_t` are reduced `% 256`;
* memory is a total map from addresses to bytes, an output pointer is an
  address; the pair `(src, srclen)` is a list of bytes, and an input pointer
  is the list of the bytes from that pointer on;
* the two `BYTE_ORDER` builds are both embedded, selected by a `ByteOrder`.
-/

namespace Base64

/-- An octet: the C types `uint8_t`, `unsigned char` and `char`. -/
abbrev Byte := Fin 256

/-- Conversion of an integer expression to `uint8_t`: reduction modulo 256. -/
def u8 (n : Nat) : Byte := ⟨n % 256, Nat.mod_lt n (by decide)⟩

/-- The bytes of an ASCII text. -/
def ascii (t : String) : List Byte := t.toList.map (fun c => u8 c.toNat)

/-- The record `struct base64_state`. -/
structure base64_state where
  eof : Int
  bytes : Int
  carry : Byte
deriving DecidableEq

/-- Almost end-of-file: waiting for the last pad character. -/
def BASE64_AEOF : Int := 1

/-- End-of-file: stream end reached or invalid input provided. -/
def BASE64_EOF : Int := 2

/-- The pad character. -/
def CHARPAD : Byte := 61

/-- The initialiser `{ .eof = 0, .bytes = 0, .carry = 0 }`. -/
def base64_state_zero : base64_state := ⟨0, 0, 0⟩

/-- The build-time constant `BYTE_ORDER`. -/
inductive ByteOrder where
  | little
  | big
deriving DecidableEq

/-- Byte-addressed memory. -/
abbrev Mem := Nat → Byte

/-- The assignment `*a = v`. -/
def store (m : Mem) (a : Nat) (v : Byte) : Mem := fun i => if i = a then v else m i

/-- The bytes `m[a], ..., m[a + n - 1]`. -/
def load_bytes (m : Mem) (a n : Nat) : List Byte := (List.range n).map (fun i => m (a + i))

/-- The table base64_table_dec_8bit: data characters map to their 6-bit value, the pad character to 254, every other byte to 255. -/
def base64_table_dec_8bit : List Nat := [
  255, 255, 255, 255, 255, 255, 255, 255, 255, 255, 255, 255, 255, 255, 255, 255,
  255, 255, 255, 255, 255, 255, 255, 255, 255, 255, 255, 255, 255, 255, 255, 255,
  255, 255, 255, 255, 255, 255, 255, 255, 255, 255, 255, 62, 255, 255, 255, 63,
  52, 53, 54, 55, 56, 57, 58, 59, 60, 61, 255, 255, 255, 254, 255, 255,
  255, 0, 1, 2, 3, 4, 5, 6, 7, 8, 9, 10, 11, 12, 13, 14,
  15, 16, 17, 18, 19, 20, 21, 22, 23, 24, 25, 255, 255, 255, 255, 255,
  255, 26, 27, 28, 29, 30, 31, 32, 33, 34, 35, 36, 37, 38, 39, 40,
  41, 42, 43, 44, 45, 46, 47, 48, 49, 50, 51, 255, 255, 255, 255, 255,
  255, 255, 255, 255, 255, 255, 255, 255, 255, 255, 255, 255, 255, 255, 255, 255,
  255, 255, 255, 255, 255, 255, 255, 255, 255, 255, 255, 255, 255, 255, 255, 255,
  255, 255, 255, 255, 255, 255, 255, 255, 255, 255, 255, 255, 255, 255, 255, 255,
  255, 255, 255, 255, 255, 255, 255, 255, 255, 255, 255, 255, 255, 255, 255, 255,
  255, 255, 255, 255, 255, 255, 255, 255, 255, 255, 255, 255, 255, 255, 255, 255,
  255, 255, 255, 255, 255, 255, 255, 255, 255, 255, 255, 255, 255, 255, 255, 255,
  255, 255, 255, 255, 255, 255, 255, 255, 255, 255, 255, 255, 255, 255, 255, 255,
  255, 255, 255, 255, 255, 255, 255, 255, 255, 255, 255, 255, 255, 255, 255, 255
]

/-- The little-endian table base64_table_dec_32bit_d0 (source lines 67-111). -/
def base64_table_dec_32bit_d0 : List Nat := [
  0xffffffff, 0xffffffff, 0xffffffff, 0xffffffff, 0xffffffff, 0xffffffff,
  0xffffffff, 0xffffffff, 0xffffffff, 0xffffffff, 0xffffffff, 0xffffffff,
  0xffffffff, 0xffffffff, 0xffffffff, 0xffffffff, 0xffffffff, 0xffffffff,
  0xffffffff, 0xffffffff, 0xffffffff, 0xffffffff, 0xffffffff, 0xffffffff,
  0xffffffff, 0xffffffff, 0xffffffff, 0xffffffff, 0xffffffff, 0xffffffff,
  0xffffffff, 0xffffffff, 0xffffffff, 0xffffffff, 0xffffffff, 0xffffffff,
  0xffffffff, 0xffffffff, 0xffffffff, 0xffffffff, 0xffffffff, 0xffffffff,
  0xffffffff, 0x000000f8, 0xffffffff, 0xffffffff, 0xffffffff, 0x000000fc,
  0x000000d0, 0x000000d4, 0x000000d8, 0x000000dc, 0x000000e0, 0x000000e4,
  0x000000e8, 0x000000ec, 0x000000f0, 0x000000f4, 0xffffffff, 0xffffffff,
  0xffffffff, 0xffffffff, 0xffffffff, 0xffffffff, 0xffffffff, 0x00000000,
  0x00000004, 0x00000008, 0x0000000c, 0x00000010, 0x00000014, 0x00000018,
  0x0000001c, 0x00000020, 0x00000024, 0x00000028, 0x0000002c, 0x00000030,
  0x00000034, 0x00000038, 0x0000003c, 0x00000040, 0x00000044, 0x00000048,
  0x0000004c, 0x00000050, 0x00000054, 0x00000058, 0x0000005c, 0x00000060,
  0x00000064, 0xffffffff, 0xffffffff, 0xffffffff, 0xffffffff, 0xffffffff,
  0xffffffff, 0x00000068, 0x0000006c, 0x00000070, 0x00000074, 0x00000078,
  0x0000007c, 0x00000080, 0x00000084, 0x00000088, 0x0000008c, 0x00000090,
  0x00000094, 0x00000098, 0x0000009c, 0x000000a0, 0x000000a4, 0x000000a8,
  0x000000ac, 0x000000b0, 0x000000b4, 0x000000b8, 0x000000bc, 0x000000c0,
  0x000000c4, 0x000000c8, 0x000000cc, 0xffffffff, 0xffffffff, 0xffffffff,
  0xffffffff, 0xffffffff, 0xffffffff, 0xffffffff, 0xffffffff, 0xffffffff,
  0xffffffff, 0xffffffff, 0xffffffff, 0xffffffff, 0xffffffff, 0xffffffff,
  0xffffffff, 0xffffffff, 0xffffffff, 0xffffffff, 0xffffffff, 0xffffffff,
  0xffffffff, 0xffffffff, 0xffffffff, 0xffffffff, 0xffffffff, 0xffffffff,
  0xffffffff, 0xffffffff, 0xffffffff, 0xffffffff, 0xffffffff, 0xffffffff,
  0xffffffff, 0xffffffff, 0xffffffff, 0xffffffff, 0xffffffff, 0xffffffff,
  0xffffffff, 0xffffffff, 0xffffffff, 0xffffffff, 0xffffffff, 0xffffffff,
  0xffffffff, 0xffffffff, 0xffffffff, 0xffffffff, 0xffffffff, 0xffffffff,
  0xffffffff, 0xffffffff, 0xffffffff, 0xffffffff, 0xffffffff, 0xffffffff,
  0xffffffff, 0xffffffff, 0xffffffff, 0xffffffff, 0xffffffff, 0xffffffff,
  0xffffffff, 0xffffffff, 0xffffffff, 0xffffffff, 0xffffffff, 0xffffffff,
  0xffffffff, 0xffffffff, 0xffffffff, 0xffffffff, 0xffffffff, 0xffffffff,
  0xffffffff, 0xffffffff, 0xffffffff, 0xffffffff, 0xffffffff, 0xffffffff,
  0xffffffff, 0xffffffff, 0xffffffff, 0xffffffff, 0xffffffff, 0xffffffff,
  0xffffffff, 0xffffffff, 0xffffffff, 0xffffffff, 0xffffffff, 0xffffffff,
  0xffffffff, 0xffffffff, 0xffffffff, 0xffffffff, 0xffffffff, 0xffffffff,
  0xffffffff, 0xffffffff, 0xffffffff, 0xffffffff, 0xffffffff, 0xffffffff,
  0xffffffff, 0xffffffff, 0xffffffff, 0xffffffff, 0xffffffff, 0xffffffff,
  0xffffffff, 0xffffffff, 0xffffffff, 0xffffffff, 0xffffffff, 0xffffffff,
  0xffffffff, 0xffffffff, 0xffffffff, 0xffffffff, 0xffffffff, 0xffffffff,
  0xffffffff, 0xffffffff, 0xffffffff, 0xffffffff, 0xffffffff, 0xffffffff,
  0xffffffff, 0xffffffff, 0xffffffff, 0xffffffff
]

/-- The little-endian table base64_table_dec_32bit_d1 (source lines 114-158). -/
def base64_table_dec_32bit_d1 : List Nat := [
  0xffffffff, 0xffffffff, 0xffffffff, 0xffffffff, 0xffffffff, 0xffffffff,
  0xffffffff, 0xffffffff, 0xffffffff, 0xffffffff, 0xffffffff, 0xffffffff,
  0xffffffff, 0xffffffff, 0xffffffff, 0xffffffff, 0xffffffff, 0xffffffff,
  0xffffffff, 0xffffffff, 0xffffffff, 0xffffffff, 0xffffffff, 0xffffffff,
  0xffffffff, 0xffffffff, 0xffffffff, 0xffffffff, 0xffffffff, 0xffffffff,
  0xffffffff, 0xffffffff, 0xffffffff, 0xffffffff, 0xffffffff, 0xffffffff,
  0xffffffff, 0xffffffff, 0xffffffff, 0xffffffff, 0xffffffff, 0xffffffff,
  0xffffffff, 0x0000e003, 0xffffffff, 0xffffffff, 0xffffffff, 0x0000f003,
  0x00004003, 0x00005003, 0x00006003, 0x00007003, 0x00008003, 0x00009003,
  0x0000a003, 0x0000b003, 0x0000c003, 0x0000d003, 0xffffffff, 0xffffffff,
  0xffffffff, 0xffffffff, 0xffffffff, 0xffffffff, 0xffffffff, 0x00000000,
  0x00001000, 0x00002000, 0x00003000, 0x00004000, 0x00005000, 0x00006000,
  0x00007000, 0x00008000, 0x00009000, 0x0000a000, 0x0000b000, 0x0000c000,
  0x0000d000, 0x0000e000, 0x0000f000, 0x00000001, 0x00001001, 0x00002001,
  0x00003001, 0x00004001, 0x00005001, 0x00006001, 0x00007001, 0x00008001,
  0x00009001, 0xffffffff, 0xffffffff, 0xffffffff, 0xffffffff, 0xffffffff,
  0xffffffff, 0x0000a001, 0x0000b001, 0x0000c001, 0x0000d001, 0x0000e001,
  0x0000f001, 0x00000002, 0x00001002, 0x00002002, 0x00003002, 0x00004002,
  0x00005002, 0x00006002, 0x00007002, 0x00008002, 0x00009002, 0x0000a002,
  0x0000b002, 0x0000c002, 0x0000d002, 0x0000e002, 0x0000f002, 0x00000003,
  0x00001003, 0x00002003, 0x00003003, 0xffffffff, 0xffffffff, 0xffffffff,
  0xffffffff, 0xffffffff, 0xffffffff, 0xffffffff, 0xffffffff, 0xffffffff,
  0xffffffff, 0xffffffff, 0xffffffff, 0xffffffff, 0xffffffff, 0xffffffff,
  0xffffffff, 0xffffffff, 0xffffffff, 0xffffffff, 0xffffffff, 0xffffffff,
  0xffffffff, 0xffffffff, 0xffffffff, 0xffffffff, 0xffffffff, 0xffffffff,
  0xffffffff, 0xffffffff, 0xffffffff, 0xffffffff, 0xffffffff, 0xffffffff,
  0xffffffff, 0xffffffff, 0xffffffff, 0xffffffff, 0xffffffff, 0xffffffff,
  0xffffffff, 0xffffffff, 0xffffffff, 0xffffffff, 0xffffffff, 0xffffffff,
  0xffffffff, 0xffffffff, 0xffffffff, 0xffffffff, 0xffffffff, 0xffffffff,
  0xffffffff, 0xffffffff, 0xffffffff, 0xffffffff, 0xffffffff, 0xffffffff,
  0xffffffff, 0xffffffff, 0xffffffff, 0xffffffff, 0xffffffff, 0xffffffff,
  0xffffffff, 0xffffffff, 0xffffffff, 0xffffffff, 0xffffffff, 0xffffffff,
  0xffffffff, 0xffffffff, 0xffffffff, 0xffffffff, 0xffffffff, 0xffffffff,
  0xffffffff, 0xffffffff, 0xffffffff, 0xffffffff, 0xffffffff, 0xffffffff,
  0xffffffff, 0xffffffff, 0xffffffff, 0xffffffff, 0xffffffff, 0xffffffff,
  0xffffffff, 0xffffffff, 0xffffffff, 0xffffffff, 0xffffffff, 0xffffffff,
  0xffffffff, 0xffffffff, 0xffffffff, 0xffffffff, 0xffffffff, 0xffffffff,
  0xffffffff, 0xffffffff, 0xffffffff, 0xffffffff, 0xffffffff, 0xffffffff,
  0xffffffff, 0xffffffff, 0xffffffff, 0xffffffff, 0xffffffff, 0xffffffff,
  0xffffffff, 0xffffffff, 0xffffffff, 0xffffffff, 0xffffffff, 0xffffffff,
  0xffffffff, 0xffffffff, 0xffffffff, 0xffffffff, 0xffffffff, 0xffffffff,
  0xffffffff, 0xffffffff, 0xffffffff, 0xffffffff, 0xffffffff, 0xffffffff,
  0xffffffff, 0xffffffff, 0xffffffff, 0xffffffff
]

/-- The little-endian table base64_table_dec_32bit_d2 (source lines 161-205). -/
def base64_table_dec_32bit_d2 : List Nat := [
  0xffffffff, 0xffffffff, 0xffffffff, 0xffffffff, 0xffffffff, 0xffffffff,
  0xffffffff, 0xffffffff, 0xffffffff, 0xffffffff, 0xffffffff, 0xffffffff,
  0xffffffff, 0xffffffff, 0xffffffff, 0xffffffff, 0xffffffff, 0xffffffff,
  0xffffffff, 0xffffffff, 0xffffffff, 0xffffffff, 0xffffffff, 0xffffffff,
  0xffffffff, 0xffffffff, 0xffffffff, 0xffffffff, 0xffffffff, 0xffffffff,
  0xffffffff, 0xffffffff, 0xffffffff, 0xffffffff, 0xffffffff, 0xffffffff,
  0xffffffff, 0xffffffff, 0xffffffff, 0xffffffff, 0xffffffff, 0xffffffff,
  0xffffffff, 0x00800f00, 0xffffffff, 0xffffffff, 0xffffffff, 0x00c00f00,
  0x00000d00, 0x00400d00, 0x00800d00, 0x00c00d00, 0x00000e00, 0x00400e00,
  0x00800e00, 0x00c00e00, 0x00000f00, 0x00400f00, 0xffffffff, 0xffffffff,
  0xffffffff, 0xffffffff, 0xffffffff, 0xffffffff, 0xffffffff, 0x00000000,
  0x00400000, 0x00800000, 0x00c00000, 0x00000100, 0x00400100, 0x00800100,
  0x00c00100, 0x00000200, 0x00400200, 0x00800200, 0x00c00200, 0x00000300,
  0x00400300, 0x00800300, 0x00c00300, 0x00000400, 0x00400400, 0x00800400,
  0x00c00400, 0x00000500, 0x00400500, 0x00800500, 0x00c00500, 0x00000600,
  0x00400600, 0xffffffff, 0xffffffff, 0xffffffff, 0xffffffff, 0xffffffff,
  0xffffffff, 0x00800600, 0x00c00600, 0x00000700, 0x00400700, 0x00800700,
  0x00c00700, 0x00000800, 0x00400800, 0x00800800, 0x00c00800, 0x00000900,
  0x00400900, 0x00800900, 0x00c00900, 0x00000a00, 0x00400a00, 0x00800a00,
  0x00c00a00, 0x00000b00, 0x00400b00, 0x00800b00, 0x00c00b00, 0x00000c00,
  0x00400c00, 0x00800c00, 0x00c00c00, 0xffffffff, 0xffffffff, 0xffffffff,
  0xffffffff, 0xffffffff, 0xffffffff, 0xffffffff, 0xffffffff, 0xffffffff,
  0xffffffff, 0xffffffff, 0xffffffff, 0xffffffff, 0xffffffff, 0xffffffff,
  0xffffffff, 0xffffffff, 0xffffffff, 0xffffffff, 0xffffffff, 0xffffffff,
  0xffffffff, 0xffffffff, 0xffffffff, 0xffffffff, 0xffffffff, 0xffffffff,
  0xffffffff, 0xffffffff, 0xffffffff, 0xffffffff, 0xffffffff, 0xffffffff,
  0xffffffff, 0xffffffff, 0xffffffff, 0xffffffff, 0xffffffff, 0xffffffff,
  0xffffffff, 0xffffffff, 0xffffffff, 0xffffffff, 0xffffffff, 0xffffffff,
  0xffffffff, 0xffffffff, 0xffffffff, 0xffffffff, 0xffffffff, 0xffffffff,
  0xffffffff, 0xffffffff, 0xffffffff, 0xffffffff, 0xffffffff, 0xffffffff,
  0xffffffff, 0xffffffff, 0xffffffff, 0xffffffff, 0xffffffff, 0xffffffff,
  0xffffffff, 0xffffffff, 0xffffffff, 0xffffffff, 0xffffffff, 0xffffffff,
  0xffffffff, 0xffffffff, 0xffffffff, 0xffffffff, 0xffffffff, 0xffffffff,
  0xffffffff, 0xffffffff, 0xffffffff, 0xffffffff, 0xffffffff, 0xffffffff,
  0xffffffff, 0xffffffff, 0xffffffff, 0xffffffff, 0xffffffff, 0xffffffff,
  0xffffffff, 0xffffffff, 0xffffffff, 0xffffffff, 0xffffffff, 0xffffffff,
  0xffffffff, 0xffffffff, 0xffffffff, 0xffffffff, 0xffffffff, 0xffffffff,
  0xffffffff, 0xffffffff, 0xffffffff, 0xffffffff, 0xffffffff, 0xffffffff,
  0xffffffff, 0xffffffff, 0xffffffff, 0xffffffff, 0xffffffff, 0xffffffff,
  0xffffffff, 0xffffffff, 0xffffffff, 0xffffffff, 0xffffffff, 0xffffffff,
  0xffffffff, 0xffffffff, 0xffffffff, 0xffffffff, 0xffffffff, 0xffffffff,
  0xffffffff, 0xffffffff, 0xffffffff, 0xffffffff, 0xffffffff, 0xffffffff,
  0xffffffff, 0xffffffff, 0xffffffff, 0xffffffff
]

/-- The little-endian table base64_table_dec_32bit_d3 (source lines 208-252). -/
def base64_table_dec_32bit_d3 : List Nat := [
  0xffffffff, 0xffffffff, 0xffffffff, 0xffffffff, 0xffffffff, 0xffffffff,
  0xffffffff, 0xffffffff, 0xffffffff, 0xffffffff, 0xffffffff, 0xffffffff,
  0xffffffff, 0xffffffff, 0xffffffff, 0xffffffff, 0xffffffff, 0xffffffff,
  0xffffffff, 0xffffffff, 0xffffffff, 0xffffffff, 0xffffffff, 0xffffffff,
  0xffffffff, 0xffffffff, 0xffffffff, 0xffffffff, 0xffffffff, 0xffffffff,
  0xffffffff, 0xffffffff, 0xffffffff, 0xffffffff, 0xffffffff, 0xffffffff,
  0xffffffff, 0xffffffff, 0xffffffff, 0xffffffff, 0xffffffff, 0xffffffff,
  0xffffffff, 0x003e0000, 0xffffffff, 0xffffffff, 0xffffffff, 0x003f0000,
  0x00340000, 0x00350000, 0x00360000, 0x00370000, 0x00380000, 0x00390000,
  0x003a0000, 0x003b0000, 0x003c0000, 0x003d0000, 0xffffffff, 0xffffffff,
  0xffffffff, 0xffffffff, 0xffffffff, 0xffffffff, 0xffffffff, 0x00000000,
  0x00010000, 0x00020000, 0x00030000, 0x00040000, 0x00050000, 0x00060000,
  0x00070000, 0x00080000, 0x00090000, 0x000a0000, 0x000b0000, 0x000c0000,
  0x000d0000, 0x000e0000, 0x000f0000, 0x00100000, 0x00110000, 0x00120000,
  0x00130000, 0x00140000, 0x00150000, 0x00160000, 0x00170000, 0x00180000,
  0x00190000, 0xffffffff, 0xffffffff, 0xffffffff, 0xffffffff, 0xffffffff,
  0xffffffff, 0x001a0000, 0x001b0000, 0x001c0000, 0x001d0000, 0x001e0000,
  0x001f0000, 0x00200000, 0x00210000, 0x00220000, 0x00230000, 0x00240000,
  0x00250000, 0x00260000, 0x00270000, 0x00280000, 0x00290000, 0x002a0000,
  0x002b0000, 0x002c0000, 0x002d0000, 0x002e0000, 0x002f0000, 0x00300000,
  0x00310000, 0x00320000, 0x00330000, 0xffffffff, 0xffffffff, 0xffffffff,
  0xffffffff, 0xffffffff, 0xffffffff, 0xffffffff, 0xffffffff, 0xffffffff,
  0xffffffff, 0xffffffff, 0xffffffff, 0xffffffff, 0xffffffff, 0xffffffff,
  0xffffffff, 0xffffffff, 0xffffffff, 0xffffffff, 0xffffffff, 0xffffffff,
  0xffffffff, 0xffffffff, 0xffffffff, 0xffffffff, 0xffffffff, 0xffffffff,
  0xffffffff, 0xffffffff, 0xffffffff, 0xffffffff, 0xffffffff, 0xffffffff,
  0xffffffff, 0xffffffff, 0xffffffff, 0xffffffff, 0xffffffff, 0xffffffff,
  0xffffffff, 0xffffffff, 0xffffffff, 0xffffffff, 0xffffffff, 0xffffffff,
  0xffffffff, 0xffffffff, 0xffffffff, 0xffffffff, 0xffffffff, 0xffffffff,
  0xffffffff, 0xffffffff, 0xffffffff, 0xffffffff, 0xffffffff, 0xffffffff,
  0xffffffff, 0xffffffff, 0xffffffff, 0xffffffff, 0xffffffff, 0xffffffff,
  0xffffffff, 0xffffffff, 0xffffffff, 0xffffffff, 0xffffffff, 0xffffffff,
  0xffffffff, 0xffffffff, 0xffffffff, 0xffffffff, 0xffffffff, 0xffffffff,
  0xffffffff, 0xffffffff, 0xffffffff, 0xffffffff, 0xffffffff, 0xffffffff,
  0xffffffff, 0xffffffff, 0xffffffff, 0xffffffff, 0xffffffff, 0xffffffff,
  0xffffffff, 0xffffffff, 0xffffffff, 0xffffffff, 0xffffffff, 0xffffffff,
  0xffffffff, 0xffffffff, 0xffffffff, 0xffffffff, 0xffffffff, 0xffffffff,
  0xffffffff, 0xffffffff, 0xffffffff, 0xffffffff, 0xffffffff, 0xffffffff,
  0xffffffff, 0xffffffff, 0xffffffff, 0xffffffff, 0xffffffff, 0xffffffff,
  0xffffffff, 0xffffffff, 0xffffffff, 0xffffffff, 0xffffffff, 0xffffffff,
  0xffffffff, 0xffffffff, 0xffffffff, 0xffffffff, 0xffffffff, 0xffffffff,
  0xffffffff, 0xffffffff, 0xffffffff, 0xffffffff, 0xffffffff, 0xffffffff,
  0xffffffff, 0xffffffff, 0xffffffff, 0xffffffff
]

/-- The big-endian table base64_table_dec_32bit_d0 (source lines 258-302). -/
def base64_table_dec_32bit_d0_be : List Nat := [
  0xffffffff, 0xffffffff, 0xffffffff, 0xffffffff, 0xffffffff, 0xffffffff,
  0xffffffff, 0xffffffff, 0xffffffff, 0xffffffff, 0xffffffff, 0xffffffff,
  0xffffffff, 0xffffffff, 0xffffffff, 0xffffffff, 0xffffffff, 0xffffffff,
  0xffffffff, 0xffffffff, 0xffffffff, 0xffffffff, 0xffffffff, 0xffffffff,
  0xffffffff, 0xffffffff, 0xffffffff, 0xffffffff, 0xffffffff, 0xffffffff,
  0xffffffff, 0xffffffff, 0xffffffff, 0xffffffff, 0xffffffff, 0xffffffff,
  0xffffffff, 0xffffffff, 0xffffffff, 0xffffffff, 0xffffffff, 0xffffffff,
  0xffffffff, 0xf8000000, 0xffffffff, 0xffffffff, 0xffffffff, 0xfc000000,
  0xd0000000, 0xd4000000, 0xd8000000, 0xdc000000, 0xe0000000, 0xe4000000,
  0xe8000000, 0xec000000, 0xf0000000, 0xf4000000, 0xffffffff, 0xffffffff,
  0xffffffff, 0xffffffff, 0xffffffff, 0xffffffff, 0xffffffff, 0x00000000,
  0x04000000, 0x08000000, 0x0c000000, 0x10000000, 0x14000000, 0x18000000,
  0x1c000000, 0x20000000, 0x24000000, 0x28000000, 0x2c000000, 0x30000000,
  0x34000000, 0x38000000, 0x3c000000, 0x40000000, 0x44000000, 0x48000000,
  0x4c000000, 0x50000000, 0x54000000, 0x58000000, 0x5c000000, 0x60000000,
  0x64000000, 0xffffffff, 0xffffffff, 0xffffffff, 0xffffffff, 0xffffffff,
  0xffffffff, 0x68000000, 0x6c000000, 0x70000000, 0x74000000, 0x78000000,
  0x7c000000, 0x80000000, 0x84000000, 0x88000000, 0x8c000000, 0x90000000,
  0x94000000, 0x98000000, 0x9c000000, 0xa0000000, 0xa4000000, 0xa8000000,
  0xac000000, 0xb0000000, 0xb4000000, 0xb8000000, 0xbc000000, 0xc0000000,
  0xc4000000, 0xc8000000, 0xcc000000, 0xffffffff, 0xffffffff, 0xffffffff,
  0xffffffff, 0xffffffff, 0xffffffff, 0xffffffff, 0xffffffff, 0xffffffff,
  0xffffffff, 0xffffffff, 0xffffffff, 0xffffffff, 0xffffffff, 0xffffffff,
  0xffffffff, 0xffffffff, 0xffffffff, 0xffffffff, 0xffffffff, 0xffffffff,
  0xffffffff, 0xffffffff, 0xffffffff, 0xffffffff, 0xffffffff, 0xffffffff,
  0xffffffff, 0xffffffff, 0xffffffff, 0xffffffff, 0xffffffff, 0xffffffff,
  0xffffffff, 0xffffffff, 0xffffffff, 0xffffffff, 0xffffffff, 0xffffffff,
  0xffffffff, 0xffffffff, 0xffffffff, 0xffffffff, 0xffffffff, 0xffffffff,
  0xffffffff, 0xffffffff, 0xffffffff, 0xffffffff, 0xffffffff, 0xffffffff,
  0xffffffff, 0xffffffff, 0xffffffff, 0xffffffff, 0xffffffff, 0xffffffff,
  0xffffffff, 0xffffffff, 0xffffffff, 0xffffffff, 0xffffffff, 0xffffffff,
  0xffffffff, 0xffffffff, 0xffffffff, 0xffffffff, 0xffffffff, 0xffffffff,
  0xffffffff, 0xffffffff, 0xffffffff, 0xffffffff, 0xffffffff, 0xffffffff,
  0xffffffff, 0xffffffff, 0xffffffff, 0xffffffff, 0xffffffff, 0xffffffff,
  0xffffffff, 0xffffffff, 0xffffffff, 0xffffffff, 0xffffffff, 0xffffffff,
  0xffffffff, 0xffffffff, 0xffffffff, 0xffffffff, 0xffffffff, 0xffffffff,
  0xffffffff, 0xffffffff, 0xffffffff, 0xffffffff, 0xffffffff, 0xffffffff,
  0xffffffff, 0xffffffff, 0xffffffff, 0xffffffff, 0xffffffff, 0xffffffff,
  0xffffffff, 0xffffffff, 0xffffffff, 0xffffffff, 0xffffffff, 0xffffffff,
  0xffffffff, 0xffffffff, 0xffffffff, 0xffffffff, 0xffffffff, 0xffffffff,
  0xffffffff, 0xffffffff, 0xffffffff, 0xffffffff, 0xffffffff, 0xffffffff,
  0xffffffff, 0xffffffff, 0xffffffff, 0xffffffff, 0xffffffff, 0xffffffff,
  0xffffffff, 0xffffffff, 0xffffffff, 0xffffffff
]

/-- The big-endian table base64_table_dec_32bit_d1 (source lines 304-348). -/
def base64_table_dec_32bit_d1_be : List Nat := [
  0xffffffff, 0xffffffff, 0xffffffff, 0xffffffff, 0xffffffff, 0xffffffff,
  0xffffffff, 0xffffffff, 0xffffffff, 0xffffffff, 0xffffffff, 0xffffffff,
  0xffffffff, 0xffffffff, 0xffffffff, 0xffffffff, 0xffffffff, 0xffffffff,
  0xffffffff, 0xffffffff, 0xffffffff, 0xffffffff, 0xffffffff, 0xffffffff,
  0xffffffff, 0xffffffff, 0xffffffff, 0xffffffff, 0xffffffff, 0xffffffff,
  0xffffffff, 0xffffffff, 0xffffffff, 0xffffffff, 0xffffffff, 0xffffffff,
  0xffffffff, 0xffffffff, 0xffffffff, 0xffffffff, 0xffffffff, 0xffffffff,
  0xffffffff, 0x03e00000, 0xffffffff, 0xffffffff, 0xffffffff, 0x03f00000,
  0x03400000, 0x03500000, 0x03600000, 0x03700000, 0x03800000, 0x03900000,
  0x03a00000, 0x03b00000, 0x03c00000, 0x03d00000, 0xffffffff, 0xffffffff,
  0xffffffff, 0xffffffff, 0xffffffff, 0xffffffff, 0xffffffff, 0x00000000,
  0x00100000, 0x00200000, 0x00300000, 0x00400000, 0x00500000, 0x00600000,
  0x00700000, 0x00800000, 0x00900000, 0x00a00000, 0x00b00000, 0x00c00000,
  0x00d00000, 0x00e00000, 0x00f00000, 0x01000000, 0x01100000, 0x01200000,
  0x01300000, 0x01400000, 0x01500000, 0x01600000, 0x01700000, 0x01800000,
  0x01900000, 0xffffffff, 0xffffffff, 0xffffffff, 0xffffffff, 0xffffffff,
  0xffffffff, 0x01a00000, 0x01b00000, 0x01c00000, 0x01d00000, 0x01e00000,
  0x01f00000, 0x02000000, 0x02100000, 0x02200000, 0x02300000, 0x02400000,
  0x02500000, 0x02600000, 0x02700000, 0x02800000, 0x02900000, 0x02a00000,
  0x02b00000, 0x02c00000, 0x02d00000, 0x02e00000, 0x02f00000, 0x03000000,
  0x03100000, 0x03200000, 0x03300000, 0xffffffff, 0xffffffff, 0xffffffff,
  0xffffffff, 0xffffffff, 0xffffffff, 0xffffffff, 0xffffffff, 0xffffffff,
  0xffffffff, 0xffffffff, 0xffffffff, 0xffffffff, 0xffffffff, 0xffffffff,
  0xffffffff, 0xffffffff, 0xffffffff, 0xffffffff, 0xffffffff, 0xffffffff,
  0xffffffff, 0xffffffff, 0xffffffff, 0xffffffff, 0xffffffff, 0xffffffff,
  0xffffffff, 0xffffffff, 0xffffffff, 0xffffffff, 0xffffffff, 0xffffffff,
  0xffffffff, 0xffffffff, 0xffffffff, 0xffffffff, 0xffffffff, 0xffffffff,
  0xffffffff, 0xffffffff, 0xffffffff, 0xffffffff, 0xffffffff, 0xffffffff,
  0xffffffff, 0xffffffff, 0xffffffff, 0xffffffff, 0xffffffff, 0xffffffff,
  0xffffffff, 0xffffffff, 0xffffffff, 0xffffffff, 0xffffffff, 0xffffffff,
  0xffffffff, 0xffffffff, 0xffffffff, 0xffffffff, 0xffffffff, 0xffffffff,
  0xffffffff, 0xffffffff, 0xffffffff, 0xffffffff, 0xffffffff, 0xffffffff,
  0xffffffff, 0xffffffff, 0xffffffff, 0xffffffff, 0xffffffff, 0xffffffff,
  0xffffffff, 0xffffffff, 0xffffffff, 0xffffffff, 0xffffffff, 0xffffffff,
  0xffffffff, 0xffffffff, 0xffffffff, 0xffffffff, 0xffffffff, 0xffffffff,
  0xffffffff, 0xffffffff, 0xffffffff, 0xffffffff, 0xffffffff, 0xffffffff,
  0xffffffff, 0xffffffff, 0xffffffff, 0xffffffff, 0xffffffff, 0xffffffff,
  0xffffffff, 0xffffffff, 0xffffffff, 0xffffffff, 0xffffffff, 0xffffffff,
  0xffffffff, 0xffffffff, 0xffffffff, 0xffffffff, 0xffffffff, 0xffffffff,
  0xffffffff, 0xffffffff, 0xffffffff, 0xffffffff, 0xffffffff, 0xffffffff,
  0xffffffff, 0xffffffff, 0xffffffff, 0xffffffff, 0xffffffff, 0xffffffff,
  0xffffffff, 0xffffffff, 0xffffffff, 0xffffffff, 0xffffffff, 0xffffffff,
  0xffffffff, 0xffffffff, 0xffffffff, 0xffffffff
]

/-- The big-endian table base64_table_dec_32bit_d2 (source lines 350-394). -/
def base64_table_dec_32bit_d2_be : List Nat := [
  0xffffffff, 0xffffffff, 0xffffffff, 0xffffffff, 0xffffffff, 0xffffffff,
  0xffffffff, 0xffffffff, 0xffffffff, 0xffffffff, 0xffffffff, 0xffffffff,
  0xffffffff, 0xffffffff, 0xffffffff, 0xffffffff, 0xffffffff, 0xffffffff,
  0xffffffff, 0xffffffff, 0xffffffff, 0xffffffff, 0xffffffff, 0xffffffff,
  0xffffffff, 0xffffffff, 0xffffffff, 0xffffffff, 0xffffffff, 0xffffffff,
  0xffffffff, 0xffffffff, 0xffffffff, 0xffffffff, 0xffffffff, 0xffffffff,
  0xffffffff, 0xffffffff, 0xffffffff, 0xffffffff, 0xffffffff, 0xffffffff,
  0xffffffff, 0x000f8000, 0xffffffff, 0xffffffff, 0xffffffff, 0x000fc000,
  0x000d0000, 0x000d4000, 0x000d8000, 0x000dc000, 0x000e0000, 0x000e4000,
  0x000e8000, 0x000ec000, 0x000f0000, 0x000f4000, 0xffffffff, 0xffffffff,
  0xffffffff, 0xffffffff, 0xffffffff, 0xffffffff, 0xffffffff, 0x00000000,
  0x00004000, 0x00008000, 0x0000c000, 0x00010000, 0x00014000, 0x00018000,
  0x0001c000, 0x00020000, 0x00024000, 0x00028000, 0x0002c000, 0x00030000,
  0x00034000, 0x00038000, 0x0003c000, 0x00040000, 0x00044000, 0x00048000,
  0x0004c000, 0x00050000, 0x00054000, 0x00058000, 0x0005c000, 0x00060000,
  0x00064000, 0xffffffff, 0xffffffff, 0xffffffff, 0xffffffff, 0xffffffff,
  0xffffffff, 0x00068000, 0x0006c000, 0x00070000, 0x00074000, 0x00078000,
  0x0007c000, 0x00080000, 0x00084000, 0x00088000, 0x0008c000, 0x00090000,
  0x00094000, 0x00098000, 0x0009c000, 0x000a0000, 0x000a4000, 0x000a8000,
  0x000ac000, 0x000b0000, 0x000b4000, 0x000b8000, 0x000bc000, 0x000c0000,
  0x000c4000, 0x000c8000, 0x000cc000, 0xffffffff, 0xffffffff, 0xffffffff,
  0xffffffff, 0xffffffff, 0xffffffff, 0xffffffff, 0xffffffff, 0xffffffff,
  0xffffffff, 0xffffffff, 0xffffffff, 0xffffffff, 0xffffffff, 0xffffffff,
  0xffffffff, 0xffffffff, 0xffffffff, 0xffffffff, 0xffffffff, 0xffffffff,
  0xffffffff, 0xffffffff, 0xffffffff, 0xffffffff, 0xffffffff, 0xffffffff,
  0xffffffff, 0xffffffff, 0xffffffff, 0xffffffff, 0xffffffff, 0xffffffff,
  0xffffffff, 0xffffffff, 0xffffffff, 0xffffffff, 0xffffffff, 0xffffffff,
  0xffffffff, 0xffffffff, 0xffffffff, 0xffffffff, 0xffffffff, 0xffffffff,
  0xffffffff, 0xffffffff, 0xffffffff, 0xffffffff, 0xffffffff, 0xffffffff,
  0xffffffff, 0xffffffff, 0xffffffff, 0xffffffff, 0xffffffff, 0xffffffff,
  0xffffffff, 0xffffffff, 0xffffffff, 0xffffffff, 0xffffffff, 0xffffffff,
  0xffffffff, 0xffffffff, 0xffffffff, 0xffffffff, 0xffffffff, 0xffffffff,
  0xffffffff, 0xffffffff, 0xffffffff, 0xffffffff, 0xffffffff, 0xffffffff,
  0xffffffff, 0xffffffff, 0xffffffff, 0xffffffff, 0xffffffff, 0xffffffff,
  0xffffffff, 0xffffffff, 0xffffffff, 0xffffffff, 0xffffffff, 0xffffffff,
  0xffffffff, 0xffffffff, 0xffffffff, 0xffffffff, 0xffffffff, 0xffffffff,
  0xffffffff, 0xffffffff, 0xffffffff, 0xffffffff, 0xffffffff, 0xffffffff,
  0xffffffff, 0xffffffff, 0xffffffff, 0xffffffff, 0xffffffff, 0xffffffff,
  0xffffffff, 0xffffffff, 0xffffffff, 0xffffffff, 0xffffffff, 0xffffffff,
  0xffffffff, 0xffffffff, 0xffffffff, 0xffffffff, 0xffffffff, 0xffffffff,
  0xffffffff, 0xffffffff, 0xffffffff, 0xffffffff, 0xffffffff, 0xffffffff,
  0xffffffff, 0xffffffff, 0xffffffff, 0xffffffff, 0xffffffff, 0xffffffff,
  0xffffffff, 0xffffffff, 0xffffffff, 0xffffffff
]

/-- The big-endian table base64_table_dec_32bit_d3 (source lines 397-441). -/
def base64_table_dec_32bit_d3_be : List Nat := [
  0xffffffff, 0xffffffff, 0xffffffff, 0xffffffff, 0xffffffff, 0xffffffff,
  0xffffffff, 0xffffffff, 0xffffffff, 0xffffffff, 0xffffffff, 0xffffffff,
  0xffffffff, 0xffffffff, 0xffffffff, 0xffffffff, 0xffffffff, 0xffffffff,
  0xffffffff, 0xffffffff, 0xffffffff, 0xffffffff, 0xffffffff, 0xffffffff,
  0xffffffff, 0xffffffff, 0xffffffff, 0xffffffff, 0xffffffff, 0xffffffff,
  0xffffffff, 0xffffffff, 0xffffffff, 0xffffffff, 0xffffffff, 0xffffffff,
  0xffffffff, 0xffffffff, 0xffffffff, 0xffffffff, 0xffffffff, 0xffffffff,
  0xffffffff, 0x00003e00, 0xffffffff, 0xffffffff, 0xffffffff, 0x00003f00,
  0x00003400, 0x00003500, 0x00003600, 0x00003700, 0x00003800, 0x00003900,
  0x00003a00, 0x00003b00, 0x00003c00, 0x00003d00, 0xffffffff, 0xffffffff,
  0xffffffff, 0xffffffff, 0xffffffff, 0xffffffff, 0xffffffff, 0x00000000,
  0x00000100, 0x00000200, 0x00000300, 0x00000400, 0x00000500, 0x00000600,
  0x00000700, 0x00000800, 0x00000900, 0x00000a00, 0x00000b00, 0x00000c00,
  0x00000d00, 0x00000e00, 0x00000f00, 0x00001000, 0x00001100, 0x00001200,
  0x00001300, 0x00001400, 0x00001500, 0x00001600, 0x00001700, 0x00001800,
  0x00001900, 0xffffffff, 0xffffffff, 0xffffffff, 0xffffffff, 0xffffffff,
  0xffffffff, 0x00001a00, 0x00001b00, 0x00001c00, 0x00001d00, 0x00001e00,
  0x00001f00, 0x00002000, 0x00002100, 0x00002200, 0x00002300, 0x00002400,
  0x00002500, 0x00002600, 0x00002700, 0x00002800, 0x00002900, 0x00002a00,
  0x00002b00, 0x00002c00, 0x00002d00, 0x00002e00, 0x00002f00, 0x00003000,
  0x00003100, 0x00003200, 0x00003300, 0xffffffff, 0xffffffff, 0xffffffff,
  0xffffffff, 0xffffffff, 0xffffffff, 0xffffffff, 0xffffffff, 0xffffffff,
  0xffffffff, 0xffffffff, 0xffffffff, 0xffffffff, 0xffffffff, 0xffffffff,
  0xffffffff, 0xffffffff, 0xffffffff, 0xffffffff, 0xffffffff, 0xffffffff,
  0xffffffff, 0xffffffff, 0xffffffff, 0xffffffff, 0xffffffff, 0xffffffff,
  0xffffffff, 0xffffffff, 0xffffffff, 0xffffffff, 0xffffffff, 0xffffffff,
  0xffffffff, 0xffffffff, 0xffffffff, 0xffffffff, 0xffffffff, 0xffffffff,
  0xffffffff, 0xffffffff, 0xffffffff, 0xffffffff, 0xffffffff, 0xffffffff,
  0xffffffff, 0xffffffff, 0xffffffff, 0xffffffff, 0xffffffff, 0xffffffff,
  0xffffffff, 0xffffffff, 0xffffffff, 0xffffffff, 0xffffffff, 0xffffffff,
  0xffffffff, 0xffffffff, 0xffffffff, 0xffffffff, 0xffffffff, 0xffffffff,
  0xffffffff, 0xffffffff, 0xffffffff, 0xffffffff, 0xffffffff, 0xffffffff,
  0xffffffff, 0xffffffff, 0xffffffff, 0xffffffff, 0xffffffff, 0xffffffff,
  0xffffffff, 0xffffffff, 0xffffffff, 0xffffffff, 0xffffffff, 0xffffffff,
  0xffffffff, 0xffffffff, 0xffffffff, 0xffffffff, 0xffffffff, 0xffffffff,
  0xffffffff, 0xffffffff, 0xffffffff, 0xffffffff, 0xffffffff, 0xffffffff,
  0xffffffff, 0xffffffff, 0xffffffff, 0xffffffff, 0xffffffff, 0xffffffff,
  0xffffffff, 0xffffffff, 0xffffffff, 0xffffffff, 0xffffffff, 0xffffffff,
  0xffffffff, 0xffffffff, 0xffffffff, 0xffffffff, 0xffffffff, 0xffffffff,
  0xffffffff, 0xffffffff, 0xffffffff, 0xffffffff, 0xffffffff, 0xffffffff,
  0xffffffff, 0xffffffff, 0xffffffff, 0xffffffff, 0xffffffff, 0xffffffff,
  0xffffffff, 0xffffffff, 0xffffffff, 0xffffffff, 0xffffffff, 0xffffffff,
  0xffffffff, 0xffffffff, 0xffffffff, 0xffffffff
]

/-- Lookup `base64_table_dec_8bit[c]`. -/
def dec_8bit (c : Byte) : Nat := base64_table_dec_8bit.getD c.val 255

/-- Lookup `base64_table_dec_32bit_dK[c]` (`K = k`) in the table set of the build. -/
def dec_32bit (bo : ByteOrder) (k : Nat) (c : Byte) : Nat :=
  match bo, k with
  | .little, 0 => base64_table_dec_32bit_d0.getD c.val 0
  | .little, 1 => base64_table_dec_32bit_d1.getD c.val 0
  | .little, 2 => base64_table_dec_32bit_d2.getD c.val 0
  | .little, _ => base64_table_dec_32bit_d3.getD c.val 0
  | .big, 0 => base64_table_dec_32bit_d0_be.getD c.val 0
  | .big, 1 => base64_table_dec_32bit_d1_be.getD c.val 0
  | .big, 2 => base64_table_dec_32bit_d2_be.getD c.val 0
  | .big, _ => base64_table_dec_32bit_d3_be.getD c.val 0

/-- The bit tested on the OR-ed word: the most significant bit with the
little-endian tables, the least significant bit with the big-endian ones. -/
def invalid_mark (bo : ByteOrder) : Nat :=
  match bo with
  | .little => 0x80000000
  | .big => 1

/-- The call `memcpy(o, &str, sizeof (str))` for a `uint32_t str`. -/
def memcpy_u32 (bo : ByteOrder) (m : Mem) (o : Nat) (str : Nat) : Mem :=
  match bo with
  | .little =>
    store (store (store (store m o (u8 str)) (o + 1) (u8 (str >>> 8)))
      (o + 2) (u8 (str >>> 16))) (o + 3) (u8 (str >>> 24))
  | .big =>
    store (store (store (store m o (u8 (str >>> 24))) (o + 1) (u8 (str >>> 16)))
      (o + 2) (u8 (str >>> 8))) (o + 3) (u8 str)

/-- The variables that `dec_loop_generic_32` and `base64_stream_decode` share
by reference: input pointer `s`, remaining length `slen`, output pointer `o`,
output count `olen`, and the memory written through `o`. -/
structure Vars where
  s : List Byte
  slen : Nat
  o : Nat
  olen : Nat
  mem : Mem

/-- The byte `(*s)[i]`. -/
def peek (s : List Byte) (i : Nat) : Byte := s.getD i 0

/-- The function `dec_loop_generic_32_inner`: result, updated variables and
updated `rounds`. -/
def dec_loop_generic_32_inner (bo : ByteOrder) (v : Vars) (rounds : Nat) :
    Bool × Vars × Nat :=
  let str := dec_32bit bo 0 (peek v.s 0) ||| dec_32bit bo 1 (peek v.s 1)
    ||| dec_32bit bo 2 (peek v.s 2) ||| dec_32bit bo 3 (peek v.s 3)
  if str &&& invalid_mark bo ≠ 0 then
    (false, v, rounds)
  else
    (true, { v with mem := memcpy_u32 bo v.mem v.o str, s := v.s.drop 4, o := v.o + 3 },
      rounds - 1)

/-- The short-circuit conjunction of `n` calls
`dec_loop_generic_32_inner(s, o, &rounds) && ...`. -/
def dec_loop_generic_32_inner_and (bo : ByteOrder) :
    Nat → Vars → Nat → Bool × Vars × Nat
  | 0, v, rounds => (true, v, rounds)
  | n + 1, v, rounds =>
    match dec_loop_generic_32_inner bo v rounds with
    | (true, v1, rounds1) => dec_loop_generic_32_inner_and bo n v1 rounds1
    | (false, v1, rounds1) => (false, v1, rounds1)

/-- What follows a conjunction of inner steps in the loop body: when it held,
`continue` goes to the test `rounds > 0` of the `do ... while` and from there
back to the loop body `k`; when it failed, `break` leaves the loop. -/
def dec_loop_generic_32_next (k : Vars → Nat → Vars × Nat) (r : Bool × Vars × Nat) :
    Vars × Nat :=
  match r with
  | (true, v1, rounds1) => if rounds1 > 0 then k v1 rounds1 else (v1, rounds1)
  | (false, v1, rounds1) => (v1, rounds1)

/-- The `do ... while (rounds > 0)` loop of `dec_loop_generic_32`; the first
argument bounds the number of iterations. -/
def dec_loop_generic_32_loop (bo : ByteOrder) : Nat → Vars → Nat → Vars × Nat
  | 0, v, rounds => (v, rounds)
  | fuel + 1, v, rounds =>
    if rounds ≥ 8 then
      dec_loop_generic_32_next (dec_loop_generic_32_loop bo fuel)
        (dec_loop_generic_32_inner_and bo 8 v rounds)
    else if rounds ≥ 4 then
      dec_loop_generic_32_next (dec_loop_generic_32_loop bo fuel)
        (dec_loop_generic_32_inner_and bo 4 v rounds)
    else if rounds ≥ 2 then
      dec_loop_generic_32_next (dec_loop_generic_32_loop bo fuel)
        (dec_loop_generic_32_inner_and bo 2 v rounds)
    else
      (dec_loop_generic_32_inner bo v rounds).2

/-- The function `dec_loop_generic_32`. Every iteration of its loop that
continues has lowered `rounds`, so `rounds` iterations are enough. -/
def dec_loop_generic_32 (bo : ByteOrder) (v : Vars) : Vars :=
  if v.slen < 8 then v
  else
    let rounds := (v.slen - 4) / 4
    let v0 := { v with slen := v.slen - rounds * 4, olen := v.olen + rounds * 3 }
    match dec_loop_generic_32_loop bo rounds v0 rounds with
    | (v1, rounds1) =>
      { v1 with slen := v1.slen + rounds1 * 4, olen := v1.olen - rounds1 * 3 }

/-- The local variables of `base64_stream_decode`. -/
structure Frame where
  v : Vars
  st : base64_state
  ret : Int

/-- The statements of `case 3:` up to the end of the loop body; `k` is the
jump back to the head of the `for (;;)` loop. -/
def stream_case3 (k : Frame → Frame) (f : Frame) : Frame :=
  if f.v.slen = 0 then { f with ret := 1 }
  else
    let q := dec_8bit (peek f.v.s 0)
    let v : Vars := { f.v with slen := f.v.slen - 1, s := f.v.s.drop 1 }
    if q ≥ 254 then
      { v := v, st := { f.st with bytes := 0, eof := BASE64_EOF },
        ret := if q = 254 ∧ v.slen = 0 then 1 else 0 }
    else
      k { f with
          v := { v with mem := store v.mem v.o (u8 (f.st.carry.val ||| q)), o := v.o + 1,
                        olen := v.olen + 1 },
          st := { f.st with carry := 0, bytes := 0 } }

/-- The statements of `case 2:`, falling through to `case 3:`. -/
def stream_case2 (k : Frame → Frame) (f : Frame) : Frame :=
  if f.v.slen = 0 then { f with ret := 1 }
  else
    let q := dec_8bit (peek f.v.s 0)
    let v : Vars := { f.v with slen := f.v.slen - 1, s := f.v.s.drop 1 }
    if q ≥ 254 then
      let st : base64_state := { f.st with bytes := f.st.bytes + 1 }
      if q = 254 then
        if v.slen ≠ 0 then
          let q1 := dec_8bit (peek v.s 0)
          let v1 : Vars := { v with slen := v.slen - 1, s := v.s.drop 1 }
          { v := v1, st := { st with bytes := 0, eof := BASE64_EOF },
            ret := if q1 = 254 ∧ v1.slen = 0 then 1 else 0 }
        else
          { v := v, st := { st with eof := BASE64_AEOF }, ret := 1 }
      else
        { f with v := v, st := st }
    else
      stream_case3 k { f with
          v := { v with mem := store v.mem v.o (u8 (f.st.carry.val ||| (q >>> 2))),
                        o := v.o + 1, olen := v.olen + 1 },
          st := { f.st with carry := u8 (q <<< 6), bytes := f.st.bytes + 1 } }

/-- The statements of `case 1:`, falling through to `case 2:`. -/
def stream_case1 (k : Frame → Frame) (f : Frame) : Frame :=
  if f.v.slen = 0 then { f with ret := 1 }
  else
    let q := dec_8bit (peek f.v.s 0)
    let v : Vars := { f.v with slen := f.v.slen - 1, s := f.v.s.drop 1 }
    if q ≥ 254 then
      { f with v := v, st := { f.st with eof := BASE64_EOF } }
    else
      stream_case2 k { f with
          v := { v with mem := store v.mem v.o (u8 (f.st.carry.val ||| (q >>> 4))),
                        o := v.o + 1, olen := v.olen + 1 },
          st := { f.st with carry := u8 (q <<< 4), bytes := f.st.bytes + 1 } }

/-- The statements of `case 0:` after the call of `dec_loop_generic_32`,
falling through to `case 1:`. -/
def stream_case0_scalar (k : Frame → Frame) (f : Frame) : Frame :=
  if f.v.slen = 0 then { f with ret := 1 }
  else
    let q := dec_8bit (peek f.v.s 0)
    let v : Vars := { f.v with slen := f.v.slen - 1, s := f.v.s.drop 1 }
    if q ≥ 254 then
      { f with v := v, st := { f.st with eof := BASE64_EOF } }
    else
      stream_case1 k { f with
          v := v, st := { f.st with carry := u8 (q <<< 2), bytes := f.st.bytes + 1 } }

/-- The statements of `case 0:`: the batch loop, then the scalar statements. -/
def stream_case0 (bo : ByteOrder) (k : Frame → Frame) (f : Frame) : Frame :=
  stream_case0_scalar k { f with v := dec_loop_generic_32 bo f.v }

/-- The `for (;;)` loop inside the `switch`, entered at its head; the first
argument bounds the number of iterations. -/
def stream_loop (bo : ByteOrder) : Nat → Frame → Frame
  | 0, f => f
  | fuel + 1, f => stream_case0 bo (stream_loop bo fuel) f

/-- What `base64_stream_decode` hands back: the return value, the state
written through `state`, the memory written through `out`, and `*outlen`. -/
structure decode_result where
  ret : Int
  state : base64_state
  out : Mem
  outlen : Nat

/-- The function `base64_stream_decode`, called with the state `state`, the
`srclen = src.length` bytes `src`, and the output pointer `out` into the
memory `mem`. Every pass through the loop body consumes at least one input
byte, so `src.length` returns to the loop head are enough. -/
def base64_stream_decode (bo : ByteOrder) (state : base64_state) (src : List Byte)
    (mem : Mem) (out : Nat) : decode_result :=
  let f : Frame :=
    { v := { s := src, slen := src.length, o := out, olen := 0, mem := mem },
      st := { eof := state.eof, bytes := state.bytes, carry := state.carry },
      ret := 0 }
  if f.st.eof ≠ 0 then
    if f.v.slen ≠ 0 ∧ f.st.eof = BASE64_AEOF then
      { ret := if dec_8bit (peek f.v.s 0) = 254 ∧ f.v.slen = 1 then 1 else 0,
        state := { state with bytes := 0, eof := BASE64_EOF },
        out := mem, outlen := 0 }
    else
      { ret := 0, state := state, out := mem, outlen := 0 }
  else
    let k := stream_loop bo src.length
    let g :=
      if f.st.bytes = 0 then stream_case0 bo k f
      else if f.st.bytes = 1 then stream_case1 k f
      else if f.st.bytes = 2 then stream_case2 k f
      else if f.st.bytes = 3 then stream_case3 k f
      else f
    { ret := g.ret, state := g.st, out := g.v.mem, outlen := g.v.olen }

/-- The function `base64_decode`; the field `state` of the result is the final
value of its local variable `state`. -/
def base64_decode (bo : ByteOrder) (src : List Byte) (mem : Mem) (out : Nat) :
    decode_result :=
  let r := base64_stream_decode bo base64_state_zero src mem out
  { r with ret := Int.land r.ret (if r.state.bytes = 0 then 1 else 0) }

/-- The calls a caller makes for one value split into the chunks `chunks`: one
persistent state, each call writing at the output offset reached so far
(`rdata->octets += length` in `parse_base64_sequence`). The field `ret` of the
result is 1 when every call returned 1, and 0 otherwise. -/
def stream_decode_chunks (bo : ByteOrder) :
    List (List Byte) → base64_state → Mem → Nat → Nat → decode_result
  | [], state, mem, _, total => { ret := 1, state := state, out := mem, outlen := total }
  | c :: cs, state, mem, out, total =>
    let r := base64_stream_decode bo state c mem (out + total)
    let rs := stream_decode_chunks bo cs r.state r.out out (total + r.outlen)
    { rs with ret := if r.ret = 1 then rs.ret else 0 }

/-- The fields of `rdata_t` that the Base64 parsers use: the write pointer
`octets` and the end of the buffer `limit`, both addresses. -/
structure rdata_t where
  octets : Nat
  limit : Nat
deriving DecidableEq

/-- The subtraction `(uintptr_t)a - (uintptr_t)b` for a 64-bit `uintptr_t`. -/
def uintptr_sub (a b : Nat) : Nat := (a % 2 ^ 64 + 2 ^ 64 - b % 2 ^ 64) % 2 ^ 64

/-- How a parser function ends: `SYNTAX_ERROR(...)` leaves the function with an
error, otherwise it returns a code. -/
inductive parse_outcome where
  | syntax_error
  | returned (code : Int)
deriving DecidableEq

/-- Outcome of a parser function with the `rdata` and the memory it leaves, and
the decoder state at that point. -/
structure parse_result where
  outcome : parse_outcome
  rdata : rdata_t
  mem : Mem
  state : base64_state

/-- The `do ... while (is_contiguous(token))` loop of `parse_base64_sequence`
together with the test that follows it. The contiguous tokens that the
tokenizer delivers (`take`) are the list `tokens`; `delim` is what
`have_delimiter` returns for the token after them. -/
def parse_base64_sequence_loop (bo : ByteOrder) (delim : Int) :
    List (List Byte) → base64_state → rdata_t → Mem → parse_result
  | [], state, rdata, mem =>
    if state.bytes ≠ 0 then
      { outcome := .syntax_error, rdata := rdata, mem := mem, state := state }
    else
      { outcome := .returned delim, rdata := rdata, mem := mem, state := state }
  | token :: rest, state, rdata, mem =>
    let length := token.length / 4
    if uintptr_sub rdata.limit rdata.octets / 3 < length then
      { outcome := .syntax_error, rdata := rdata, mem := mem, state := state }
    else
      let r := base64_stream_decode bo state token mem rdata.octets
      if r.ret = 0 then
        { outcome := .syntax_error, rdata := rdata, mem := r.out, state := r.state }
      else
        parse_base64_sequence_loop bo delim rest r.state
          { rdata with octets := rdata.octets + r.outlen } r.out

/-- The function `parse_base64_sequence`. -/
def parse_base64_sequence (bo : ByteOrder) (delim : Int) (tokens : List (List Byte))
    (rdata : rdata_t) (mem : Mem) : parse_result :=
  match tokens with
  | [] => { outcome := .returned delim, rdata := rdata, mem := mem, state := base64_state_zero }
  | _ :: _ => parse_base64_sequence_loop bo delim tokens base64_state_zero rdata mem

/-- The function `parse_base64`. -/
def parse_base64 (bo : ByteOrder) (token : List Byte) (rdata : rdata_t) (mem : Mem) :
    parse_result :=
  let length := token.length / 4
  if uintptr_sub rdata.limit rdata.octets / 3 < length then
    { outcome := .syntax_error, rdata := rdata, mem := mem, state := base64_state_zero }
  else
    let r := base64_decode bo token mem rdata.octets
    if r.ret = 0 then
      { outcome := .syntax_error, rdata := rdata, mem := r.out, state := r.state }
    else
      { outcome := .returned 0, rdata := { rdata with octets := rdata.octets + r.outlen },
        mem := r.out, state := r.state }

/-! ## Reference notions used to state the properties -/

/-- The Base64 alphabet of RFC 4648 (Table 1), by value 0..63. -/
def base64_alphabet : List Byte :=
  ascii "ABCDEFGHIJKLMNOPQRSTUVWXYZabcdefghijklmnopqrstuvwxyz0123456789+/"

/-- A data character: one of `A-Z`, `a-z`, `0-9`, `+`, `/`. -/
def is_data (c : Byte) : Prop := c ∈ base64_alphabet

instance (c : Byte) : Decidable (is_data c) := by unfold is_data; infer_instance

/-- The 6-bit value of a data character: its index in the alphabet. -/
def sextet (c : Byte) : Nat := base64_alphabet.indexOf c

/-- The character of the alphabet with value `v`. -/
def enc_char (v : Nat) : Byte := base64_alphabet.getD v 0

/-- The padded Base64 encoding of RFC 4648, section 4. -/
def base64_encode : List Byte → List Byte
  | [] => []
  | [a] =>
    [enc_char (a.val >>> 2), enc_char ((a.val &&& 3) <<< 4), CHARPAD, CHARPAD]
  | [a, b] =>
    [enc_char (a.val >>> 2), enc_char ((a.val &&& 3) <<< 4 ||| b.val >>> 4),
      enc_char ((b.val &&& 15) <<< 2), CHARPAD]
  | a :: b :: c :: rest =>
    enc_char (a.val >>> 2) :: enc_char ((a.val &&& 3) <<< 4 ||| b.val >>> 4) ::
      enc_char ((b.val &&& 15) <<< 2 ||| c.val >>> 6) :: enc_char (c.val &&& 63) ::
      base64_encode rest

/-- Valid Base64 text: zero or more groups of 4 data characters, optionally
followed by one final group `xx==` or `xxx=`. -/
def valid_text (t : List Byte) : Prop :=
  ∃ body tail, t = body ++ tail ∧ (∀ c ∈ body, is_data c) ∧ body.length % 4 = 0 ∧
    (tail = [] ∨ (∃ x y, is_data x ∧ is_data y ∧ tail = [x, y, CHARPAD, CHARPAD]) ∨
      (∃ x y z, is_data x ∧ is_data y ∧ is_data z ∧ tail = [x, y, z, CHARPAD]))

/-! ## The scalar state machine as a function on lists

`scalar_run p c s` follows the four `case` blocks of `base64_stream_decode`
from quantum position `p` with carry `c` over the input `s`, one character at
a time, without the batch loop; it is the yardstick the embedded function is
compared with. -/

/-- Result of the list-level machine: return value, state, bytes emitted. -/
structure Run where
  ret : Int
  st : base64_state
  outs : List Byte

/-- Prepend one emitted byte. -/
def Run.emit (b : Byte) (r : Run) : Run := { r with outs := b :: r.outs }

/-- The scalar machine on a list of input bytes. -/
def scalar_run : Nat → Byte → List Byte → Run
  | p, c, [] => ⟨1, ⟨0, p, c⟩, []⟩
  | p, c, x :: xs =>
    if 254 ≤ dec_8bit x then
      match p with
      | 0 => ⟨0, ⟨BASE64_EOF, 0, c⟩, []⟩
      | 1 => ⟨0, ⟨BASE64_EOF, 1, c⟩, []⟩
      | 2 =>
        if dec_8bit x = 254 then
          match xs with
          | [] => ⟨1, ⟨BASE64_AEOF, 3, c⟩, []⟩
          | y :: ys => ⟨if dec_8bit y = 254 ∧ ys = [] then 1 else 0, ⟨BASE64_EOF, 0, c⟩, []⟩
        else ⟨0, ⟨0, 3, c⟩, []⟩
      | _ => ⟨if dec_8bit x = 254 ∧ xs = [] then 1 else 0, ⟨BASE64_EOF, 0, c⟩, []⟩
    else
      match p with
      | 0 => scalar_run 1 (u8 (dec_8bit x <<< 2)) xs
      | 1 => (scalar_run 2 (u8 (dec_8bit x <<< 4)) xs).emit (u8 (c.val ||| dec_8bit x >>> 4))
      | 2 => (scalar_run 3 (u8 (dec_8bit x <<< 6)) xs).emit (u8 (c.val ||| dec_8bit x >>> 2))
      | _ => (scalar_run 0 0 xs).emit (u8 (c.val ||| dec_8bit x))

/-- The bytes `l` were written at `o`, and nothing below `o` was touched. -/
def Wrote (m m1 : Mem) (o : Nat) (l : List Byte) : Prop :=
  (∀ i, i < l.length → m1 (o + i) = l.getD i 0) ∧ ∀ j, j < o → m1 j = m j

/-- Closed form of `base64_table_dec_8bit` by byte value. -/
def alphabet_value (n : Nat) : Nat :=
  if 65 ≤ n ∧ n ≤ 90 then n - 65
  else if 97 ≤ n ∧ n ≤ 122 then n - 71
  else if 48 ≤ n ∧ n ≤ 57 then n + 4
  else if n = 43 then 62
  else if n = 47 then 63
  else if n = 61 then 254
  else 255

/-- Closed form of the wide tables in terms of the 8-bit table value `v`. -/
def wide_value (bo : ByteOrder) (k : Nat) (v : Nat) : Nat :=
  if 64 ≤ v then 0xffffffff
  else
    match bo, k with
    | .little, 0 => v <<< 2
    | .little, 1 => v >>> 4 ||| (v &&& 15) <<< 12
    | .little, 2 => (v >>> 2) <<< 8 ||| (v &&& 3) <<< 22
    | .little, _ => v <<< 16
    | .big, 0 => v <<< 26
    | .big, 1 => v <<< 20
    | .big, 2 => v <<< 14
    | .big, _ => v <<< 8

/-- The three bytes that a quantum of four 6-bit values decodes to. -/
def quantum_bytes (v0 v1 v2 v3 : Nat) : List Byte :=
  [u8 ((u8 (v0 <<< 2)).val ||| v1 >>> 4), u8 ((u8 (v1 <<< 4)).val ||| v2 >>> 2),
    u8 ((u8 (v2 <<< 6)).val ||| v3)]

/-- The next four input bytes are all data characters. -/
def quad_ok (s : List Byte) : Prop :=
  dec_8bit (peek s 0) < 64 ∧ dec_8bit (peek s 1) < 64 ∧ dec_8bit (peek s 2) < 64 ∧
    dec_8bit (peek s 3) < 64

instance (s : List Byte) : Decidable (quad_ok s) := by unfold quad_ok; infer_instance

/-- Number of leading groups of four data characters of `s`, at most `n`. -/
def data_quanta : Nat → List Byte → Nat
  | 0, _ => 0
  | n + 1, s => if quad_ok s then data_quanta n (s.drop 4) + 1 else 0

/-- The bytes that the first `c` groups of four characters of `s` decode to. -/
def decode_quads : Nat → List Byte → List Byte
  | 0, _ => []
  | c + 1, s =>
    quantum_bytes (dec_8bit (peek s 0)) (dec_8bit (peek s 1)) (dec_8bit (peek s 2))
      (dec_8bit (peek s 3)) ++ decode_quads c (s.drop 4)

/-- Prepend emitted bytes. -/
def Run.emits (l : List Byte) (r : Run) : Run := { r with outs := l ++ r.outs }

/-- Statement of the batch loop: from `rounds` it decodes the leading data
quanta, at most `rounds` of them, and leaves the number of rounds not run. -/
def LoopSpec (bo : ByteOrder) (fuel : Nat) : Prop :=
  ∀ (v : Vars) (rounds : Nat), 1 ≤ rounds → rounds ≤ fuel →
    ∃ m1, dec_loop_generic_32_loop bo fuel v rounds =
        ({ v with s := v.s.drop (4 * data_quanta rounds v.s),
                  o := v.o + 3 * data_quanta rounds v.s, mem := m1 },
          rounds - data_quanta rounds v.s) ∧
      Wrote v.mem m1 v.o (decode_quads (data_quanta rounds v.s) v.s)

/-- The frame `g` reached from the frame `f` agrees with the list-level run
`r`: same return value, same `eof` and `bytes`, `olen` advanced by the bytes of
`r`, and these bytes written at the output pointer of `f`. -/
def Refines (f g : Frame) (r : Run) : Prop :=
  g.ret = r.ret ∧ g.st.eof = r.st.eof ∧ g.st.bytes = r.st.bytes ∧
    g.v.olen = f.v.olen + r.outs.length ∧ Wrote f.v.mem g.v.mem f.v.o r.outs

/-- The continuation `k` behaves as the list-level machine at position 0 on
every frame with fewer than `n` input bytes left. -/
def HeadSpec (k : Frame → Frame) (n : Nat) : Prop :=
  ∀ f : Frame, f.st.eof = 0 → f.st.bytes = 0 → f.st.carry = 0 → f.ret = 0 →
    f.v.slen = f.v.s.length → f.v.slen < n →
    Refines f (k f) (scalar_run 0 0 f.v.s) ∧ (k f).st.carry = (scalar_run 0 0 f.v.s).st.carry

/-! ## The decoder as an automaton on characters

Across calls the decoder is in one of these phases; feeding the characters of
all chunks one by one gives a run that does not depend on the chunking. -/

/-- Phase of a logical value: inside a quantum at position `p` with carry `c`,
after the first pad of a two-pad tail, cleanly closed, or failed. -/
inductive Phase where
  | pos (p : Nat) (c : Byte)
  | pad1
  | done
  | fail
deriving DecidableEq

/-- One character: next phase and emitted bytes. -/
def phase_step (ph : Phase) (x : Byte) : Phase × List Byte :=
  match ph with
  | .pos p c =>
    if dec_8bit x < 64 then
      if p = 0 then (.pos 1 (u8 (dec_8bit x <<< 2)), [])
      else if p = 1 then (.pos 2 (u8 (dec_8bit x <<< 4)), [u8 (c.val ||| dec_8bit x >>> 4)])
      else if p = 2 then (.pos 3 (u8 (dec_8bit x <<< 6)), [u8 (c.val ||| dec_8bit x >>> 2)])
      else (.pos 0 0, [u8 (c.val ||| dec_8bit x)])
    else if dec_8bit x = 254 then
      if p = 2 then (.pad1, []) else if p = 3 then (.done, []) else (.fail, [])
    else (.fail, [])
  | .pad1 => if dec_8bit x = 254 then (.done, []) else (.fail, [])
  | .done => (.fail, [])
  | .fail => (.fail, [])

/-- A run of the automaton over a text. -/
def phase_run : Phase → List Byte → Phase × List Byte
  | ph, [] => (ph, [])
  | ph, x :: xs =>
    ((phase_run (phase_step ph x).1 xs).1, (phase_step ph x).2 ++ (phase_run (phase_step ph x).1 xs).2)

/-- The phases in which a value is complete: at a quantum boundary, or closed
by padding. -/
def Phase.accepting (ph : Phase) : Bool :=
  match ph with
  | .pos p _ => p = 0
  | .done => true
  | _ => false

/-- The decoder state `st` is in phase `ph`. -/
def InPhase (st : base64_state) : Phase → Prop
  | .pos p c => st.eof = 0 ∧ st.bytes = p ∧ st.carry = c ∧ p ≤ 3 ∧ (p = 0 → c = 0)
  | .pad1 => st.eof = BASE64_AEOF ∧ st.bytes = 3
  | .done => st.eof = BASE64_EOF ∧ st.bytes = 0
  | .fail => False

/-- A memory holding zero everywhere, for concrete runs. -/
def zero_mem : Mem := fun _ => 0

/-- The first character of `s` that is not a data character is met at quantum
position 2 (counting from position `p`) and is not the pad character. -/
def invalid_at_two : Nat → List Byte → Bool
  | _, [] => false
  | p, x :: xs =>
    if is_data x then invalid_at_two ((p + 1) % 4) xs else decide (p = 2 ∧ x ≠ CHARPAD)

/-! ## The scalar-only variant

The stream decoder with the call of `dec_loop_generic_32` replaced by a
no-op, to compare the batch path with. -/

/-- The `for (;;)` loop without the batch loop. -/
def stream_loop_scalar : Nat → Frame → Frame
  | 0, f => f
  | fuel + 1, f => stream_case0_scalar (stream_loop_scalar fuel) f

/-- The function `base64_stream_decode` with `dec_loop_generic_32` replaced by
a no-op: only the scalar statements run. -/
def base64_stream_decode_scalar (state : base64_state) (src : List Byte) (mem : Mem)
    (out : Nat) : decode_result :=
  let f : Frame :=
    { v := { s := src, slen := src.length, o := out, olen := 0, mem := mem },
      st := { eof := state.eof, bytes := state.bytes, carry := state.carry },
      ret := 0 }
  if f.st.eof ≠ 0 then
    if f.v.slen ≠ 0 ∧ f.st.eof = BASE64_AEOF then
      { ret := if dec_8bit (peek f.v.s 0) = 254 ∧ f.v.slen = 1 then 1 else 0,
        state := { state with bytes := 0, eof := BASE64_EOF },
        out := mem, outlen := 0 }
    else
      { ret := 0, state := state, out := mem, outlen := 0 }
  else
    let k := stream_loop_scalar src.length
    let g :=
      if f.st.bytes = 0 then stream_case0_scalar k f
      else if f.st.bytes = 1 then stream_case1 k f
      else if f.st.bytes = 2 then stream_case2 k f
      else if f.st.bytes = 3 then stream_case3 k f
      else f
    { ret := g.ret, state := g.st, out := g.v.mem, outlen := g.v.olen }

/-- Number of leading 4-byte groups of `s` made entirely of data characters. -/
def leading_groups : List Byte → Nat
  | a :: b :: c :: d :: rest =>
    if is_data a ∧ is_data b ∧ is_data c ∧ is_data d then leading_groups rest + 1 else 0
  | _ => 0

/-! ## Sequences of calls and the state invariant -/

/-- The state after a sequence of calls of `base64_stream_decode` on one
persistent state; each call has its own chunk, memory and output pointer, and
the caller goes on whatever the calls return. -/
def stream_decode_calls (bo : ByteOrder) :
    List (List Byte × Mem × Nat) → base64_state → base64_state
  | [], st => st
  | (src, mem, out) :: rest, st =>
    stream_decode_calls bo rest (base64_stream_decode bo st src mem out).state

/-- The fields of a state are in range: `eof` is 0, `BASE64_AEOF` or
`BASE64_EOF`, and `bytes` is 0, 1, 2 or 3. -/
def state_in_range (st : base64_state) : Prop :=
  (st.eof = 0 ∨ st.eof = BASE64_AEOF ∨ st.eof = BASE64_EOF) ∧ 0 ≤ st.bytes ∧ st.bytes ≤ 3

/-- What holds of the states the decoder itself produces: ALMOST_DONE is only
entered at `bytes == 3`, and at a quantum boundary no carry bits are pending. -/
def state_reachable_inv (st : base64_state) : Prop :=
  state_in_range st ∧ (st.eof = BASE64_AEOF → st.bytes = 3) ∧
    (st.eof = 0 → st.bytes = 0 → st.carry = 0)

/-! ## Theorems -/

set_option maxRecDepth 100000

theorem getD_map_of_lt {α β : Type} (f : α → β) (l : List α) (i : Nat) (d : α) (e : β)
    (h : i < l.length) : (l.map f).getD i e = f (l.getD i d) := by
  simp [List.getD, List.getElem?_eq_getElem, h]

theorem table_8bit_eq : base64_table_dec_8bit = (List.range 256).map alphabet_value := by
  decide!

theorem table_32bit_eq :
    base64_table_dec_32bit_d0 = base64_table_dec_8bit.map (wide_value .little 0) ∧
    base64_table_dec_32bit_d1 = base64_table_dec_8bit.map (wide_value .little 1) ∧
    base64_table_dec_32bit_d2 = base64_table_dec_8bit.map (wide_value .little 2) ∧
    base64_table_dec_32bit_d3 = base64_table_dec_8bit.map (wide_value .little 3) ∧
    base64_table_dec_32bit_d0_be = base64_table_dec_8bit.map (wide_value .big 0) ∧
    base64_table_dec_32bit_d1_be = base64_table_dec_8bit.map (wide_value .big 1) ∧
    base64_table_dec_32bit_d2_be = base64_table_dec_8bit.map (wide_value .big 2) ∧
    base64_table_dec_32bit_d3_be = base64_table_dec_8bit.map (wide_value .big 3) := by
  decide!

theorem table_8bit_length : base64_table_dec_8bit.length = 256 := by decide

theorem dec_8bit_eq (c : Byte) : dec_8bit c = alphabet_value c.val := by
  unfold dec_8bit
  rw [table_8bit_eq, getD_map_of_lt alphabet_value _ _ 0 _ (by simp)]
  congr 1
  simp [List.getD, List.getElem?_eq_getElem]

theorem dec_32bit_eq (bo : ByteOrder) (k : Nat) (c : Byte) :
    dec_32bit bo k c = wide_value bo k (dec_8bit c) := by
  have hl : c.val < base64_table_dec_8bit.length := by rw [table_8bit_length]; exact c.isLt
  obtain ⟨h0, h1, h2, h3, h4, h5, h6, h7⟩ := table_32bit_eq
  have key : ∀ k1, (base64_table_dec_8bit.map (wide_value bo k1)).getD c.val 0
      = wide_value bo k1 (dec_8bit c) := fun k1 => getD_map_of_lt _ _ _ 255 0 hl
  cases bo <;> rcases k with _ | _ | _ | k
  · show base64_table_dec_32bit_d0.getD c.val 0 = _
    rw [h0]; exact key 0
  · show base64_table_dec_32bit_d1.getD c.val 0 = _
    rw [h1]; exact key 1
  · show base64_table_dec_32bit_d2.getD c.val 0 = _
    rw [h2]; exact key 2
  · show base64_table_dec_32bit_d3.getD c.val 0 = _
    rw [h3]; exact key 3
  · show base64_table_dec_32bit_d0_be.getD c.val 0 = _
    rw [h4]; exact key 0
  · show base64_table_dec_32bit_d1_be.getD c.val 0 = _
    rw [h5]; exact key 1
  · show base64_table_dec_32bit_d2_be.getD c.val 0 = _
    rw [h6]; exact key 2
  · show base64_table_dec_32bit_d3_be.getD c.val 0 = _
    rw [h7]; exact key 3

theorem dec_8bit_cases (c : Byte) : dec_8bit c < 64 ∨ dec_8bit c = 254 ∨ dec_8bit c = 255 := by
  rw [dec_8bit_eq]; revert c; decide!

theorem is_data_iff (c : Byte) : is_data c ↔ dec_8bit c < 64 := by
  rw [dec_8bit_eq]; revert c; decide!

theorem sextet_eq (c : Byte) (h : is_data c) : sextet c = dec_8bit c := by
  rw [dec_8bit_eq]; revert c; decide!

theorem dec_8bit_enc_char (v : Nat) (h : v < 64) : dec_8bit (enc_char v) = v := by
  rw [dec_8bit_eq]
  have : ∀ w : Fin 64, alphabet_value (enc_char w.val).val = w.val := by decide!
  exact this ⟨v, h⟩

theorem dec_8bit_pad : dec_8bit CHARPAD = 254 := by decide

theorem or_mod_two_pow (x y n : Nat) : (x ||| y) % 2 ^ n = x % 2 ^ n ||| y % 2 ^ n := by
  apply Nat.eq_of_testBit_eq
  intro i
  simp only [Nat.testBit_mod_two_pow, Nat.testBit_or]
  cases decide (i < n) <;> simp

theorem shiftRight_or (x y n : Nat) : (x ||| y) >>> n = x >>> n ||| y >>> n := by
  apply Nat.eq_of_testBit_eq
  intro i
  simp only [Nat.testBit_shiftRight, Nat.testBit_or]

theorem or_mod_256 (x y : Nat) : (x ||| y) % 256 = x % 256 ||| y % 256 :=
  or_mod_two_pow x y 8

theorem u8_eq_of_mod {x y : Nat} (h : x % 256 = y % 256) : u8 x = u8 y := by
  unfold u8; exact Fin.ext h

theorem u8_val (x : Nat) : (u8 x).val = x % 256 := rfl

/-- The word OR-ed from the wide tables for four 6-bit values. -/
theorem wide_bytes_little :
    ∀ v, v < 64 →
      ((wide_value .little 0 v) % 256 = (v <<< 2) % 256 ∧
       (wide_value .little 0 v >>> 8) % 256 = 0 ∧
       (wide_value .little 0 v >>> 16) % 256 = 0 ∧
       (wide_value .little 0 v >>> 24) % 256 = 0) ∧
      ((wide_value .little 1 v) % 256 = v >>> 4 ∧
       (wide_value .little 1 v >>> 8) % 256 = (v <<< 4) % 256 ∧
       (wide_value .little 1 v >>> 16) % 256 = 0 ∧
       (wide_value .little 1 v >>> 24) % 256 = 0) ∧
      ((wide_value .little 2 v) % 256 = 0 ∧
       (wide_value .little 2 v >>> 8) % 256 = v >>> 2 ∧
       (wide_value .little 2 v >>> 16) % 256 = (v <<< 6) % 256 ∧
       (wide_value .little 2 v >>> 24) % 256 = 0) ∧
      ((wide_value .little 3 v) % 256 = 0 ∧
       (wide_value .little 3 v >>> 8) % 256 = 0 ∧
       (wide_value .little 3 v >>> 16) % 256 = v ∧
       (wide_value .little 3 v >>> 24) % 256 = 0) := by
  decide!

theorem wide_bytes_big :
    ∀ v, v < 64 →
      ((wide_value .big 0 v >>> 24) % 256 = (v <<< 2) % 256 ∧
       (wide_value .big 0 v >>> 16) % 256 = 0 ∧
       (wide_value .big 0 v >>> 8) % 256 = 0 ∧
       (wide_value .big 0 v) % 256 = 0) ∧
      ((wide_value .big 1 v >>> 24) % 256 = v >>> 4 ∧
       (wide_value .big 1 v >>> 16) % 256 = (v <<< 4) % 256 ∧
       (wide_value .big 1 v >>> 8) % 256 = 0 ∧
       (wide_value .big 1 v) % 256 = 0) ∧
      ((wide_value .big 2 v >>> 24) % 256 = 0 ∧
       (wide_value .big 2 v >>> 16) % 256 = v >>> 2 ∧
       (wide_value .big 2 v >>> 8) % 256 = (v <<< 6) % 256 ∧
       (wide_value .big 2 v) % 256 = 0) ∧
      ((wide_value .big 3 v >>> 24) % 256 = 0 ∧
       (wide_value .big 3 v >>> 16) % 256 = 0 ∧
       (wide_value .big 3 v >>> 8) % 256 = v ∧
       (wide_value .big 3 v) % 256 = 0) := by
  decide!

theorem small_mod : ∀ v, v < 64 → (v >>> 4) % 256 = v >>> 4 ∧ (v >>> 2) % 256 = v >>> 2 ∧
    v % 256 = v := by
  decide!

/-- Storing the OR-ed word writes the three decoded bytes and a zero byte, in
either byte order. -/
theorem memcpy_quantum (bo : ByteOrder) (m : Mem) (o v0 v1 v2 v3 : Nat)
    (h0 : v0 < 64) (h1 : v1 < 64) (h2 : v2 < 64) (h3 : v3 < 64) :
    memcpy_u32 bo m o (wide_value bo 0 v0 ||| wide_value bo 1 v1 ||| wide_value bo 2 v2
      ||| wide_value bo 3 v3)
    = store (store (store (store m o (u8 ((u8 (v0 <<< 2)).val ||| v1 >>> 4)))
        (o + 1) (u8 ((u8 (v1 <<< 4)).val ||| v2 >>> 2)))
        (o + 2) (u8 ((u8 (v2 <<< 6)).val ||| v3))) (o + 3) 0 := by
  obtain ⟨s1, s2, s3⟩ := small_mod v1 h1
  obtain ⟨t1, t2, t3⟩ := small_mod v2 h2
  obtain ⟨r1, r2, r3⟩ := small_mod v3 h3
  cases bo
  · obtain ⟨⟨a0, a1, a2, a3⟩, -, -, -⟩ := wide_bytes_little v0 h0
    obtain ⟨-, ⟨b0, b1, b2, b3⟩, -, -⟩ := wide_bytes_little v1 h1
    obtain ⟨-, -, ⟨c0, c1, c2, c3⟩, -⟩ := wide_bytes_little v2 h2
    obtain ⟨-, -, -, ⟨d0, d1, d2, d3⟩⟩ := wide_bytes_little v3 h3
    have e0 : u8 (wide_value .little 0 v0 ||| wide_value .little 1 v1 ||| wide_value .little 2 v2
        ||| wide_value .little 3 v3) = u8 ((u8 (v0 <<< 2)).val ||| v1 >>> 4) := by
      apply u8_eq_of_mod
      simp only [or_mod_256, u8_val, a0, b0, c0, d0, Nat.mod_mod, s1, Nat.or_zero]
    have e1 : u8 ((wide_value .little 0 v0 ||| wide_value .little 1 v1
        ||| wide_value .little 2 v2 ||| wide_value .little 3 v3) >>> 8)
        = u8 ((u8 (v1 <<< 4)).val ||| v2 >>> 2) := by
      apply u8_eq_of_mod
      simp only [shiftRight_or, or_mod_256, u8_val, a1, b1, c1, d1, Nat.mod_mod, t2,
        Nat.or_zero, Nat.zero_or]
    have e2 : u8 ((wide_value .little 0 v0 ||| wide_value .little 1 v1
        ||| wide_value .little 2 v2 ||| wide_value .little 3 v3) >>> 16)
        = u8 ((u8 (v2 <<< 6)).val ||| v3) := by
      apply u8_eq_of_mod
      simp only [shiftRight_or, or_mod_256, u8_val, a2, b2, c2, d2, Nat.mod_mod, r3,
        Nat.or_zero, Nat.zero_or]
    have e3 : u8 ((wide_value .little 0 v0 ||| wide_value .little 1 v1
        ||| wide_value .little 2 v2 ||| wide_value .little 3 v3) >>> 24) = 0 := by
      apply Fin.ext
      simp only [shiftRight_or, or_mod_256, u8_val, a3, b3, c3, d3, Nat.or_zero]
      rfl
    simp only [memcpy_u32, e0, e1, e2, e3]
  · obtain ⟨⟨a0, a1, a2, a3⟩, -, -, -⟩ := wide_bytes_big v0 h0
    obtain ⟨-, ⟨b0, b1, b2, b3⟩, -, -⟩ := wide_bytes_big v1 h1
    obtain ⟨-, -, ⟨c0, c1, c2, c3⟩, -⟩ := wide_bytes_big v2 h2
    obtain ⟨-, -, -, ⟨d0, d1, d2, d3⟩⟩ := wide_bytes_big v3 h3
    have e0 : u8 ((wide_value .big 0 v0 ||| wide_value .big 1 v1 ||| wide_value .big 2 v2
        ||| wide_value .big 3 v3) >>> 24) = u8 ((u8 (v0 <<< 2)).val ||| v1 >>> 4) := by
      apply u8_eq_of_mod
      simp only [shiftRight_or, or_mod_256, u8_val, a0, b0, c0, d0, Nat.mod_mod, s1,
        Nat.or_zero]
    have e1 : u8 ((wide_value .big 0 v0 ||| wide_value .big 1 v1
        ||| wide_value .big 2 v2 ||| wide_value .big 3 v3) >>> 16)
        = u8 ((u8 (v1 <<< 4)).val ||| v2 >>> 2) := by
      apply u8_eq_of_mod
      simp only [shiftRight_or, or_mod_256, u8_val, a1, b1, c1, d1, Nat.mod_mod, t2,
        Nat.or_zero, Nat.zero_or]
    have e2 : u8 ((wide_value .big 0 v0 ||| wide_value .big 1 v1
        ||| wide_value .big 2 v2 ||| wide_value .big 3 v3) >>> 8)
        = u8 ((u8 (v2 <<< 6)).val ||| v3) := by
      apply u8_eq_of_mod
      simp only [shiftRight_or, or_mod_256, u8_val, a2, b2, c2, d2, Nat.mod_mod, r3,
        Nat.or_zero, Nat.zero_or]
    have e3 : u8 (wide_value .big 0 v0 ||| wide_value .big 1 v1
        ||| wide_value .big 2 v2 ||| wide_value .big 3 v3) = 0 := by
      apply Fin.ext
      simp only [or_mod_256, u8_val, a3, b3, c3, d3, Nat.or_zero]
      rfl
    simp only [memcpy_u32, e0, e1, e2, e3]

theorem wide_value_invalid (bo : ByteOrder) (k v : Nat) (h : 64 ≤ v) :
    wide_value bo k v = 0xffffffff := by
  unfold wide_value; rw [if_pos h]

theorem wide_testBit_data : ∀ v, v < 64 →
    (wide_value .little 0 v).testBit 31 = false ∧ (wide_value .little 1 v).testBit 31 = false ∧
    (wide_value .little 2 v).testBit 31 = false ∧ (wide_value .little 3 v).testBit 31 = false ∧
    (wide_value .big 0 v).testBit 0 = false ∧ (wide_value .big 1 v).testBit 0 = false ∧
    (wide_value .big 2 v).testBit 0 = false ∧ (wide_value .big 3 v).testBit 0 = false := by
  decide!

theorem and_mark_ne_zero (bo : ByteOrder) (w : Nat) :
    w &&& invalid_mark bo ≠ 0 ↔ w.testBit (match bo with | .little => 31 | .big => 0) = true := by
  cases bo
  · show w &&& 2 ^ 31 ≠ 0 ↔ _
    rw [Nat.and_two_pow]
    cases w.testBit 31 <;> simp
  · show w &&& 2 ^ 0 ≠ 0 ↔ _
    rw [Nat.and_two_pow]
    cases w.testBit 0 <;> simp

/-- The OR-ed word carries the mark exactly when one of the four table values
is not a 6-bit value. -/
theorem wide_or_marked (bo : ByteOrder) (v0 v1 v2 v3 : Nat) :
    (wide_value bo 0 v0 ||| wide_value bo 1 v1 ||| wide_value bo 2 v2 ||| wide_value bo 3 v3)
      &&& invalid_mark bo ≠ 0 ↔ ¬ (v0 < 64 ∧ v1 < 64 ∧ v2 < 64 ∧ v3 < 64) := by
  rw [and_mark_ne_zero]
  have hd : ∀ k v, 64 ≤ v →
      (wide_value bo k v).testBit (match bo with | .little => 31 | .big => 0) = true := by
    intro k v hv
    rw [wide_value_invalid bo k v hv]
    cases bo <;> decide
  by_cases h0 : v0 < 64 <;> by_cases h1 : v1 < 64 <;> by_cases h2 : v2 < 64 <;>
    by_cases h3 : v3 < 64
  · obtain ⟨a0, -, -, -, a4, -, -, -⟩ := wide_testBit_data v0 h0
    obtain ⟨-, b1, -, -, -, b5, -, -⟩ := wide_testBit_data v1 h1
    obtain ⟨-, -, c2, -, -, -, c6, -⟩ := wide_testBit_data v2 h2
    obtain ⟨-, -, -, d3, -, -, -, d7⟩ := wide_testBit_data v3 h3
    cases bo
    · simp only [Nat.testBit_or, a0, b1, c2, d3, h0, h1, h2, h3]; simp
    · simp only [Nat.testBit_or, a4, b5, c6, d7, h0, h1, h2, h3]; simp
  all_goals
    simp only [Nat.testBit_or, h0, h1, h2, h3, and_true, and_false, false_and, true_and,
      not_false_eq_true, not_true_eq_false, iff_true]
    first
    | (have h9 := hd 0 v0 (by omega); simp [h9])
    | (have h9 := hd 1 v1 (by omega); simp [h9])
    | (have h9 := hd 2 v2 (by omega); simp [h9])
    | (have h9 := hd 3 v3 (by omega); simp [h9])

/-! ### The batch inner step and the batch loop -/

theorem inner_eq (bo : ByteOrder) (v : Vars) (rounds : Nat) :
    dec_loop_generic_32_inner bo v rounds =
      if quad_ok v.s then
        (true,
          { v with
            mem := store (store (store (store v.mem v.o
              (u8 ((u8 (dec_8bit (peek v.s 0) <<< 2)).val ||| dec_8bit (peek v.s 1) >>> 4)))
              (v.o + 1)
              (u8 ((u8 (dec_8bit (peek v.s 1) <<< 4)).val ||| dec_8bit (peek v.s 2) >>> 2)))
              (v.o + 2) (u8 ((u8 (dec_8bit (peek v.s 2) <<< 6)).val ||| dec_8bit (peek v.s 3))))
              (v.o + 3) 0,
            s := v.s.drop 4, o := v.o + 3 },
          rounds - 1)
      else (false, v, rounds) := by
  unfold dec_loop_generic_32_inner
  simp only [dec_32bit_eq]
  by_cases h : quad_ok v.s
  · have hm := (wide_or_marked bo (dec_8bit (peek v.s 0)) (dec_8bit (peek v.s 1))
      (dec_8bit (peek v.s 2)) (dec_8bit (peek v.s 3))).not.mpr (not_not.mpr h)
    rw [if_neg hm, if_pos h, memcpy_quantum bo _ _ _ _ _ _ h.1 h.2.1 h.2.2.1 h.2.2.2]
  · have hm := (wide_or_marked bo (dec_8bit (peek v.s 0)) (dec_8bit (peek v.s 1))
      (dec_8bit (peek v.s 2)) (dec_8bit (peek v.s 3))).mpr h
    rw [if_pos hm, if_neg h]

theorem wrote_refl (m : Mem) (o : Nat) : Wrote m m o [] :=
  ⟨fun i hi => absurd hi (Nat.not_lt_zero i), fun _ _ => rfl⟩

theorem wrote_cons {m m1 : Mem} {o : Nat} {b : Byte} {l : List Byte}
    (h : Wrote (store m o b) m1 (o + 1) l) : Wrote m m1 o (b :: l) := by
  obtain ⟨h1, h2⟩ := h
  refine ⟨fun i hi => ?_, fun j hj => ?_⟩
  · cases i with
    | zero =>
      have := h2 o (by omega)
      simpa [store] using this
    | succ i =>
      have := h1 i (by simpa using hi)
      rw [show o + (i + 1) = o + 1 + i by omega]
      simpa using this
  · have := h2 j (by omega)
    rw [this]
    simp only [store]
    rw [if_neg (by omega)]

theorem wrote_quantum {m m1 : Mem} {o : Nat} {b0 b1 b2 z : Byte} {l : List Byte}
    (h : Wrote (store (store (store (store m o b0) (o + 1) b1) (o + 2) b2) (o + 3) z) m1
      (o + 3) l) : Wrote m m1 o (b0 :: b1 :: b2 :: l) := by
  obtain ⟨h1, h2⟩ := h
  refine ⟨fun i hi => ?_, fun j hj => ?_⟩
  · rcases i with _ | _ | _ | i
    · have := h2 o (by omega)
      simpa [store] using this
    · have := h2 (o + 1) (by omega)
      simpa [store] using this
    · have := h2 (o + 2) (by omega)
      simpa [store] using this
    · have := h1 i (by simpa using hi)
      rw [show o + (i + 1 + 1 + 1) = o + 3 + i by omega]
      simpa using this
  · have := h2 j (by omega)
    rw [this]
    simp only [store]
    rw [if_neg (by omega), if_neg (by omega), if_neg (by omega), if_neg (by omega)]

theorem data_quanta_le (n : Nat) (s : List Byte) : data_quanta n s ≤ n := by
  induction n generalizing s with
  | zero => simp [data_quanta]
  | succ n ih =>
    unfold data_quanta
    split
    · have := ih (s.drop 4); omega
    · omega

theorem decode_quads_length (c : Nat) (s : List Byte) : (decode_quads c s).length = 3 * c := by
  induction c generalizing s with
  | zero => simp [decode_quads]
  | succ c ih => simp [decode_quads, quantum_bytes, ih]; omega

/-- The conjunction of `n` inner steps decodes the leading data quanta, at most
`n` of them, and succeeds when there were `n`. -/
theorem inner_and_spec (bo : ByteOrder) (n : Nat) (v : Vars) (rounds : Nat) :
    ∃ m1, dec_loop_generic_32_inner_and bo n v rounds =
        (decide (data_quanta n v.s = n),
          { v with s := v.s.drop (4 * data_quanta n v.s), o := v.o + 3 * data_quanta n v.s,
                   mem := m1 },
          rounds - data_quanta n v.s) ∧
      Wrote v.mem m1 v.o (decode_quads (data_quanta n v.s) v.s) := by
  induction n generalizing v rounds with
  | zero =>
    exact ⟨v.mem, by simp [dec_loop_generic_32_inner_and, data_quanta], by
      simpa [data_quanta, decode_quads] using wrote_refl v.mem v.o⟩
  | succ n ih =>
    unfold dec_loop_generic_32_inner_and
    rw [inner_eq]
    by_cases h : quad_ok v.s
    · rw [if_pos h]
      simp only []
      obtain ⟨m1, e, w⟩ := ih _ (rounds - 1)
      refine ⟨m1, ?_, ?_⟩
      · rw [e]
        simp only [data_quanta, if_pos h, List.drop_drop]
        refine Prod.ext ?_ (Prod.ext ?_ ?_)
        · simp
        · simp only []
          congr 1
          · congr 1; omega
          · omega
        · simp only []; omega
      · simp only [data_quanta, if_pos h, decode_quads, quantum_bytes]
        exact wrote_quantum w
    · rw [if_neg h]
      refine ⟨v.mem, ?_, ?_⟩
      · simp [data_quanta, if_neg h]
      · simpa [data_quanta, if_neg h, decode_quads] using wrote_refl v.mem v.o

theorem wrote_append {m m1 m2 : Mem} {o : Nat} {l1 l2 : List Byte}
    (h1 : Wrote m m1 o l1) (h2 : Wrote m1 m2 (o + l1.length) l2) : Wrote m m2 o (l1 ++ l2) := by
  refine ⟨fun i hi => ?_, fun j hj => ?_⟩
  · by_cases hl : i < l1.length
    · rw [h2.2 (o + i) (by omega), h1.1 i hl]
      simp [List.getD, List.getElem?_append_left hl]
    · have hi2 : i - l1.length < l2.length := by
        simp only [List.length_append] at hi; omega
      have := h2.1 (i - l1.length) hi2
      rw [show o + l1.length + (i - l1.length) = o + i by omega] at this
      rw [this]
      simp [List.getD, List.getElem?_append_right (Nat.le_of_not_lt hl)]
  · rw [h2.2 j (by omega), h1.2 j hj]

theorem data_quanta_add (a b : Nat) (s : List Byte) :
    data_quanta (a + b) s =
      if data_quanta a s = a then a + data_quanta b (s.drop (4 * a)) else data_quanta a s := by
  induction a generalizing s with
  | zero => simp [data_quanta]
  | succ a ih =>
    rw [show a + 1 + b = (a + b) + 1 by omega]
    have e1 : data_quanta (a + b + 1) s
        = if quad_ok s then data_quanta (a + b) (s.drop 4) + 1 else 0 := rfl
    have e2 : data_quanta (a + 1) s
        = if quad_ok s then data_quanta a (s.drop 4) + 1 else 0 := rfl
    rw [e1, e2]
    by_cases h : quad_ok s
    · simp only [if_pos h, ih, List.drop_drop]
      rw [show 4 + 4 * a = 4 * (a + 1) by omega]
      by_cases h2 : data_quanta a (List.drop 4 s) = a
      · simp only [h2, if_true]; omega
      · rw [if_neg h2, if_neg (by omega)]
    · simp only [if_neg h]
      rw [if_neg (by omega)]

theorem decode_quads_add (a b : Nat) (s : List Byte) :
    decode_quads (a + b) s = decode_quads a s ++ decode_quads b (s.drop (4 * a)) := by
  induction a generalizing s with
  | zero => simp [decode_quads]
  | succ a ih =>
    rw [show a + 1 + b = (a + b) + 1 by omega]
    simp only [decode_quads, ih, List.drop_drop, List.append_assoc]
    rw [show 4 + 4 * a = 4 * (a + 1) by omega]

theorem next_spec (bo : ByteOrder) (fuel : Nat) (ih : LoopSpec bo fuel) (n : Nat) (v : Vars)
    (rounds : Nat) (hn : n ≤ rounds) (hr : rounds ≤ fuel + 1) (hn1 : 1 ≤ n) :
    ∃ m1, dec_loop_generic_32_next (dec_loop_generic_32_loop bo fuel)
          (dec_loop_generic_32_inner_and bo n v rounds) =
        ({ v with s := v.s.drop (4 * data_quanta rounds v.s),
                  o := v.o + 3 * data_quanta rounds v.s, mem := m1 },
          rounds - data_quanta rounds v.s) ∧
      Wrote v.mem m1 v.o (decode_quads (data_quanta rounds v.s) v.s) := by
  obtain ⟨m1, e, w⟩ := inner_and_spec bo n v rounds
  have hadd := data_quanta_add n (rounds - n) v.s
  rw [show n + (rounds - n) = rounds by omega] at hadd
  rw [e]
  by_cases hc : data_quanta n v.s = n
  · rw [if_pos hc] at hadd
    simp only [hc, decide_True, dec_loop_generic_32_next]
    by_cases h0 : rounds - n > 0
    · rw [if_pos h0]
      obtain ⟨m2, e2, w2⟩ := ih { v with s := v.s.drop (4 * n), o := v.o + 3 * n, mem := m1 }
        (rounds - n) (by omega) (by omega)
      refine ⟨m2, ?_, ?_⟩
      · rw [e2, hadd]
        simp only [List.drop_drop]
        refine Prod.ext ?_ ?_
        · simp only []
          congr 1
          · congr 1; omega
          · omega
        · simp only []; omega
      · rw [hadd, decode_quads_add]
        simp only [] at w2
        rw [hc] at w
        refine wrote_append w ?_
        rw [decode_quads_length]
        exact w2
    · rw [if_neg h0]
      have : rounds - n = 0 := by omega
      rw [this, data_quanta] at hadd
      refine ⟨m1, ?_, ?_⟩
      · rw [hadd]; simp
      · rw [hadd]; simpa [hc] using w
  · rw [if_neg hc] at hadd
    simp only [hc, decide_False, dec_loop_generic_32_next]
    exact ⟨m1, by rw [hadd], by rw [hadd]; exact w⟩

theorem loop_spec (bo : ByteOrder) (fuel : Nat) : LoopSpec bo fuel := by
  induction fuel with
  | zero => intro v rounds h1 h2; omega
  | succ fuel ih =>
    intro v rounds h1 h2
    unfold dec_loop_generic_32_loop
    by_cases h8 : rounds ≥ 8
    · rw [if_pos h8]; exact next_spec bo fuel ih 8 v rounds h8 h2 (by omega)
    · rw [if_neg h8]
      by_cases h4 : rounds ≥ 4
      · rw [if_pos h4]; exact next_spec bo fuel ih 4 v rounds h4 h2 (by omega)
      · rw [if_neg h4]
        by_cases h2' : rounds ≥ 2
        · rw [if_pos h2']; exact next_spec bo fuel ih 2 v rounds h2' h2 (by omega)
        · rw [if_neg h2']
          have hr : rounds = 1 := by omega
          subst hr
          obtain ⟨m1, e, w⟩ := inner_and_spec bo 1 v 1
          refine ⟨m1, ?_, w⟩
          have e1 : (dec_loop_generic_32_inner bo v 1).2
              = (dec_loop_generic_32_inner_and bo 1 v 1).2 := by
            simp only [dec_loop_generic_32_inner_and]
            rcases dec_loop_generic_32_inner bo v 1 with ⟨b, v1, r1⟩
            cases b <;> rfl
          rw [e1, e]

/-- The function `dec_loop_generic_32` in closed form: with fewer than 8 bytes
it does nothing; otherwise it consumes the leading data quanta, at most
`(slen - 4) / 4` of them. -/
theorem dec_loop_generic_32_spec (bo : ByteOrder) (v : Vars) :
    ∃ m1, dec_loop_generic_32 bo v =
        { s := v.s.drop (4 * data_quanta (if v.slen < 8 then 0 else (v.slen - 4) / 4) v.s),
          slen := v.slen - 4 * data_quanta (if v.slen < 8 then 0 else (v.slen - 4) / 4) v.s,
          o := v.o + 3 * data_quanta (if v.slen < 8 then 0 else (v.slen - 4) / 4) v.s,
          olen := v.olen + 3 * data_quanta (if v.slen < 8 then 0 else (v.slen - 4) / 4) v.s,
          mem := m1 } ∧
      Wrote v.mem m1 v.o
        (decode_quads (data_quanta (if v.slen < 8 then 0 else (v.slen - 4) / 4) v.s) v.s) := by
  unfold dec_loop_generic_32
  by_cases h : v.slen < 8
  · simp only [if_pos h, data_quanta, decode_quads]
    exact ⟨v.mem, by simp, wrote_refl _ _⟩
  · simp only [if_neg h]
    obtain ⟨m1, e, w⟩ := loop_spec bo ((v.slen - 4) / 4)
      { v with slen := v.slen - (v.slen - 4) / 4 * 4, olen := v.olen + (v.slen - 4) / 4 * 3 }
      ((v.slen - 4) / 4) (by omega) (Nat.le_refl _)
    refine ⟨m1, ?_, w⟩
    rw [e]
    have hle := data_quanta_le ((v.slen - 4) / 4) v.s
    simp only []
    congr 1 <;> omega

/-! ### The scalar statements against the list-level machine -/

theorem peek_cons (x : Byte) (xs : List Byte) : peek (x :: xs) 0 = x := rfl

theorem refines_emit {f f1 g : Frame} {r : Run} {b : Byte} (h : Refines f1 g r)
    (hm : f1.v.mem = store f.v.mem f.v.o b) (ho : f1.v.o = f.v.o + 1)
    (hl : f1.v.olen = f.v.olen + 1) : Refines f g (r.emit b) := by
  obtain ⟨h1, h2, h3, h4, h5⟩ := h
  refine ⟨h1, h2, h3, ?_, ?_⟩
  · simp only [Run.emit, List.length_cons]; omega
  · rw [hm, ho] at h5
    exact wrote_cons h5

theorem refines_emits {f f1 g : Frame} {r : Run} {l : List Byte} (h : Refines f1 g r)
    (hm : Wrote f.v.mem f1.v.mem f.v.o l) (ho : f1.v.o = f.v.o + l.length)
    (hl : f1.v.olen = f.v.olen + l.length) : Refines f g (r.emits l) := by
  obtain ⟨h1, h2, h3, h4, h5⟩ := h
  refine ⟨h1, h2, h3, ?_, ?_⟩
  · simp only [Run.emits, List.length_append]; omega
  · rw [ho] at h5
    exact wrote_append hm h5

theorem case3_refines {k : Frame → Frame} {n : Nat} (hk : HeadSpec k n) (f : Frame)
    (he : f.st.eof = 0) (hb : f.st.bytes = 3) (hr : f.ret = 0)
    (hs : f.v.slen = f.v.s.length) (hn : f.v.slen ≤ n) :
    Refines f (stream_case3 k f) (scalar_run 3 f.st.carry f.v.s) ∧
      (stream_case3 k f).st.carry = (scalar_run 3 f.st.carry f.v.s).st.carry := by
  obtain ⟨⟨s, slen, o, olen, mem⟩, ⟨eof, bytes, carry⟩, ret⟩ := f
  simp only [] at he hb hr hs hn
  subst he hb hr hs
  cases s with
  | nil =>
    simp [stream_case3, scalar_run, Refines, wrote_refl]
  | cons x xs =>
    unfold stream_case3 scalar_run
    simp only [List.length_cons, Nat.add_one_ne_zero, if_false, peek_cons, ge_iff_le,
      Nat.add_sub_cancel, List.drop_succ_cons, List.drop_zero]
    by_cases hq : 254 ≤ dec_8bit x
    · simp only [if_pos hq]
      refine ⟨⟨?_, rfl, rfl, rfl, wrote_refl _ _⟩, by first | rfl | trivial⟩
      simp only [List.length_eq_zero]
    · simp only [if_neg hq]
      obtain ⟨h1, h2⟩ := hk
        { v := { s := xs, slen := xs.length, o := o + 1, olen := olen + 1,
                 mem := store mem o (u8 (carry.val ||| dec_8bit x)) },
          st := { eof := 0, bytes := 0, carry := 0 }, ret := 0 }
        rfl rfl rfl rfl rfl (by show xs.length < n; simp only [List.length_cons] at hn; omega)
      exact ⟨refines_emit h1 rfl rfl rfl, h2⟩

theorem case2_refines {k : Frame → Frame} {n : Nat} (hk : HeadSpec k n) (f : Frame)
    (he : f.st.eof = 0) (hb : f.st.bytes = 2) (hr : f.ret = 0)
    (hs : f.v.slen = f.v.s.length) (hn : f.v.slen ≤ n) :
    Refines f (stream_case2 k f) (scalar_run 2 f.st.carry f.v.s) ∧
      (stream_case2 k f).st.carry = (scalar_run 2 f.st.carry f.v.s).st.carry := by
  obtain ⟨⟨s, slen, o, olen, mem⟩, ⟨eof, bytes, carry⟩, ret⟩ := f
  simp only [] at he hb hr hs hn
  subst he hb hr hs
  cases s with
  | nil =>
    simp [stream_case2, scalar_run, Refines, wrote_refl]
  | cons x xs =>
    unfold stream_case2 scalar_run
    simp only [List.length_cons, Nat.add_one_ne_zero, if_false, peek_cons, ge_iff_le,
      Nat.add_sub_cancel, List.drop_succ_cons, List.drop_zero]
    by_cases hq : 254 ≤ dec_8bit x
    · simp only [if_pos hq]
      by_cases hp : dec_8bit x = 254
      · simp only [if_pos hp]
        cases xs with
        | nil => simp [Refines, wrote_refl, BASE64_AEOF]
        | cons y ys =>
          simp only [List.length_cons, ne_eq, Nat.add_one_ne_zero, not_false_eq_true, if_true,
            peek_cons, Nat.add_sub_cancel, List.drop_succ_cons, List.drop_zero]
          refine ⟨⟨?_, rfl, rfl, rfl, wrote_refl _ _⟩, by first | rfl | trivial⟩
          simp only [List.length_eq_zero]
      · simp only [if_neg hp]
        exact ⟨⟨rfl, rfl, rfl, rfl, wrote_refl _ _⟩, by first | rfl | trivial⟩
    · simp only [if_neg hq]
      obtain ⟨h1, h2⟩ := case3_refines hk
        { v := { s := xs, slen := xs.length, o := o + 1, olen := olen + 1,
                 mem := store mem o (u8 (carry.val ||| dec_8bit x >>> 2)) },
          st := { eof := 0, bytes := 2 + 1, carry := u8 (dec_8bit x <<< 6) }, ret := 0 }
        rfl rfl rfl rfl (by show xs.length ≤ n; simp only [List.length_cons] at hn; omega)
      exact ⟨refines_emit h1 rfl rfl rfl, h2⟩

theorem case1_refines {k : Frame → Frame} {n : Nat} (hk : HeadSpec k n) (f : Frame)
    (he : f.st.eof = 0) (hb : f.st.bytes = 1) (hr : f.ret = 0)
    (hs : f.v.slen = f.v.s.length) (hn : f.v.slen ≤ n) :
    Refines f (stream_case1 k f) (scalar_run 1 f.st.carry f.v.s) ∧
      (stream_case1 k f).st.carry = (scalar_run 1 f.st.carry f.v.s).st.carry := by
  obtain ⟨⟨s, slen, o, olen, mem⟩, ⟨eof, bytes, carry⟩, ret⟩ := f
  simp only [] at he hb hr hs hn
  subst he hb hr hs
  cases s with
  | nil =>
    simp [stream_case1, scalar_run, Refines, wrote_refl]
  | cons x xs =>
    unfold stream_case1 scalar_run
    simp only [List.length_cons, Nat.add_one_ne_zero, if_false, peek_cons, ge_iff_le,
      Nat.add_sub_cancel, List.drop_succ_cons, List.drop_zero]
    by_cases hq : 254 ≤ dec_8bit x
    · simp only [if_pos hq]
      exact ⟨⟨rfl, rfl, rfl, rfl, wrote_refl _ _⟩, by first | rfl | trivial⟩
    · simp only [if_neg hq]
      obtain ⟨h1, h2⟩ := case2_refines hk
        { v := { s := xs, slen := xs.length, o := o + 1, olen := olen + 1,
                 mem := store mem o (u8 (carry.val ||| dec_8bit x >>> 4)) },
          st := { eof := 0, bytes := 1 + 1, carry := u8 (dec_8bit x <<< 4) }, ret := 0 }
        rfl rfl rfl rfl (by show xs.length ≤ n; simp only [List.length_cons] at hn; omega)
      exact ⟨refines_emit h1 rfl rfl rfl, h2⟩

theorem case0_scalar_refines {k : Frame → Frame} {n : Nat} (hk : HeadSpec k n) (f : Frame)
    (he : f.st.eof = 0) (hb : f.st.bytes = 0) (hr : f.ret = 0)
    (hs : f.v.slen = f.v.s.length) (hn : f.v.slen ≤ n) :
    Refines f (stream_case0_scalar k f) (scalar_run 0 f.st.carry f.v.s) ∧
      (stream_case0_scalar k f).st.carry = (scalar_run 0 f.st.carry f.v.s).st.carry := by
  obtain ⟨⟨s, slen, o, olen, mem⟩, ⟨eof, bytes, carry⟩, ret⟩ := f
  simp only [] at he hb hr hs hn
  subst he hb hr hs
  cases s with
  | nil =>
    simp [stream_case0_scalar, scalar_run, Refines, wrote_refl]
  | cons x xs =>
    unfold stream_case0_scalar scalar_run
    simp only [List.length_cons, Nat.add_one_ne_zero, if_false, peek_cons, ge_iff_le,
      Nat.add_sub_cancel, List.drop_succ_cons, List.drop_zero]
    by_cases hq : 254 ≤ dec_8bit x
    · simp only [if_pos hq]
      exact ⟨⟨rfl, rfl, rfl, rfl, wrote_refl _ _⟩, by first | rfl | trivial⟩
    · simp only [if_neg hq]
      obtain ⟨h1, h2⟩ := case1_refines hk
        { v := { s := xs, slen := xs.length, o := o, olen := olen, mem := mem },
          st := { eof := 0, bytes := 0 + 1, carry := u8 (dec_8bit x <<< 2) }, ret := 0 }
        rfl rfl rfl rfl (by show xs.length ≤ n; simp only [List.length_cons] at hn; omega)
      exact ⟨h1, h2⟩

/-! ### The batch loop against the list-level machine -/

theorem dec_8bit_zero : dec_8bit 0 = 255 := by decide

theorem quad_ok_cons {s : List Byte} (h : quad_ok s) :
    ∃ a b c d rest, s = a :: b :: c :: d :: rest := by
  rcases s with _ | ⟨a, _ | ⟨b, _ | ⟨c, _ | ⟨d, rest⟩⟩⟩⟩
  · have := h.1; simp [peek, dec_8bit_zero] at this
  · have := h.2.1; simp [peek, dec_8bit_zero] at this
  · have := h.2.2.1; simp [peek, dec_8bit_zero] at this
  · have := h.2.2.2; simp [peek, dec_8bit_zero] at this
  · exact ⟨a, b, c, d, rest, rfl⟩

theorem scalar_run_quad (ca a b c d : Byte) (rest : List Byte) (ha : dec_8bit a < 64)
    (hb : dec_8bit b < 64) (hc : dec_8bit c < 64) (hd : dec_8bit d < 64) :
    scalar_run 0 ca (a :: b :: c :: d :: rest) =
      (scalar_run 0 0 rest).emits
        (quantum_bytes (dec_8bit a) (dec_8bit b) (dec_8bit c) (dec_8bit d)) := by
  simp only [scalar_run, if_neg (show ¬ 254 ≤ dec_8bit a by omega),
    if_neg (show ¬ 254 ≤ dec_8bit b by omega), if_neg (show ¬ 254 ≤ dec_8bit c by omega),
    if_neg (show ¬ 254 ≤ dec_8bit d by omega)]
  rfl

theorem emits_nil (r : Run) : r.emits [] = r := rfl

theorem emits_emits (l1 l2 : List Byte) (r : Run) :
    (r.emits l2).emits l1 = r.emits (l1 ++ l2) := by
  simp [Run.emits]

/-- The list-level machine runs through leading data quanta. -/
theorem scalar_run_quads (n : Nat) (s : List Byte) (ca : Byte) :
    scalar_run 0 ca s =
      (scalar_run 0 (if data_quanta n s = 0 then ca else 0)
        (s.drop (4 * data_quanta n s))).emits (decode_quads (data_quanta n s) s) := by
  induction n generalizing s ca with
  | zero => simp [data_quanta, decode_quads, emits_nil]
  | succ n ih =>
    by_cases h : quad_ok s
    · obtain ⟨a, b, c, d, rest, rfl⟩ := quad_ok_cons h
      have e : data_quanta (n + 1) (a :: b :: c :: d :: rest) = data_quanta n rest + 1 := by
        simp [data_quanta, h]
      rw [e, scalar_run_quad ca a b c d rest h.1 h.2.1 h.2.2.1 h.2.2.2, ih rest 0]
      simp only [Nat.add_one_ne_zero, if_false, ite_self, decode_quads, emits_emits]
      rw [show 4 * (data_quanta n rest + 1) = 4 * data_quanta n rest + 4 by omega]
      rfl
    · have e : data_quanta (n + 1) s = 0 := by simp [data_quanta, h]
      rw [e]
      simp [decode_quads, emits_nil]

/-- At position 0 the carry that comes in does not influence the run, except
for the carry that goes out. -/
theorem scalar_run_zero_obs (s : List Byte) (c c1 : Byte) :
    (scalar_run 0 c s).ret = (scalar_run 0 c1 s).ret ∧
    (scalar_run 0 c s).st.eof = (scalar_run 0 c1 s).st.eof ∧
    (scalar_run 0 c s).st.bytes = (scalar_run 0 c1 s).st.bytes ∧
    (scalar_run 0 c s).outs = (scalar_run 0 c1 s).outs := by
  cases s with
  | nil => simp [scalar_run]
  | cons x xs =>
    unfold scalar_run
    by_cases hq : 254 ≤ dec_8bit x
    · simp [if_pos hq]
    · simp [if_neg hq]

theorem refines_obs {f g : Frame} {r r1 : Run} (h : Refines f g r) (h1 : r.ret = r1.ret)
    (h2 : r.st.eof = r1.st.eof) (h3 : r.st.bytes = r1.st.bytes) (h4 : r.outs = r1.outs) :
    Refines f g r1 := by
  obtain ⟨a1, a2, a3, a4, a5⟩ := h
  exact ⟨a1.trans h1, a2.trans h2, a3.trans h3, by rw [a4, h4], by rw [← h4]; exact a5⟩

theorem case0_refines (bo : ByteOrder) {k : Frame → Frame} {n : Nat} (hk : HeadSpec k n)
    (f : Frame) (he : f.st.eof = 0) (hb : f.st.bytes = 0) (hr : f.ret = 0)
    (hs : f.v.slen = f.v.s.length) (hn : f.v.slen ≤ n) :
    Refines f (stream_case0 bo k f) (scalar_run 0 f.st.carry f.v.s) ∧
      (f.st.carry = 0 →
        (stream_case0 bo k f).st.carry = (scalar_run 0 f.st.carry f.v.s).st.carry) := by
  obtain ⟨m1, e, w⟩ := dec_loop_generic_32_spec bo f.v
  generalize hc : data_quanta (if f.v.slen < 8 then 0 else (f.v.slen - 4) / 4) f.v.s = c at e w
  unfold stream_case0
  rw [e]
  obtain ⟨h1, h2⟩ := case0_scalar_refines hk
    { f with v := { s := f.v.s.drop (4 * c), slen := f.v.slen - 4 * c, o := f.v.o + 3 * c,
                    olen := f.v.olen + 3 * c, mem := m1 } }
    he hb hr (by simp only [List.length_drop]; omega) (by show f.v.slen - 4 * c ≤ n; omega)
  have hq := scalar_run_quads (if f.v.slen < 8 then 0 else (f.v.slen - 4) / 4) f.v.s f.st.carry
  rw [hc] at hq
  simp only [] at h1 h2
  obtain ⟨o1, o2, o3, o4⟩ := scalar_run_zero_obs (f.v.s.drop (4 * c)) f.st.carry
    (if c = 0 then f.st.carry else 0)
  have h1' := refines_obs h1 o1 o2 o3 o4
  have hl := decode_quads_length c f.v.s
  constructor
  · rw [hq]
    exact refines_emits h1' w (by simp only [hl]) (by simp only [hl])
  · intro h0
    rw [h2, hq, h0]
    simp [Run.emits]

theorem stream_loop_head (bo : ByteOrder) (n : Nat) : HeadSpec (stream_loop bo n) n := by
  induction n with
  | zero => intro f _ _ _ _ _ h; omega
  | succ n ih =>
    intro f he hb hc hr hs hn
    have := case0_refines bo ih f he hb hr hs (by omega)
    rw [hc] at this
    exact ⟨this.1, this.2 rfl⟩

/-! ### The stream decoder against the list-level machine -/

theorem wrote_load {m m1 : Mem} {o : Nat} {l : List Byte} (h : Wrote m m1 o l) :
    load_bytes m1 o l.length = l := by
  apply List.ext_getElem
  · simp [load_bytes]
  · intro i h1 h2
    simp only [load_bytes, List.getElem_map, List.getElem_range]
    rw [h.1 i h2]
    simp [List.getD, List.getElem?_eq_getElem h2]

/-- In the streaming state (`eof == 0`, `bytes` in 0..3) the embedded
`base64_stream_decode` computes what the list-level scalar machine computes:
the batch loop and the iteration bound are not observable. -/
theorem stream_decode_streaming (bo : ByteOrder) (st : base64_state) (src : List Byte)
    (mem : Mem) (out : Nat) (p : Nat) (he : st.eof = 0) (hb : st.bytes = p) (hp : p ≤ 3) :
    (base64_stream_decode bo st src mem out).ret = (scalar_run p st.carry src).ret ∧
    (base64_stream_decode bo st src mem out).state.eof = (scalar_run p st.carry src).st.eof ∧
    (base64_stream_decode bo st src mem out).state.bytes
      = (scalar_run p st.carry src).st.bytes ∧
    (base64_stream_decode bo st src mem out).outlen = (scalar_run p st.carry src).outs.length ∧
    Wrote mem (base64_stream_decode bo st src mem out).out out (scalar_run p st.carry src).outs ∧
    ((p = 0 → st.carry = 0) →
      (base64_stream_decode bo st src mem out).state.carry
        = (scalar_run p st.carry src).st.carry) := by
  obtain ⟨eof, bytes, carry⟩ := st
  simp only [] at he hb
  subst he hb
  have hk := stream_loop_head bo src.length
  unfold base64_stream_decode
  simp only [ne_eq, not_true_eq_false, if_false]
  rcases p with _ | _ | _ | _ | p
  · obtain ⟨⟨h1, h2, h3, h4, h5⟩, h6⟩ := case0_refines bo hk
      { v := { s := src, slen := src.length, o := out, olen := 0, mem := mem },
        st := { eof := 0, bytes := 0, carry := carry }, ret := 0 } rfl rfl rfl rfl (Nat.le_refl _)
    simp only [Nat.zero_add] at h4
    simp only [Nat.cast_zero, if_true]
    exact ⟨h1, h2, h3, h4, h5, fun h => h6 (h trivial)⟩
  · obtain ⟨⟨h1, h2, h3, h4, h5⟩, h6⟩ := case1_refines hk
      { v := { s := src, slen := src.length, o := out, olen := 0, mem := mem },
        st := { eof := 0, bytes := 1, carry := carry }, ret := 0 } rfl rfl rfl rfl (Nat.le_refl _)
    simp only [Nat.zero_add] at h4
    simp only [Nat.zero_add, Nat.cast_one, one_ne_zero, if_false, if_true]
    exact ⟨h1, h2, h3, h4, h5, fun _ => h6⟩
  · obtain ⟨⟨h1, h2, h3, h4, h5⟩, h6⟩ := case2_refines hk
      { v := { s := src, slen := src.length, o := out, olen := 0, mem := mem },
        st := { eof := 0, bytes := 2, carry := carry }, ret := 0 } rfl rfl rfl rfl (Nat.le_refl _)
    simp only [Nat.zero_add] at h4
    have e : ((0 + 1 + 1 : Nat) : Int) = 2 := rfl
    simp only [e, if_true]
    rw [if_neg (by decide), if_neg (by decide)]
    exact ⟨h1, h2, h3, h4, h5, fun _ => h6⟩
  · obtain ⟨⟨h1, h2, h3, h4, h5⟩, h6⟩ := case3_refines hk
      { v := { s := src, slen := src.length, o := out, olen := 0, mem := mem },
        st := { eof := 0, bytes := 3, carry := carry }, ret := 0 } rfl rfl rfl rfl (Nat.le_refl _)
    simp only [Nat.zero_add] at h4
    have e : ((0 + 1 + 1 + 1 : Nat) : Int) = 3 := rfl
    simp only [e, if_true]
    rw [if_neg (by decide), if_neg (by decide), if_neg (by decide)]
    exact ⟨h1, h2, h3, h4, h5, fun _ => h6⟩
  · omega

/-! ### The automaton on characters -/

theorem phase_run_fail (s : List Byte) : phase_run .fail s = (.fail, []) := by
  induction s with
  | nil => rfl
  | cons x xs ih => simp [phase_run, phase_step, ih]

theorem phase_run_done (s : List Byte) :
    phase_run .done s = (if s = [] then .done else .fail, []) := by
  cases s with
  | nil => rfl
  | cons x xs => simp [phase_run, phase_step, phase_run_fail]

theorem phase_run_pad1 (s : List Byte) :
    phase_run .pad1 s =
      (match s with
        | [] => .pad1
        | x :: xs => if dec_8bit x = 254 ∧ xs = [] then .done else .fail, []) := by
  cases s with
  | nil => rfl
  | cons x xs =>
    by_cases h : dec_8bit x = 254
    · by_cases h2 : xs = [] <;> simp [phase_run, phase_step, phase_run_done, h, h2]
    · simp [phase_run, phase_step, phase_run_fail, h]

theorem phase_run_append (ph : Phase) (s t : List Byte) :
    phase_run ph (s ++ t) =
      ((phase_run (phase_run ph s).1 t).1, (phase_run ph s).2 ++ (phase_run (phase_run ph s).1 t).2) := by
  induction s generalizing ph with
  | nil => simp [phase_run]
  | cons x xs ih => simp [phase_run, ih]

/-- The list-level scalar machine on one chunk follows the automaton. -/
theorem scalar_run_phase (s : List Byte) (p : Nat) (c : Byte) (hp : p ≤ 3)
    (hc : p = 0 → c = 0) :
    (scalar_run p c s).outs = (phase_run (.pos p c) s).2 ∧
    ((phase_run (.pos p c) s).1 = .fail → (scalar_run p c s).ret = 0) ∧
    ((phase_run (.pos p c) s).1 ≠ .fail →
      (scalar_run p c s).ret = 1 ∧ InPhase (scalar_run p c s).st (phase_run (.pos p c) s).1) := by
  induction s generalizing p c with
  | nil =>
    simpa [scalar_run, phase_run, InPhase, hp] using hc
  | cons x xs ih =>
    rcases dec_8bit_cases x with hx | hx | hx
    · have h1 : ¬ 254 ≤ dec_8bit x := by omega
      rcases p with _ | _ | _ | _ | p
      · have := ih 1 (u8 (dec_8bit x <<< 2)) (by omega) (by omega)
        simpa [scalar_run, phase_run, phase_step, h1, hx] using this
      · have := ih 2 (u8 (dec_8bit x <<< 4)) (by omega) (by omega)
        simpa [scalar_run, phase_run, phase_step, h1, hx, Run.emit] using this
      · have := ih 3 (u8 (dec_8bit x <<< 6)) (by omega) (by omega)
        simpa [scalar_run, phase_run, phase_step, h1, hx, Run.emit] using this
      · have := ih 0 0 (by omega) (by intro; rfl)
        simpa [scalar_run, phase_run, phase_step, h1, hx, Run.emit] using this
      · omega
    · have h1 : 254 ≤ dec_8bit x := by omega
      have h2 : ¬ dec_8bit x < 64 := by omega
      rcases p with _ | _ | _ | _ | p
      · simp [scalar_run, phase_run, phase_step, h1, h2, hx, phase_run_fail]
      · simp [scalar_run, phase_run, phase_step, h1, h2, hx, phase_run_fail]
      · cases xs with
        | nil => simp [scalar_run, phase_run, phase_step, h2, hx, InPhase]
        | cons y ys =>
          by_cases hy : dec_8bit y = 254 <;> by_cases hys : ys = [] <;>
            simp [scalar_run, phase_run, phase_step, h2, hx, hy, hys, InPhase,
              phase_run_fail, phase_run_done]
      · by_cases hxs : xs = [] <;>
          simp [scalar_run, phase_run, phase_step, h2, hx, hxs, InPhase, phase_run_done]
      · omega
    · have h1 : 254 ≤ dec_8bit x := by omega
      have h2 : ¬ dec_8bit x < 64 := by omega
      rcases p with _ | _ | _ | _ | p
      · simp [scalar_run, phase_run, phase_step, h1, h2, hx, phase_run_fail]
      · simp [scalar_run, phase_run, phase_step, h1, h2, hx, phase_run_fail]
      · simp [scalar_run, phase_run, phase_step, h1, h2, hx, phase_run_fail]
      · simp [scalar_run, phase_run, phase_step, h1, h2, hx, phase_run_fail]
      · omega

/-! ### Calls of the stream decoder against the automaton -/

theorem inPhase_bytes {st : base64_state} {ph : Phase} (h : InPhase st ph) :
    st.bytes = 0 ↔ ph.accepting = true := by
  cases ph with
  | pos p c =>
    obtain ⟨_, h2, _, _, _⟩ := h
    simp only [Phase.accepting, h2, decide_eq_true_eq]
    omega
  | pad1 => simp [InPhase] at h; simp [Phase.accepting, h.2]
  | done => simp [InPhase] at h; simp [Phase.accepting, h.2]
  | fail => exact absurd h (by simp [InPhase])

/-- One call of `base64_stream_decode` on a chunk moves the decoder along the
run of the automaton over the characters of the chunk. -/
theorem stream_decode_phase (bo : ByteOrder) (st : base64_state) (src : List Byte) (mem : Mem)
    (out : Nat) (ph : Phase) (h : InPhase st ph) (hne : src ≠ []) :
    (base64_stream_decode bo st src mem out).outlen = (phase_run ph src).2.length ∧
    Wrote mem (base64_stream_decode bo st src mem out).out out (phase_run ph src).2 ∧
    ((phase_run ph src).1 = .fail → (base64_stream_decode bo st src mem out).ret = 0) ∧
    ((phase_run ph src).1 ≠ .fail →
      (base64_stream_decode bo st src mem out).ret = 1 ∧
        InPhase (base64_stream_decode bo st src mem out).state (phase_run ph src).1) := by
  cases ph with
  | pos p c =>
    obtain ⟨h1, h2, h3, h4, h5⟩ := h
    obtain ⟨a1, a2, a3, a4, a5, a6⟩ := stream_decode_streaming bo st src mem out p h1 h2 h4
    rw [h3] at a1 a2 a3 a4 a5 a6
    obtain ⟨b1, b2, b3⟩ := scalar_run_phase src p c h4 h5
    rw [b1] at a4 a5
    refine ⟨a4, a5, fun hf => by rw [a1]; exact b2 hf, fun hf => ?_⟩
    obtain ⟨c1, c2⟩ := b3 hf
    refine ⟨by rw [a1]; exact c1, ?_⟩
    have hst : (base64_stream_decode bo st src mem out).state = (scalar_run p c src).st := by
      have e3 := a6 h5
      generalize (base64_stream_decode bo st src mem out).state = s1 at a2 a3 e3
      generalize (scalar_run p c src).st = s2 at a2 a3 e3
      cases s1; cases s2
      simp only [] at a2 a3 e3
      simp [a2, a3, e3]
    rw [hst]; exact c2
  | pad1 =>
    obtain ⟨h1, h2⟩ := h
    obtain ⟨eof, bytes, carry⟩ := st
    simp only [] at h1 h2
    subst h1 h2
    cases src with
    | nil => exact absurd rfl hne
    | cons x xs =>
      rw [phase_run_pad1]
      unfold base64_stream_decode
      by_cases hx : dec_8bit x = 254 <;> by_cases hxs : xs = [] <;>
        simp [BASE64_AEOF, BASE64_EOF, peek_cons, hx, hxs, wrote_refl, InPhase]
  | done =>
    obtain ⟨h1, h2⟩ := h
    obtain ⟨eof, bytes, carry⟩ := st
    simp only [] at h1 h2
    subst h1 h2
    rw [phase_run_done]
    unfold base64_stream_decode
    simp [BASE64_AEOF, BASE64_EOF, hne, wrote_refl]
  | fail => exact absurd h (by simp [InPhase])

/-- The calls for a value split into non-empty chunks follow the run of the
automaton over the whole text. -/
theorem stream_decode_chunks_phase (bo : ByteOrder) (cs : List (List Byte))
    (hne : ∀ c ∈ cs, c ≠ []) (st : base64_state) (ph : Phase) (h : InPhase st ph) (mem : Mem)
    (out total : Nat) :
    ((phase_run ph cs.flatten).1 = .fail → (stream_decode_chunks bo cs st mem out total).ret = 0) ∧
    ((phase_run ph cs.flatten).1 ≠ .fail →
      (stream_decode_chunks bo cs st mem out total).ret = 1 ∧
      InPhase (stream_decode_chunks bo cs st mem out total).state (phase_run ph cs.flatten).1 ∧
      (stream_decode_chunks bo cs st mem out total).outlen
        = total + (phase_run ph cs.flatten).2.length ∧
      Wrote mem (stream_decode_chunks bo cs st mem out total).out (out + total)
        (phase_run ph cs.flatten).2) := by
  induction cs generalizing st ph mem total with
  | nil =>
    simp only [List.flatten_nil, phase_run, stream_decode_chunks]
    refine ⟨fun hf => ?_, fun _ => ⟨trivial, h, rfl, wrote_refl _ _⟩⟩
    rw [hf] at h
    exact absurd h (by simp [InPhase])
  | cons c cs ih =>
    have hc : c ≠ [] := hne c (List.mem_cons_self _ _)
    have hcs : ∀ d ∈ cs, d ≠ [] := fun d hd => hne d (List.mem_cons_of_mem _ hd)
    obtain ⟨a1, a2, a3, a4⟩ := stream_decode_phase bo st c mem (out + total) ph h hc
    simp only [List.flatten_cons, phase_run_append, stream_decode_chunks]
    by_cases hf : (phase_run ph c).1 = .fail
    · have r0 := a3 hf
      simp only [hf, phase_run_fail, r0]
      simp
    · obtain ⟨r1, p1⟩ := a4 hf
      obtain ⟨b1, b2⟩ := ih hcs _ _ p1 (base64_stream_decode bo st c mem (out + total)).out
        (total + (base64_stream_decode bo st c mem (out + total)).outlen)
      simp only [r1, if_true]
      refine ⟨b1, fun hf2 => ?_⟩
      obtain ⟨c1, c2, c3, c4⟩ := b2 hf2
      refine ⟨c1, c2, ?_, ?_⟩
      · rw [c3, a1, List.length_append]; omega
      · have e : out + (total + (base64_stream_decode bo st c mem (out + total)).outlen)
            = out + total + (phase_run ph c).2.length := by rw [a1]; omega
        rw [e] at c4
        exact wrote_append a2 c4

theorem inPhase_zero : InPhase base64_state_zero (.pos 0 0) :=
  ⟨rfl, rfl, rfl, by omega, fun _ => rfl⟩

/-- The one-shot decoder succeeds exactly when the run of the automaton over
the text ends in an accepting phase, and writes the bytes of that run. -/
theorem base64_decode_phase (bo : ByteOrder) (src : List Byte) (mem : Mem) (out : Nat) :
    (base64_decode bo src mem out).ret
      = (if (phase_run (.pos 0 0) src).1.accepting then 1 else 0) ∧
    (base64_decode bo src mem out).outlen = (phase_run (.pos 0 0) src).2.length ∧
    Wrote mem (base64_decode bo src mem out).out out (phase_run (.pos 0 0) src).2 ∧
    (base64_decode bo src mem out).state.bytes
      = (base64_stream_decode bo base64_state_zero src mem out).state.bytes := by
  obtain ⟨a1, a2, a3, a4, a5, a6⟩ :=
    stream_decode_streaming bo base64_state_zero src mem out 0 rfl rfl (by omega)
  obtain ⟨b1, b2, b3⟩ := scalar_run_phase src 0 0 (by omega) (fun _ => rfl)
  have hc : base64_state_zero.carry = 0 := rfl
  rw [hc] at a1 a2 a3 a4 a5
  rw [b1] at a4 a5
  unfold base64_decode
  refine ⟨?_, a4, a5, rfl⟩
  simp only [a1, a3]
  by_cases hf : (phase_run (.pos 0 0) src).1 = .fail
  · rw [b2 hf, hf]
    simp only [Phase.accepting]
    split <;> decide
  · obtain ⟨c1, c2⟩ := b3 hf
    rw [c1]
    have := inPhase_bytes c2
    by_cases hb : (scalar_run 0 0 src).st.bytes = 0
    · rw [if_pos hb, this.mp hb]; decide
    · rw [if_neg hb]
      have : (phase_run (.pos 0 0) src).1.accepting = false := by
        cases hacc : (phase_run (.pos 0 0) src).1.accepting
        · rfl
        · exact absurd (this.mpr hacc) hb
      rw [this]; decide

/-! ### Encoding, and the language of the automaton -/

theorem shiftLeft_or (x y n : Nat) : (x ||| y) <<< n = x <<< n ||| y <<< n := by
  apply Nat.eq_of_testBit_eq
  intro i
  simp only [Nat.testBit_shiftLeft, Nat.testBit_or]
  cases decide (i ≥ n) <;> simp

theorem sextet_bits : ∀ a, a < 256 →
    a >>> 2 < 64 ∧ (a &&& 3) <<< 4 < 64 ∧ a >>> 4 < 64 ∧ (a &&& 15) <<< 2 < 64 ∧
    a >>> 6 < 64 ∧ a &&& 63 < 64 ∧
    ((a &&& 3) <<< 4) >>> 4 = a &&& 3 ∧ (a >>> 4) >>> 4 = 0 ∧
    (((a >>> 2) <<< 2) % 256 ||| (a &&& 3)) % 256 = a ∧
    (((a &&& 3) <<< 4) <<< 4) % 256 = 0 ∧
    ((a &&& 15) <<< 2) >>> 2 = a &&& 15 ∧ (a >>> 6) >>> 2 = 0 ∧
    ((((a >>> 4) <<< 4) % 256) ||| (a &&& 15)) % 256 = a ∧
    (((a &&& 15) <<< 2) <<< 6) % 256 = 0 ∧
    ((((a >>> 6) <<< 6) % 256) ||| (a &&& 63)) % 256 = a := by
  decide!

theorem or_lt_64 {x y : Nat} (hx : x < 64) (hy : y < 64) : x ||| y < 64 :=
  Nat.or_lt_two_pow (n := 6) hx hy

/-- The three bytes decoded from the four sextets of three bytes. -/
theorem quantum_bytes_encode (a b c : Byte) :
    quantum_bytes (a.val >>> 2) ((a.val &&& 3) <<< 4 ||| b.val >>> 4)
      ((b.val &&& 15) <<< 2 ||| c.val >>> 6) (c.val &&& 63) = [a, b, c] := by
  obtain ⟨-, -, -, -, -, -, a7, -, a9, a10, -, -, -, -, -⟩ := sextet_bits a.val a.isLt
  obtain ⟨-, -, -, -, -, -, -, b8, -, -, b11, -, b13, b14, -⟩ := sextet_bits b.val b.isLt
  obtain ⟨-, -, -, -, -, -, -, -, -, -, -, c12, -, -, c15⟩ := sextet_bits c.val c.isLt
  unfold quantum_bytes
  have e0 : u8 ((u8 (a.val >>> 2 <<< 2)).val ||| ((a.val &&& 3) <<< 4 ||| b.val >>> 4) >>> 4)
      = a := by
    apply Fin.ext
    simp only [u8_val, shiftRight_or, a7, b8, Nat.or_zero, a9]
  have e1 : u8 ((u8 (((a.val &&& 3) <<< 4 ||| b.val >>> 4) <<< 4)).val
      ||| ((b.val &&& 15) <<< 2 ||| c.val >>> 6) >>> 2) = b := by
    apply Fin.ext
    simp only [u8_val, shiftRight_or, shiftLeft_or, or_mod_256, a10, b11, c12, Nat.or_zero,
      Nat.zero_or, Nat.mod_mod]
    have := b13
    rw [or_mod_256, Nat.mod_mod] at this
    exact this
  have e2 : u8 ((u8 (((b.val &&& 15) <<< 2 ||| c.val >>> 6) <<< 6)).val ||| (c.val &&& 63))
      = c := by
    apply Fin.ext
    simp only [u8_val, shiftLeft_or, or_mod_256, b14, Nat.zero_or, Nat.mod_mod]
    have := c15
    rw [or_mod_256, Nat.mod_mod] at this
    exact this
  rw [e0, e1, e2]

theorem phase_run_quad (c x0 x1 x2 x3 : Byte) (h0 : dec_8bit x0 < 64) (h1 : dec_8bit x1 < 64)
    (h2 : dec_8bit x2 < 64) (h3 : dec_8bit x3 < 64) :
    phase_run (.pos 0 c) [x0, x1, x2, x3] =
      (.pos 0 0, quantum_bytes (dec_8bit x0) (dec_8bit x1) (dec_8bit x2) (dec_8bit x3)) := by
  simp [phase_run, phase_step, h0, h1, h2, h3, quantum_bytes]

theorem phase_run_two_pads (c x0 x1 : Byte) (h0 : dec_8bit x0 < 64) (h1 : dec_8bit x1 < 64) :
    phase_run (.pos 0 c) [x0, x1, CHARPAD, CHARPAD] =
      (.done, [u8 ((u8 (dec_8bit x0 <<< 2)).val ||| dec_8bit x1 >>> 4)]) := by
  simp [phase_run, phase_step, h0, h1, dec_8bit_pad]

theorem phase_run_one_pad (c x0 x1 x2 : Byte) (h0 : dec_8bit x0 < 64) (h1 : dec_8bit x1 < 64)
    (h2 : dec_8bit x2 < 64) :
    phase_run (.pos 0 c) [x0, x1, x2, CHARPAD] =
      (.done, [u8 ((u8 (dec_8bit x0 <<< 2)).val ||| dec_8bit x1 >>> 4),
        u8 ((u8 (dec_8bit x1 <<< 4)).val ||| dec_8bit x2 >>> 2)]) := by
  simp [phase_run, phase_step, h0, h1, h2, dec_8bit_pad]

/-- The automaton run over the encoding of `B` emits `B` and ends in an
accepting phase. -/
theorem encode_run (B : List Byte) :
    (phase_run (.pos 0 0) (base64_encode B)).2 = B ∧
      (phase_run (.pos 0 0) (base64_encode B)).1.accepting = true := by
  induction B using base64_encode.induct with
  | case1 => simp [base64_encode, phase_run, Phase.accepting]
  | case2 a =>
    obtain ⟨a1, a2, -, -, -, -, -, -, -, -, -, -, -, -, -⟩ := sextet_bits a.val a.isLt
    have q := quantum_bytes_encode a 0 0
    simp only [quantum_bytes, Fin.val_zero, Nat.zero_shiftRight, Nat.or_zero, Nat.zero_and,
      Nat.zero_shiftLeft, List.cons.injEq] at q
    unfold base64_encode
    rw [phase_run_two_pads _ _ _ (by rw [dec_8bit_enc_char _ a1]; exact a1)
      (by rw [dec_8bit_enc_char _ a2]; exact a2)]
    rw [dec_8bit_enc_char _ a1, dec_8bit_enc_char _ a2]
    exact ⟨by simpa using q.1, rfl⟩
  | case3 a b =>
    obtain ⟨a1, a2, -, -, -, -, -, -, -, -, -, -, -, -, -⟩ := sextet_bits a.val a.isLt
    obtain ⟨-, -, b3, b4, -, -, -, -, -, -, -, -, -, -, -⟩ := sextet_bits b.val b.isLt
    have q := quantum_bytes_encode a b 0
    simp only [quantum_bytes, Fin.val_zero, Nat.zero_shiftRight, Nat.or_zero, Nat.zero_and,
      List.cons.injEq] at q
    have h1 := or_lt_64 a2 b3
    unfold base64_encode
    rw [phase_run_one_pad _ _ _ _ (by rw [dec_8bit_enc_char _ a1]; exact a1)
      (by rw [dec_8bit_enc_char _ h1]; exact h1) (by rw [dec_8bit_enc_char _ b4]; exact b4)]
    rw [dec_8bit_enc_char _ a1, dec_8bit_enc_char _ h1, dec_8bit_enc_char _ b4]
    exact ⟨by simpa using And.intro q.1 q.2.1, rfl⟩
  | case4 a b c rest ih =>
    obtain ⟨a1, a2, -, -, -, -, -, -, -, -, -, -, -, -, -⟩ := sextet_bits a.val a.isLt
    obtain ⟨-, -, b3, b4, -, -, -, -, -, -, -, -, -, -, -⟩ := sextet_bits b.val b.isLt
    obtain ⟨-, -, -, -, c5, c6, -, -, -, -, -, -, -, -, -⟩ := sextet_bits c.val c.isLt
    have h1 := or_lt_64 a2 b3
    have h2 := or_lt_64 b4 c5
    have e : base64_encode (a :: b :: c :: rest) =
        [enc_char (a.val >>> 2), enc_char ((a.val &&& 3) <<< 4 ||| b.val >>> 4),
          enc_char ((b.val &&& 15) <<< 2 ||| c.val >>> 6), enc_char (c.val &&& 63)]
          ++ base64_encode rest := by
      simp [base64_encode]
    rw [e, phase_run_append,
      phase_run_quad _ _ _ _ _ (by rw [dec_8bit_enc_char _ a1]; exact a1)
        (by rw [dec_8bit_enc_char _ h1]; exact h1) (by rw [dec_8bit_enc_char _ h2]; exact h2)
        (by rw [dec_8bit_enc_char _ c6]; exact c6)]
    rw [dec_8bit_enc_char _ a1, dec_8bit_enc_char _ h1, dec_8bit_enc_char _ h2,
      dec_8bit_enc_char _ c6, quantum_bytes_encode]
    simp [ih.1, ih.2]

/-- Claim C1. Round trip: for every byte sequence `B`, decoding the padded
Base64 encoding of `B` with `base64_decode` returns 1, sets `outlen` to the
length of `B`, and the first `outlen` output bytes are exactly `B`. -/
theorem base64_decode_encode (bo : ByteOrder) (B : List Byte) (mem : Mem) (out : Nat) :
    (base64_decode bo (base64_encode B) mem out).ret = 1 ∧
    (base64_decode bo (base64_encode B) mem out).outlen = B.length ∧
    load_bytes (base64_decode bo (base64_encode B) mem out).out out
      (base64_decode bo (base64_encode B) mem out).outlen = B := by
  obtain ⟨h1, h2, h3, -⟩ := base64_decode_phase bo (base64_encode B) mem out
  obtain ⟨e1, e2⟩ := encode_run B
  rw [e1] at h2 h3
  rw [e2] at h1
  refine ⟨by simpa using h1, h2, ?_⟩
  rw [h2]
  exact wrote_load h3

/-! ### Runs over data characters -/

theorem scalar_run_data (s : List Byte) (p : Nat) (c : Byte) (hd : ∀ x ∈ s, dec_8bit x < 64)
    (hp : p ≤ 3) :
    (scalar_run p c s).ret = 1 ∧ (scalar_run p c s).st.eof = 0 ∧
      (scalar_run p c s).st.bytes = (((p + s.length) % 4 : Nat) : Int) := by
  induction s generalizing p c with
  | nil =>
    simp only [scalar_run, List.length_nil, Nat.add_zero, true_and]
    rw [Nat.mod_eq_of_lt (by omega)]
  | cons x xs ih =>
    have hx : ¬ 254 ≤ dec_8bit x := by
      have := hd x (List.mem_cons_self _ _); omega
    have hxs : ∀ y ∈ xs, dec_8bit y < 64 := fun y hy => hd y (List.mem_cons_of_mem _ hy)
    rcases p with _ | _ | _ | _ | p
    · have := ih 1 (u8 (dec_8bit x <<< 2)) hxs (by omega)
      simp only [scalar_run, if_neg hx, List.length_cons]
      rw [show 0 + (xs.length + 1) = 1 + xs.length by omega]
      exact this
    · have := ih 2 (u8 (dec_8bit x <<< 4)) hxs (by omega)
      simp only [scalar_run, if_neg hx, List.length_cons, Run.emit]
      rw [show 0 + 1 + (xs.length + 1) = 2 + xs.length by omega]
      exact this
    · have := ih 3 (u8 (dec_8bit x <<< 6)) hxs (by omega)
      simp only [scalar_run, if_neg hx, List.length_cons, Run.emit]
      rw [show 0 + 1 + 1 + (xs.length + 1) = 3 + xs.length by omega]
      exact this
    · have := ih 0 0 hxs (by omega)
      simp only [scalar_run, if_neg hx, List.length_cons, Run.emit]
      rw [show (0 + 1 + 1 + 1 + (xs.length + 1)) % 4 = (0 + xs.length) % 4 by omega]
      exact this
    · omega

theorem int_land_one_ite (b : Prop) [Decidable b] :
    Int.land 1 (if b then 1 else 0) = if b then 1 else 0 := by
  split <;> decide

theorem int_land_zero_ite (b : Prop) [Decidable b] :
    Int.land 0 (if b then 1 else 0) = 0 := by
  split <;> decide

/-! ### Claims -/

/-- Claim C6. Idempotent closedness: in a state with `eof == BASE64_EOF` every
call of `base64_stream_decode` with a non-empty chunk returns 0, sets `outlen`
to 0, writes no output byte and leaves `eof`, `bytes` and `carry` unchanged. -/
theorem closed_state_rejects (bo : ByteOrder) (st : base64_state) (src : List Byte) (mem : Mem)
    (out : Nat) (he : st.eof = BASE64_EOF) (_hne : src ≠ []) :
    (base64_stream_decode bo st src mem out).ret = 0 ∧
    (base64_stream_decode bo st src mem out).outlen = 0 ∧
    (base64_stream_decode bo st src mem out).out = mem ∧
    (base64_stream_decode bo st src mem out).state.eof = st.eof ∧
    (base64_stream_decode bo st src mem out).state.bytes = st.bytes ∧
    (base64_stream_decode bo st src mem out).state.carry = st.carry := by
  unfold base64_stream_decode
  simp [he, BASE64_EOF, BASE64_AEOF]

/-- Witness of claim C6: the closed state left by a clean close, fed the
chunk `"AAAA"`. -/
theorem closed_state_rejects_witness :
    (base64_stream_decode .little ⟨BASE64_EOF, 0, 0⟩ (ascii "AAAA") zero_mem 0).ret = 0 ∧
    (base64_stream_decode .little ⟨BASE64_EOF, 0, 0⟩ (ascii "AAAA") zero_mem 0).outlen = 0 ∧
    (base64_stream_decode .little ⟨BASE64_EOF, 0, 0⟩ (ascii "AAAA") zero_mem 0).out = zero_mem ∧
    (base64_stream_decode .little ⟨BASE64_EOF, 0, 0⟩ (ascii "AAAA") zero_mem 0).state.eof
      = BASE64_EOF ∧
    (base64_stream_decode .little ⟨BASE64_EOF, 0, 0⟩ (ascii "AAAA") zero_mem 0).state.bytes = 0 ∧
    (base64_stream_decode .little ⟨BASE64_EOF, 0, 0⟩ (ascii "AAAA") zero_mem 0).state.carry = 0 :=
  closed_state_rejects .little ⟨BASE64_EOF, 0, 0⟩ (ascii "AAAA") zero_mem 0 rfl (by decide)

/-- Claim C8. Two-pad tail: for data characters `x`, `y` the text `x y = =`
decoded from the zero state makes `base64_stream_decode` and `base64_decode`
return 1 with exactly one output byte, `((vx << 2) | (vy >> 4)) mod 256`, and
leaves the state closed (`eof == BASE64_EOF`, `bytes == 0`). -/
theorem two_pad_tail (bo : ByteOrder) (x y : Byte) (mem : Mem) (out : Nat) (hx : is_data x)
    (hy : is_data y) :
    (base64_stream_decode bo base64_state_zero [x, y, CHARPAD, CHARPAD] mem out).ret = 1 ∧
    (base64_decode bo [x, y, CHARPAD, CHARPAD] mem out).ret = 1 ∧
    (base64_stream_decode bo base64_state_zero [x, y, CHARPAD, CHARPAD] mem out).outlen = 1 ∧
    (base64_decode bo [x, y, CHARPAD, CHARPAD] mem out).outlen = 1 ∧
    ((base64_stream_decode bo base64_state_zero [x, y, CHARPAD, CHARPAD] mem out).out out).val
      = (sextet x <<< 2 ||| sextet y >>> 4) % 256 ∧
    ((base64_decode bo [x, y, CHARPAD, CHARPAD] mem out).out out).val
      = (sextet x <<< 2 ||| sextet y >>> 4) % 256 ∧
    (base64_stream_decode bo base64_state_zero [x, y, CHARPAD, CHARPAD] mem out).state.eof
      = BASE64_EOF ∧
    (base64_stream_decode bo base64_state_zero [x, y, CHARPAD, CHARPAD] mem out).state.bytes
      = 0 := by
  have dx := (is_data_iff x).mp hx
  have dy := (is_data_iff y).mp hy
  obtain ⟨a1, a2, a3, a4, a5, -⟩ := stream_decode_streaming bo base64_state_zero
    [x, y, CHARPAD, CHARPAD] mem out 0 rfl rfl (by omega)
  have hr : scalar_run 0 base64_state_zero.carry [x, y, CHARPAD, CHARPAD] =
      ⟨1, ⟨BASE64_EOF, 0, u8 (dec_8bit y <<< 4)⟩,
        [u8 ((u8 (dec_8bit x <<< 2)).val ||| dec_8bit y >>> 4)]⟩ := by
    simp [scalar_run, show ¬ 254 ≤ dec_8bit x by omega, show ¬ 254 ≤ dec_8bit y by omega,
      dec_8bit_pad, Run.emit]
  rw [hr] at a1 a2 a3 a4 a5
  simp only [List.length_singleton] at a4
  have hb : ((base64_stream_decode bo base64_state_zero [x, y, CHARPAD, CHARPAD] mem out).out
      out).val = (sextet x <<< 2 ||| sextet y >>> 4) % 256 := by
    have := a5.1 0 (by simp)
    simp only [Nat.add_zero] at this
    rw [this, sextet_eq x hx, sextet_eq y hy]
    obtain ⟨s1, -, -⟩ := small_mod (dec_8bit y) dy
    simp only [List.getD_cons_zero, u8_val, or_mod_256, Nat.mod_mod, s1]
  have hd : (base64_decode bo [x, y, CHARPAD, CHARPAD] mem out).ret = 1 := by
    unfold base64_decode
    simp only [a1, a3]
    decide
  exact ⟨a1, hd, a4, a4, hb, hb, a2, a3⟩

/-- Witness of claim C8: `"YQ=="` yields the single byte `'a'` (0x61). -/
theorem two_pad_tail_witness :
    is_data 89 ∧ is_data 81 ∧
    (base64_decode .little [89, 81, CHARPAD, CHARPAD] zero_mem 0).ret = 1 ∧
    (base64_decode .little [89, 81, CHARPAD, CHARPAD] zero_mem 0).outlen = 1 ∧
    ((base64_decode .little [89, 81, CHARPAD, CHARPAD] zero_mem 0).out 0).val = 0x61 :=
  ⟨by decide, by decide,
    (two_pad_tail .little 89 81 zero_mem 0 (by decide) (by decide)).2.1,
    (two_pad_tail .little 89 81 zero_mem 0 (by decide) (by decide)).2.2.2.1,
    (two_pad_tail .little 89 81 zero_mem 0 (by decide) (by decide)).2.2.2.2.2.1⟩

/-- Claim C9. One-pad tail: for data characters `x`, `y`, `z` the text
`x y z =` decoded from the zero state makes `base64_stream_decode` and
`base64_decode` return 1 with exactly two output bytes,
`((vx << 2) | (vy >> 4)) mod 256` and `((vy << 4) | (vz >> 2)) mod 256`, and
leaves the state closed (`eof == BASE64_EOF`, `bytes == 0`). -/
theorem one_pad_tail (bo : ByteOrder) (x y z : Byte) (mem : Mem) (out : Nat) (hx : is_data x)
    (hy : is_data y) (hz : is_data z) :
    (base64_stream_decode bo base64_state_zero [x, y, z, CHARPAD] mem out).ret = 1 ∧
    (base64_decode bo [x, y, z, CHARPAD] mem out).ret = 1 ∧
    (base64_stream_decode bo base64_state_zero [x, y, z, CHARPAD] mem out).outlen = 2 ∧
    (base64_decode bo [x, y, z, CHARPAD] mem out).outlen = 2 ∧
    ((base64_stream_decode bo base64_state_zero [x, y, z, CHARPAD] mem out).out out).val
      = (sextet x <<< 2 ||| sextet y >>> 4) % 256 ∧
    ((base64_stream_decode bo base64_state_zero [x, y, z, CHARPAD] mem out).out (out + 1)).val
      = (sextet y <<< 4 ||| sextet z >>> 2) % 256 ∧
    ((base64_decode bo [x, y, z, CHARPAD] mem out).out out).val
      = (sextet x <<< 2 ||| sextet y >>> 4) % 256 ∧
    ((base64_decode bo [x, y, z, CHARPAD] mem out).out (out + 1)).val
      = (sextet y <<< 4 ||| sextet z >>> 2) % 256 ∧
    (base64_stream_decode bo base64_state_zero [x, y, z, CHARPAD] mem out).state.eof
      = BASE64_EOF ∧
    (base64_stream_decode bo base64_state_zero [x, y, z, CHARPAD] mem out).state.bytes = 0 := by
  have dx := (is_data_iff x).mp hx
  have dy := (is_data_iff y).mp hy
  have dz := (is_data_iff z).mp hz
  obtain ⟨a1, a2, a3, a4, a5, -⟩ := stream_decode_streaming bo base64_state_zero
    [x, y, z, CHARPAD] mem out 0 rfl rfl (by omega)
  have hr : scalar_run 0 base64_state_zero.carry [x, y, z, CHARPAD] =
      ⟨1, ⟨BASE64_EOF, 0, u8 (dec_8bit z <<< 6)⟩,
        [u8 ((u8 (dec_8bit x <<< 2)).val ||| dec_8bit y >>> 4),
          u8 ((u8 (dec_8bit y <<< 4)).val ||| dec_8bit z >>> 2)]⟩ := by
    simp [scalar_run, show ¬ 254 ≤ dec_8bit x by omega, show ¬ 254 ≤ dec_8bit y by omega,
      show ¬ 254 ≤ dec_8bit z by omega, dec_8bit_pad, Run.emit]
  rw [hr] at a1 a2 a3 a4 a5
  simp only [List.length_cons, List.length_nil] at a4
  have hb0 : ((base64_stream_decode bo base64_state_zero [x, y, z, CHARPAD] mem out).out
      out).val = (sextet x <<< 2 ||| sextet y >>> 4) % 256 := by
    have := a5.1 0 (by simp)
    simp only [Nat.add_zero] at this
    rw [this, sextet_eq x hx, sextet_eq y hy]
    obtain ⟨s1, -, -⟩ := small_mod (dec_8bit y) dy
    simp only [List.getD_cons_zero, u8_val, or_mod_256, Nat.mod_mod, s1]
  have hb1 : ((base64_stream_decode bo base64_state_zero [x, y, z, CHARPAD] mem out).out
      (out + 1)).val = (sextet y <<< 4 ||| sextet z >>> 2) % 256 := by
    have := a5.1 1 (by simp)
    rw [this, sextet_eq y hy, sextet_eq z hz]
    obtain ⟨-, s2, -⟩ := small_mod (dec_8bit z) dz
    simp only [List.getD_cons_succ, List.getD_cons_zero, u8_val, or_mod_256, Nat.mod_mod, s2]
  have hd : (base64_decode bo [x, y, z, CHARPAD] mem out).ret = 1 := by
    unfold base64_decode
    simp only [a1, a3]
    decide
  exact ⟨a1, hd, a4, a4, hb0, hb1, hb0, hb1, a2, a3⟩

/-- Witness of claim C9: `"YQI="` yields the bytes 0x61 0x02. -/
theorem one_pad_tail_witness :
    is_data 89 ∧ is_data 81 ∧ is_data 73 ∧
    (base64_decode .little [89, 81, 73, CHARPAD] zero_mem 0).ret = 1 ∧
    (base64_decode .little [89, 81, 73, CHARPAD] zero_mem 0).outlen = 2 ∧
    ((base64_decode .little [89, 81, 73, CHARPAD] zero_mem 0).out 0).val = 0x61 ∧
    ((base64_decode .little [89, 81, 73, CHARPAD] zero_mem 0).out (0 + 1)).val = 0x02 :=
  ⟨by decide, by decide, by decide,
    (one_pad_tail .little 89 81 73 zero_mem 0 (by decide) (by decide) (by decide)).2.1,
    (one_pad_tail .little 89 81 73 zero_mem 0 (by decide) (by decide) (by decide)).2.2.2.1,
    (one_pad_tail .little 89 81 73 zero_mem 0 (by decide) (by decide) (by decide)).2.2.2.2.2.2.1,
    (one_pad_tail .little 89 81 73 zero_mem 0 (by decide) (by decide)
      (by decide)).2.2.2.2.2.2.2.1⟩

/-- Claim C10. Truncated stream: for a text `S` of data characters whose
length is not a multiple of 4, `base64_stream_decode` on the zero state
returns 1 and leaves `eof == 0` and `bytes == |S| mod 4`, which is not zero;
the closing callers report it as incomplete: `base64_decode` returns 0, and
`parse_base64_sequence` raises a syntax error for the token `S`, as it does
whenever the decoder state it ends with has `bytes != 0`. -/
theorem truncated_stream (bo : ByteOrder) (S : List Byte) (mem : Mem) (out : Nat)
    (hd : ∀ c ∈ S, is_data c) (hl : S.length % 4 ≠ 0) :
    (base64_stream_decode bo base64_state_zero S mem out).ret = 1 ∧
    (base64_stream_decode bo base64_state_zero S mem out).state.eof = 0 ∧
    (base64_stream_decode bo base64_state_zero S mem out).state.bytes
      = ((S.length % 4 : Nat) : Int) ∧
    (base64_stream_decode bo base64_state_zero S mem out).state.bytes ≠ 0 ∧
    (base64_decode bo S mem out).ret = 0 ∧
    (∀ (delim : Int) (rdata : rdata_t),
      (parse_base64_sequence bo delim [S] rdata mem).outcome = .syntax_error) ∧
    (∀ (delim : Int) (tokens : List (List Byte)) (rdata : rdata_t) (m : Mem),
      (parse_base64_sequence bo delim tokens rdata m).state.bytes ≠ 0 →
        (parse_base64_sequence bo delim tokens rdata m).outcome = .syntax_error) := by
  have hd1 : ∀ c ∈ S, dec_8bit c < 64 := fun c hc => (is_data_iff c).mp (hd c hc)
  have key : ∀ (m : Mem) (o : Nat),
      (base64_stream_decode bo base64_state_zero S m o).ret = 1 ∧
      (base64_stream_decode bo base64_state_zero S m o).state.eof = 0 ∧
      (base64_stream_decode bo base64_state_zero S m o).state.bytes
        = ((S.length % 4 : Nat) : Int) := by
    intro m o
    obtain ⟨a1, a2, a3, -, -, -⟩ := stream_decode_streaming bo base64_state_zero S m o 0
      rfl rfl (by omega)
    obtain ⟨b1, b2, b3⟩ := scalar_run_data S 0 base64_state_zero.carry hd1 (by omega)
    rw [Nat.zero_add] at b3
    exact ⟨a1.trans b1, a2.trans b2, a3.trans b3⟩
  have hne : ∀ (m : Mem) (o : Nat),
      (base64_stream_decode bo base64_state_zero S m o).state.bytes ≠ 0 := by
    intro m o
    rw [(key m o).2.2]
    omega
  obtain ⟨k1, k2, k3⟩ := key mem out
  refine ⟨k1, k2, k3, hne mem out, ?_, ?_, ?_⟩
  · unfold base64_decode
    simp only [k1, if_neg (hne mem out)]
    decide
  · intro delim rdata
    unfold parse_base64_sequence
    simp only [parse_base64_sequence_loop]
    split
    · rfl
    · rw [if_neg (by rw [(key mem rdata.octets).1]; decide)]
      rw [if_pos (hne mem rdata.octets)]
  · intro delim tokens rdata m
    unfold parse_base64_sequence
    cases tokens with
    | nil => intro h; exact absurd rfl h
    | cons t ts =>
      simp only []
      generalize base64_state_zero = st
      induction (t :: ts) generalizing st rdata m with
      | nil =>
        intro h
        simp only [parse_base64_sequence_loop] at h ⊢
        split
        · rfl
        · rename_i h2
          rw [if_neg h2] at h
          exact absurd h h2
      | cons u us ih =>
        simp only [parse_base64_sequence_loop]
        split
        · intro _; rfl
        · split
          · intro _; rfl
          · exact ih _ _ _

/-- Witness of claim C10: the text `"YQI"` (3 data characters). -/
theorem truncated_stream_witness :
    (base64_stream_decode .little base64_state_zero (ascii "YQI") zero_mem 0).ret = 1 ∧
    (base64_stream_decode .little base64_state_zero (ascii "YQI") zero_mem 0).state.bytes = 3 ∧
    (base64_decode .little (ascii "YQI") zero_mem 0).ret = 0 ∧
    (parse_base64_sequence .little 0 [ascii "YQI"] ⟨0, 100⟩ zero_mem).outcome
      = .syntax_error :=
  ⟨(truncated_stream .little (ascii "YQI") zero_mem 0 (by decide) (by decide)).1,
    (truncated_stream .little (ascii "YQI") zero_mem 0 (by decide) (by decide)).2.2.1,
    (truncated_stream .little (ascii "YQI") zero_mem 0 (by decide) (by decide)).2.2.2.2.1,
    (truncated_stream .little (ascii "YQI") zero_mem 0 (by decide) (by decide)).2.2.2.2.2.1
      0 ⟨0, 100⟩⟩

/-! ### The language of the automaton -/

theorem dec_8bit_eq_pad (x : Byte) (h : dec_8bit x = 254) : x = CHARPAD := by
  rw [dec_8bit_eq] at h; revert x; decide!

theorem phase_run_data (s : List Byte) (p : Nat) (c : Byte) (hd : ∀ x ∈ s, dec_8bit x < 64)
    (hp : p ≤ 3) : ∃ c1, (phase_run (.pos p c) s).1 = .pos ((p + s.length) % 4) c1 := by
  induction s generalizing p c with
  | nil => exact ⟨c, by simp [phase_run, Nat.mod_eq_of_lt (show p < 4 by omega)]⟩
  | cons x xs ih =>
    have hx := hd x (List.mem_cons_self _ _)
    have hxs : ∀ y ∈ xs, dec_8bit y < 64 := fun y hy => hd y (List.mem_cons_of_mem _ hy)
    rcases p with _ | _ | _ | _ | p
    · obtain ⟨c1, h⟩ := ih 1 (u8 (dec_8bit x <<< 2)) hxs (by omega)
      refine ⟨c1, ?_⟩
      simp only [phase_run, phase_step, if_pos hx, if_true, List.length_cons]
      rw [h]; congr 1; omega
    · obtain ⟨c1, h⟩ := ih 2 (u8 (dec_8bit x <<< 4)) hxs (by omega)
      refine ⟨c1, ?_⟩
      simp only [phase_run, phase_step, if_pos hx, List.length_cons]
      simp only [Nat.zero_add, one_ne_zero, if_false, if_true]
      rw [h]; congr 1; omega
    · obtain ⟨c1, h⟩ := ih 3 (u8 (dec_8bit x <<< 6)) hxs (by omega)
      refine ⟨c1, ?_⟩
      simp only [phase_run, phase_step, if_pos hx, List.length_cons]
      simp only [Nat.zero_add, Nat.reduceAdd, OfNat.ofNat_ne_zero, OfNat.ofNat_ne_one,
        if_false, if_true]
      rw [h]; congr 1; omega
    · obtain ⟨c1, h⟩ := ih 0 0 hxs (by omega)
      refine ⟨c1, ?_⟩
      simp only [phase_run, phase_step, if_pos hx, List.length_cons]
      simp only [Nat.zero_add, Nat.reduceAdd, OfNat.ofNat_ne_zero, OfNat.ofNat_ne_one,
        Nat.reduceEqDiff, if_false]
      rw [h]; congr 1; omega
    · omega

/-- An accepting run splits the text into data characters followed by
nothing, by two pads at position 2, or by one pad at position 3. -/
theorem accepting_split (s : List Byte) (p : Nat) (c : Byte) (hp : p ≤ 3)
    (h : (phase_run (.pos p c) s).1.accepting = true) :
    ∃ body tail, s = body ++ tail ∧ (∀ x ∈ body, is_data x) ∧
      ((tail = [] ∧ (p + body.length) % 4 = 0) ∨
       (tail = [CHARPAD, CHARPAD] ∧ (p + body.length) % 4 = 2) ∨
       (tail = [CHARPAD] ∧ (p + body.length) % 4 = 3)) := by
  induction s generalizing p c with
  | nil =>
    refine ⟨[], [], rfl, by simp, Or.inl ⟨rfl, ?_⟩⟩
    simp only [phase_run, Phase.accepting, decide_eq_true_eq] at h
    simp [h]
  | cons x xs ih =>
    rcases dec_8bit_cases x with hx | hx | hx
    · have key : ∀ c1, (phase_run (.pos ((p + 1) % 4) c1) xs).1.accepting = true →
          ∃ body tail, x :: xs = body ++ tail ∧ (∀ y ∈ body, is_data y) ∧
            ((tail = [] ∧ (p + body.length) % 4 = 0) ∨
             (tail = [CHARPAD, CHARPAD] ∧ (p + body.length) % 4 = 2) ∨
             (tail = [CHARPAD] ∧ (p + body.length) % 4 = 3)) := by
        intro c1 h1
        obtain ⟨body, tail, e, hb, ht⟩ := ih ((p + 1) % 4) c1 (by omega) h1
        refine ⟨x :: body, tail, by rw [e]; rfl, ?_, ?_⟩
        · intro y hy
          rcases List.mem_cons.mp hy with rfl | hy
          · exact (is_data_iff _).mpr hx
          · exact hb y hy
        · simp only [List.length_cons]
          rcases ht with ⟨t1, t2⟩ | ⟨t1, t2⟩ | ⟨t1, t2⟩
          · exact Or.inl ⟨t1, by omega⟩
          · exact Or.inr (Or.inl ⟨t1, by omega⟩)
          · exact Or.inr (Or.inr ⟨t1, by omega⟩)
      rcases p with _ | _ | _ | _ | p
      · exact key _ (by simpa [phase_run, phase_step, hx] using h)
      · exact key _ (by simpa [phase_run, phase_step, hx] using h)
      · exact key _ (by simpa [phase_run, phase_step, hx] using h)
      · exact key _ (by simpa [phase_run, phase_step, hx] using h)
      · omega
    · have hx2 : ¬ dec_8bit x < 64 := by omega
      have ex := dec_8bit_eq_pad x hx
      rcases p with _ | _ | _ | _ | p
      · simp [phase_run, phase_step, hx, phase_run_fail, Phase.accepting] at h
      · simp [phase_run, phase_step, hx, phase_run_fail, Phase.accepting] at h
      · have h1 : (phase_run .pad1 xs).1.accepting = true := by
          simpa [phase_run, phase_step, hx] using h
        rw [phase_run_pad1] at h1
        rcases xs with _ | ⟨y, ys⟩
        · simp [Phase.accepting] at h1
        · by_cases hy : dec_8bit y = 254 ∧ ys = []
          · obtain ⟨hy1, rfl⟩ := hy
            refine ⟨[], [CHARPAD, CHARPAD], ?_, by simp, Or.inr (Or.inl ⟨rfl, rfl⟩)⟩
            rw [ex, dec_8bit_eq_pad y hy1]; rfl
          · simp only [if_neg hy, Phase.accepting] at h1
            exact absurd h1 (by decide)
      · have h1 : (phase_run .done xs).1.accepting = true := by
          simpa [phase_run, phase_step, hx] using h
        rw [phase_run_done] at h1
        by_cases hxs : xs = []
        · subst hxs
          refine ⟨[], [CHARPAD], ?_, by simp, Or.inr (Or.inr ⟨rfl, rfl⟩)⟩
          rw [ex]; rfl
        · simp only [if_neg hxs, Phase.accepting] at h1
          exact absurd h1 (by decide)
      · omega
    · have hx2 : ¬ dec_8bit x < 64 := by omega
      simp [phase_run, phase_step, hx, hx2, phase_run_fail, Phase.accepting] at h

theorem accepting_of_valid (t : List Byte) (h : valid_text t) :
    (phase_run (.pos 0 0) t).1.accepting = true := by
  obtain ⟨body, tail, rfl, hb, hl, ht⟩ := h
  have hb1 : ∀ x ∈ body, dec_8bit x < 64 := fun x hx => (is_data_iff x).mp (hb x hx)
  obtain ⟨c1, e⟩ := phase_run_data body 0 0 hb1 (by omega)
  rw [Nat.zero_add, hl] at e
  rw [phase_run_append, e]
  rcases ht with rfl | ⟨x, y, hx, hy, rfl⟩ | ⟨x, y, z, hx, hy, hz, rfl⟩
  · simp [phase_run, Phase.accepting]
  · rw [phase_run_two_pads _ _ _ ((is_data_iff x).mp hx) ((is_data_iff y).mp hy)]
    rfl
  · rw [phase_run_one_pad _ _ _ _ ((is_data_iff x).mp hx) ((is_data_iff y).mp hy)
      ((is_data_iff z).mp hz)]
    rfl

theorem valid_of_accepting (t : List Byte) (h : (phase_run (.pos 0 0) t).1.accepting = true) :
    valid_text t := by
  obtain ⟨body, tail, rfl, hb, ht⟩ := accepting_split t 0 0 (by omega) h
  rw [Nat.zero_add] at ht
  rcases ht with ⟨rfl, hl⟩ | ⟨rfl, hl⟩ | ⟨rfl, hl⟩
  · exact ⟨body, [], rfl, hb, hl, Or.inl rfl⟩
  · have h2 : (body.drop (body.length - 2)).length = 2 := by
      rw [List.length_drop]; omega
    obtain ⟨x, y, e⟩ := List.length_eq_two.mp h2
    have hm : ∀ c ∈ body.drop (body.length - 2), is_data c :=
      fun c hc => hb c (List.mem_of_mem_drop hc)
    refine ⟨body.take (body.length - 2), [x, y, CHARPAD, CHARPAD], ?_,
      fun c hc => hb c (List.mem_of_mem_take hc), ?_, Or.inr (Or.inl ⟨x, y, ?_, ?_, rfl⟩)⟩
    · conv_lhs => rw [← List.take_append_drop (body.length - 2) body, e]
      simp
    · rw [List.length_take]; omega
    · exact hm x (by rw [e]; simp)
    · exact hm y (by rw [e]; simp)
  · have h3 : (body.drop (body.length - 3)).length = 3 := by
      rw [List.length_drop]; omega
    obtain ⟨x, y, z, e⟩ := List.length_eq_three.mp h3
    have hm : ∀ c ∈ body.drop (body.length - 3), is_data c :=
      fun c hc => hb c (List.mem_of_mem_drop hc)
    refine ⟨body.take (body.length - 3), [x, y, z, CHARPAD], ?_,
      fun c hc => hb c (List.mem_of_mem_take hc), ?_,
      Or.inr (Or.inr ⟨x, y, z, ?_, ?_, ?_, rfl⟩)⟩
    · conv_lhs => rw [← List.take_append_drop (body.length - 3) body, e]
      simp
    · rw [List.length_take]; omega
    · exact hm x (by rw [e]; simp)
    · exact hm y (by rw [e]; simp)
    · exact hm z (by rw [e]; simp)

theorem base64_decode_ret_iff (bo : ByteOrder) (S : List Byte) (mem : Mem) (out : Nat) :
    ((base64_decode bo S mem out).ret = 1 ↔ valid_text S) ∧
    ((base64_decode bo S mem out).ret = 0 ↔ ¬ valid_text S) := by
  obtain ⟨h1, -, -, -⟩ := base64_decode_phase bo S mem out
  rw [h1]
  by_cases ha : (phase_run (.pos 0 0) S).1.accepting = true
  · have hv := valid_of_accepting S ha
    simp [ha, hv]
  · have hv : ¬ valid_text S := fun hv => ha (accepting_of_valid S hv)
    simp [ha, hv]

/-- Claim C3. Acceptance language of the one-shot path: `base64_decode`
returns 1 exactly on the texts made of zero or more groups of 4 data
characters, optionally followed by one final group `xx==` or `xxx=`, and
returns 0 on every other byte string; in particular `xx=` (missing second
pad) and `xx=y` (data after a pad) are rejected, as are `"YQ="` and `"YQ=Q"`. -/
theorem base64_decode_accepts_valid_text (bo : ByteOrder) (S : List Byte) (mem : Mem)
    (out : Nat) :
    ((base64_decode bo S mem out).ret = 1 ↔ valid_text S) ∧
    ((base64_decode bo S mem out).ret = 0 ↔ ¬ valid_text S) ∧
    (∀ x y : Byte, is_data x → is_data y →
      (base64_decode bo [x, y, CHARPAD] mem out).ret = 0) ∧
    (∀ x y z : Byte, is_data x → is_data y → is_data z →
      (base64_decode bo [x, y, CHARPAD, z] mem out).ret = 0) ∧
    (base64_decode bo (ascii "YQ=") mem out).ret = 0 ∧
    (base64_decode bo (ascii "YQ=Q") mem out).ret = 0 := by
  have g1 : ∀ x y : Byte, is_data x → is_data y →
      (base64_decode bo [x, y, CHARPAD] mem out).ret = 0 := by
    intro x y hx hy
    have dx := (is_data_iff x).mp hx
    have dy := (is_data_iff y).mp hy
    rw [(base64_decode_phase bo _ mem out).1]
    simp [phase_run, phase_step, dx, dy, dec_8bit_pad, Phase.accepting]
  have g2 : ∀ x y z : Byte, is_data x → is_data y → is_data z →
      (base64_decode bo [x, y, CHARPAD, z] mem out).ret = 0 := by
    intro x y z hx hy hz
    have dx := (is_data_iff x).mp hx
    have dy := (is_data_iff y).mp hy
    have dz : dec_8bit z ≠ 254 := by have := (is_data_iff z).mp hz; omega
    rw [(base64_decode_phase bo _ mem out).1]
    simp [phase_run, phase_step, dx, dy, dz, dec_8bit_pad, Phase.accepting]
  exact ⟨(base64_decode_ret_iff bo S mem out).1, (base64_decode_ret_iff bo S mem out).2, g1, g2,
    g1 89 81 (by decide) (by decide), g2 89 81 81 (by decide) (by decide) (by decide)⟩

/-- Claim C2. Chunk invariance: for a valid Base64 text `T` split into
non-empty chunks, the calls of `base64_stream_decode` on the chunks in order,
with one state starting from zero and each call writing at the output offset
reached so far, all return 1 and leave `state.bytes == 0`; `base64_decode` on
`T` as one buffer returns 1 as well, and the total length and the output bytes
of the two are the same. -/
theorem chunk_invariance (bo : ByteOrder) (T : List Byte) (chunks : List (List Byte))
    (mem : Mem) (out : Nat) (hv : valid_text T) (hne : ∀ c ∈ chunks, c ≠ [])
    (hj : chunks.flatten = T) :
    (stream_decode_chunks bo chunks base64_state_zero mem out 0).ret = 1 ∧
    (stream_decode_chunks bo chunks base64_state_zero mem out 0).state.bytes = 0 ∧
    (base64_decode bo T mem out).ret = 1 ∧
    (stream_decode_chunks bo chunks base64_state_zero mem out 0).outlen
      = (base64_decode bo T mem out).outlen ∧
    load_bytes (stream_decode_chunks bo chunks base64_state_zero mem out 0).out out
        (stream_decode_chunks bo chunks base64_state_zero mem out 0).outlen
      = load_bytes (base64_decode bo T mem out).out out (base64_decode bo T mem out).outlen := by
  subst hj
  have ha := accepting_of_valid _ hv
  have hf : (phase_run (.pos 0 0) chunks.flatten).1 ≠ .fail := by
    intro h; rw [h] at ha; exact absurd ha (by decide)
  obtain ⟨-, b⟩ := stream_decode_chunks_phase bo chunks hne base64_state_zero (.pos 0 0)
    inPhase_zero mem out 0
  obtain ⟨b1, b2, b3, b4⟩ := b hf
  obtain ⟨d1, d2, d3, -⟩ := base64_decode_phase bo chunks.flatten mem out
  rw [Nat.zero_add] at b3
  rw [Nat.add_zero] at b4
  refine ⟨b1, (inPhase_bytes b2).mpr ha, (base64_decode_ret_iff bo _ mem out).1.mpr hv,
    by rw [b3, d2], ?_⟩
  rw [b3, d2, wrote_load b4, wrote_load d3]

/-- Witness of claim C2: `"MDEyMzQ1Njc4OWFiY2RlZg=="` split into the chunks
`"MDEyMzQ1"` and `"Njc4OWFiY2RlZg=="`. -/
theorem chunk_invariance_witness :
    (stream_decode_chunks .little [ascii "MDEyMzQ1", ascii "Njc4OWFiY2RlZg=="]
      base64_state_zero zero_mem 0 0).ret = 1 ∧
    (stream_decode_chunks .little [ascii "MDEyMzQ1", ascii "Njc4OWFiY2RlZg=="]
      base64_state_zero zero_mem 0 0).state.bytes = 0 ∧
    (base64_decode .little (ascii "MDEyMzQ1Njc4OWFiY2RlZg==") zero_mem 0).ret = 1 ∧
    (stream_decode_chunks .little [ascii "MDEyMzQ1", ascii "Njc4OWFiY2RlZg=="]
      base64_state_zero zero_mem 0 0).outlen
      = (base64_decode .little (ascii "MDEyMzQ1Njc4OWFiY2RlZg==") zero_mem 0).outlen ∧
    load_bytes (stream_decode_chunks .little [ascii "MDEyMzQ1", ascii "Njc4OWFiY2RlZg=="]
        base64_state_zero zero_mem 0 0).out 0
        (stream_decode_chunks .little [ascii "MDEyMzQ1", ascii "Njc4OWFiY2RlZg=="]
          base64_state_zero zero_mem 0 0).outlen
      = load_bytes (base64_decode .little (ascii "MDEyMzQ1Njc4OWFiY2RlZg==") zero_mem 0).out 0
        (base64_decode .little (ascii "MDEyMzQ1Njc4OWFiY2RlZg==") zero_mem 0).outlen :=
  chunk_invariance .little (ascii "MDEyMzQ1Njc4OWFiY2RlZg==")
    [ascii "MDEyMzQ1", ascii "Njc4OWFiY2RlZg=="] zero_mem 0
    ⟨ascii "MDEyMzQ1Njc4OWFiY2Rl", ascii "Zg==", by decide, by decide, by decide,
      Or.inr (Or.inl ⟨90, 103, by decide, by decide, by decide⟩)⟩
    (by decide) (by decide)

/-- Claim C4. The verdict does not depend on the chunking, for malformed input
as well: for every split of a byte string into non-empty chunks, every call
of `base64_stream_decode` (one state, starting from zero) returns 1 and the
final `state.bytes` is 0 exactly when `base64_decode` on the whole string
returns 1; and `base64_decode` returns 0 otherwise. -/
theorem verdict_independent_of_chunking (bo : ByteOrder) (chunks : List (List Byte))
    (mem : Mem) (out : Nat) (hne : ∀ c ∈ chunks, c ≠ []) :
    (((stream_decode_chunks bo chunks base64_state_zero mem out 0).ret = 1 ∧
        (stream_decode_chunks bo chunks base64_state_zero mem out 0).state.bytes = 0) ↔
      (base64_decode bo chunks.flatten mem out).ret = 1) ∧
    ((base64_decode bo chunks.flatten mem out).ret = 1 ∨
      (base64_decode bo chunks.flatten mem out).ret = 0) := by
  obtain ⟨a, b⟩ := stream_decode_chunks_phase bo chunks hne base64_state_zero (.pos 0 0)
    inPhase_zero mem out 0
  obtain ⟨d1, -, -, -⟩ := base64_decode_phase bo chunks.flatten mem out
  rw [d1]
  by_cases hf : (phase_run (.pos 0 0) chunks.flatten).1 = .fail
  · have r0 := a hf
    rw [hf, r0]
    simp [Phase.accepting]
  · obtain ⟨b1, b2, -, -⟩ := b hf
    have hb := inPhase_bytes b2
    rw [b1]
    by_cases hacc : (phase_run (.pos 0 0) chunks.flatten).1.accepting = true
    · simp [hacc, hb.mpr hacc]
    · have : (stream_decode_chunks bo chunks base64_state_zero mem out 0).state.bytes ≠ 0 :=
        fun h => hacc (hb.mp h)
      simp [hacc, this]

/-- Witness of claim C4: the malformed text `"YQ=Q"` split as `"YQ"`, `"=Q"`. -/
theorem verdict_independent_of_chunking_witness :
    (((stream_decode_chunks .little [ascii "YQ", ascii "=Q"] base64_state_zero zero_mem 0 0).ret
          = 1 ∧
        (stream_decode_chunks .little [ascii "YQ", ascii "=Q"] base64_state_zero zero_mem 0
          0).state.bytes = 0) ↔
      (base64_decode .little [ascii "YQ", ascii "=Q"].flatten zero_mem 0).ret = 1) ∧
    ((base64_decode .little [ascii "YQ", ascii "=Q"].flatten zero_mem 0).ret = 1 ∨
      (base64_decode .little [ascii "YQ", ascii "=Q"].flatten zero_mem 0).ret = 0) :=
  verdict_independent_of_chunking .little [ascii "YQ", ascii "=Q"] zero_mem 0 (by decide)

/-! ### Failing runs -/

theorem dec_8bit_invalid (b : Byte) (h1 : ¬ is_data b) (h2 : b ≠ CHARPAD) : dec_8bit b = 255 := by
  rcases dec_8bit_cases b with h | h | h
  · exact absurd ((is_data_iff b).mpr h) h1
  · exact absurd (dec_8bit_eq_pad b h) h2
  · exact h

theorem scalar_run_invalid (s : List Byte) (p : Nat) (c : Byte) (hp : p ≤ 3)
    (h : ∃ b ∈ s, dec_8bit b = 255) : (scalar_run p c s).ret = 0 := by
  induction s generalizing p c with
  | nil => obtain ⟨b, hb, _⟩ := h; simp at hb
  | cons x xs ih =>
    obtain ⟨b, hb, hb2⟩ := h
    rcases dec_8bit_cases x with hx | hx | hx
    · have hxs : ∃ b ∈ xs, dec_8bit b = 255 := by
        rcases List.mem_cons.mp hb with rfl | hb1
        · omega
        · exact ⟨b, hb1, hb2⟩
      have h1 : ¬ 254 ≤ dec_8bit x := by omega
      rcases p with _ | _ | _ | _ | p
      · simpa [scalar_run, h1] using ih 1 _ (by omega) hxs
      · simpa [scalar_run, h1, Run.emit] using ih 2 _ (by omega) hxs
      · simpa [scalar_run, h1, Run.emit] using ih 3 _ (by omega) hxs
      · simpa [scalar_run, h1, Run.emit] using ih 0 _ (by omega) hxs
      · omega
    · have hbx : b ∈ xs := by
        rcases List.mem_cons.mp hb with rfl | hb1
        · omega
        · exact hb1
      rcases p with _ | _ | _ | _ | p
      · simp [scalar_run, hx]
      · simp [scalar_run, hx]
      · rcases xs with _ | ⟨y, ys⟩
        · simp at hbx
        · have : ¬ (dec_8bit y = 254 ∧ ys = []) := by
            rintro ⟨hy, rfl⟩
            simp only [List.mem_singleton] at hbx
            subst hbx; omega
          simp [scalar_run, hx, this]
      · have : xs ≠ [] := List.ne_nil_of_mem hbx
        simp [scalar_run, hx, this]
      · omega
    · rcases p with _ | _ | _ | _ | p
      · simp [scalar_run, hx]
      · simp [scalar_run, hx]
      · simp [scalar_run, hx]
      · simp [scalar_run, hx]
      · omega

theorem scalar_run_prefix_outs (pre : List Byte) (p : Nat) (c bad : Byte) (rest : List Byte)
    (hpre : ∀ x ∈ pre, dec_8bit x < 64) (hbad : 254 ≤ dec_8bit bad) (hp : p ≤ 3) :
    (scalar_run p c (pre ++ bad :: rest)).outs = (scalar_run p c pre).outs := by
  induction pre generalizing p c with
  | nil =>
    rcases p with _ | _ | _ | _ | p
    · simp [scalar_run, hbad]
    · simp [scalar_run, hbad]
    · simp only [List.nil_append, scalar_run, if_pos hbad]
      split
      · split <;> rfl
      · rfl
    · simp [scalar_run, hbad]
    · omega
  | cons x xs ih =>
    have hx : ¬ 254 ≤ dec_8bit x := by
      have := hpre x (List.mem_cons_self _ _); omega
    have hxs : ∀ y ∈ xs, dec_8bit y < 64 := fun y hy => hpre y (List.mem_cons_of_mem _ hy)
    rcases p with _ | _ | _ | _ | p
    · simpa [scalar_run, hx] using ih 1 _ hxs (by omega)
    · simpa [scalar_run, hx, Run.emit] using ih 2 _ hxs (by omega)
    · simpa [scalar_run, hx, Run.emit] using ih 3 _ hxs (by omega)
    · simpa [scalar_run, hx, Run.emit] using ih 0 _ hxs (by omega)
    · omega

theorem scalar_run_fail_eof (s : List Byte) (p : Nat) (c : Byte) (hp : p ≤ 3)
    (hr : (scalar_run p c s).ret = 0) (h2 : invalid_at_two p s = false) :
    (scalar_run p c s).st.eof = BASE64_EOF := by
  induction s generalizing p c with
  | nil => simp [scalar_run] at hr
  | cons x xs ih =>
    rcases dec_8bit_cases x with hx | hx | hx
    · have hd := (is_data_iff x).mpr hx
      have h1 : ¬ 254 ≤ dec_8bit x := by omega
      simp only [invalid_at_two, if_pos hd] at h2
      rcases p with _ | _ | _ | _ | p
      · simp only [scalar_run, if_neg h1] at hr ⊢
        exact ih 1 _ (by omega) hr h2
      · simp only [scalar_run, if_neg h1, Run.emit] at hr ⊢
        exact ih 2 _ (by omega) hr h2
      · simp only [scalar_run, if_neg h1, Run.emit] at hr ⊢
        exact ih 3 _ (by omega) hr h2
      · simp only [scalar_run, if_neg h1, Run.emit] at hr ⊢
        exact ih 0 _ (by omega) hr h2
      · omega
    · rcases p with _ | _ | _ | _ | p
      · simp [scalar_run, hx]
      · simp [scalar_run, hx]
      · rcases xs with _ | ⟨y, ys⟩
        · simp [scalar_run, hx] at hr
        · simp [scalar_run, hx]
      · simp [scalar_run, hx]
      · omega
    · have hd : ¬ is_data x := fun h => by have := (is_data_iff x).mp h; omega
      have hpad : x ≠ CHARPAD := fun h => by rw [h, dec_8bit_pad] at hx; omega
      rcases p with _ | _ | _ | _ | p
      · simp [scalar_run, hx]
      · simp [scalar_run, hx]
      · simp [invalid_at_two, hd, hpad] at h2
      · simp [scalar_run, hx]
      · omega

theorem eof_state_ret (bo : ByteOrder) (st : base64_state) (src : List Byte) (mem : Mem)
    (out : Nat) (he : st.eof = BASE64_EOF) : (base64_stream_decode bo st src mem out).ret = 0 := by
  unfold base64_stream_decode
  simp [he, BASE64_EOF, BASE64_AEOF]

/-- Claim C5. Alphabet rejection: from every decoder state, a chunk that
contains a byte outside `[A-Za-z0-9+/=]` makes `base64_stream_decode` return
0; and in the streaming state (`eof == 0`, `bytes` in 0..3), when every byte
before the bad byte is a data character, the reported `outlen` and the output
bytes are those of decoding only that prefix from the same state. -/
theorem alphabet_rejection (bo : ByteOrder) (st : base64_state) (pre : List Byte) (bad : Byte)
    (rest : List Byte) (mem : Mem) (out : Nat) (hbad : ¬ is_data bad) (hpad : bad ≠ CHARPAD) :
    (base64_stream_decode bo st (pre ++ bad :: rest) mem out).ret = 0 ∧
    (st.eof = 0 → 0 ≤ st.bytes → st.bytes ≤ 3 → (∀ c ∈ pre, is_data c) →
      (base64_stream_decode bo st (pre ++ bad :: rest) mem out).outlen
        = (base64_stream_decode bo st pre mem out).outlen ∧
      load_bytes (base64_stream_decode bo st (pre ++ bad :: rest) mem out).out out
          (base64_stream_decode bo st (pre ++ bad :: rest) mem out).outlen
        = load_bytes (base64_stream_decode bo st pre mem out).out out
          (base64_stream_decode bo st pre mem out).outlen) := by
  have hv := dec_8bit_invalid bad hbad hpad
  have hmem : ∃ b ∈ pre ++ bad :: rest, dec_8bit b = 255 := ⟨bad, by simp, hv⟩
  constructor
  · by_cases he : st.eof = 0
    · by_cases hb : 0 ≤ st.bytes ∧ st.bytes ≤ 3
      · have hp : st.bytes = ((st.bytes.toNat : Nat) : Int) := (Int.toNat_of_nonneg hb.1).symm
        obtain ⟨a1, -, -, -, -, -⟩ := stream_decode_streaming bo st (pre ++ bad :: rest) mem out
          st.bytes.toNat he hp (by omega)
        rw [a1]
        exact scalar_run_invalid _ _ _ (by omega) hmem
      · unfold base64_stream_decode
        simp only [he, ne_eq, not_true_eq_false, if_false]
        rw [if_neg (by omega), if_neg (by omega), if_neg (by omega), if_neg (by omega)]
    · unfold base64_stream_decode
      simp only [ne_eq, he, not_false_eq_true, if_true]
      split
      · rename_i h
        simp only []
        rw [if_neg]
        rintro ⟨h1, h2⟩
        rcases pre with _ | ⟨x, xs⟩
        · simp only [List.nil_append, peek_cons] at h1
          omega
        · simp at h2
      · rfl
  · intro he hb0 hb3 hpre
    have hp : st.bytes = ((st.bytes.toNat : Nat) : Int) := (Int.toNat_of_nonneg hb0).symm
    have hpre1 : ∀ x ∈ pre, dec_8bit x < 64 := fun x hx => (is_data_iff x).mp (hpre x hx)
    obtain ⟨-, -, -, a4, a5, -⟩ := stream_decode_streaming bo st (pre ++ bad :: rest) mem out
      st.bytes.toNat he hp (by omega)
    obtain ⟨-, -, -, b4, b5, -⟩ := stream_decode_streaming bo st pre mem out
      st.bytes.toNat he hp (by omega)
    have e := scalar_run_prefix_outs pre st.bytes.toNat st.carry bad rest hpre1 (by omega)
      (by omega)
    rw [e] at a4 a5
    refine ⟨by rw [a4, b4], ?_⟩
    rw [a4, b4, wrote_load a5, wrote_load b5]

/-- Witness of claim C5: the chunk `"MDEy!zQ1"` in the zero state; the four
data characters before the `!` give the three bytes `"012"`. -/
theorem alphabet_rejection_witness :
    (base64_stream_decode .little base64_state_zero (ascii "MDEy" ++ 33 :: ascii "zQ1")
      zero_mem 0).ret = 0 ∧
    (base64_stream_decode .little base64_state_zero (ascii "MDEy" ++ 33 :: ascii "zQ1")
      zero_mem 0).outlen
      = (base64_stream_decode .little base64_state_zero (ascii "MDEy") zero_mem 0).outlen ∧
    load_bytes (base64_stream_decode .little base64_state_zero (ascii "MDEy" ++ 33 :: ascii "zQ1")
        zero_mem 0).out 0
        (base64_stream_decode .little base64_state_zero (ascii "MDEy" ++ 33 :: ascii "zQ1")
          zero_mem 0).outlen
      = load_bytes (base64_stream_decode .little base64_state_zero (ascii "MDEy") zero_mem 0).out
        0 (base64_stream_decode .little base64_state_zero (ascii "MDEy") zero_mem 0).outlen :=
  ⟨(alphabet_rejection .little base64_state_zero (ascii "MDEy") 33 (ascii "zQ1") zero_mem 0
      (by decide) (by decide)).1,
    (alphabet_rejection .little base64_state_zero (ascii "MDEy") 33 (ascii "zQ1") zero_mem 0
      (by decide) (by decide)).2 rfl (by decide) (by decide) (by decide)⟩

/-- Counterexample to claim C7 as stated: after `"YQ="` the state is
ALMOST_DONE (`eof == BASE64_AEOF`, `bytes == 3`); a call with an empty chunk
then returns 0 and leaves `eof == BASE64_AEOF`, not `BASE64_EOF`, and a later
call with the non-empty chunk `"="` returns 1. -/
theorem failure_sets_eof_counterexample :
    (base64_stream_decode .little base64_state_zero (ascii "YQ=") zero_mem 0).state
      = ⟨BASE64_AEOF, 3, 0⟩ ∧
    (base64_stream_decode .little ⟨BASE64_AEOF, 3, 0⟩ [] zero_mem 1).ret = 0 ∧
    (base64_stream_decode .little ⟨BASE64_AEOF, 3, 0⟩ [] zero_mem 1).state.eof = BASE64_AEOF ∧
    (base64_stream_decode .little ⟨BASE64_AEOF, 3, 0⟩ [] zero_mem 1).state.eof ≠ BASE64_EOF ∧
    (base64_stream_decode .little
      (base64_stream_decode .little ⟨BASE64_AEOF, 3, 0⟩ [] zero_mem 1).state
      (ascii "=") zero_mem 1).ret = 1 := by
  decide

/-- Claim C7 as amended. For every state with `eof` in {0,1,2} and `bytes` in
{0,1,2,3} and every chunk, other than the empty chunk in the ALMOST_DONE
state: if `base64_stream_decode` returns 0, and the failure is not an INVALID
byte met at quantum position 2, then the state written back has
`eof == BASE64_EOF`, and every later call returns 0. -/
theorem failure_sets_eof (bo : ByteOrder) (st : base64_state) (src : List Byte) (mem : Mem)
    (out : Nat) (he : st.eof = 0 ∨ st.eof = BASE64_AEOF ∨ st.eof = BASE64_EOF)
    (hb0 : 0 ≤ st.bytes) (hb3 : st.bytes ≤ 3) (hne : st.eof = BASE64_AEOF → src ≠ [])
    (h2 : st.eof = 0 → invalid_at_two st.bytes.toNat src = false)
    (hr : (base64_stream_decode bo st src mem out).ret = 0) :
    (base64_stream_decode bo st src mem out).state.eof = BASE64_EOF ∧
    ∀ (src2 : List Byte) (mem2 : Mem) (out2 : Nat),
      (base64_stream_decode bo (base64_stream_decode bo st src mem out).state src2 mem2 out2).ret
        = 0 := by
  have key : (base64_stream_decode bo st src mem out).state.eof = BASE64_EOF := by
    rcases he with he | he | he
    · have hp : st.bytes = ((st.bytes.toNat : Nat) : Int) := (Int.toNat_of_nonneg hb0).symm
      obtain ⟨a1, a2, -, -, -, -⟩ := stream_decode_streaming bo st src mem out
        st.bytes.toNat he hp (by omega)
      rw [a2]
      rw [a1] at hr
      exact scalar_run_fail_eof _ _ _ (by omega) hr (h2 he)
    · have hs := hne he
      unfold base64_stream_decode
      simp [he, BASE64_AEOF, hs]
    · unfold base64_stream_decode
      simp [he, BASE64_EOF, BASE64_AEOF]
  exact ⟨key, fun src2 mem2 out2 => eof_state_ret bo _ src2 mem2 out2 key⟩

/-- Witness of claim C7 as amended: the chunk `"YQ=Q"` in the zero state. -/
theorem failure_sets_eof_witness :
    (base64_stream_decode .little base64_state_zero (ascii "YQ=Q") zero_mem 0).state.eof
      = BASE64_EOF ∧
    ∀ (src2 : List Byte) (mem2 : Mem) (out2 : Nat),
      (base64_stream_decode .little
        (base64_stream_decode .little base64_state_zero (ascii "YQ=Q") zero_mem 0).state
        src2 mem2 out2).ret = 0 :=
  failure_sets_eof .little base64_state_zero (ascii "YQ=Q") zero_mem 0 (Or.inl rfl) (by decide)
    (by decide) (by decide) (fun _ => by decide) (by decide)

/-- In the code as it is, an INVALID byte met at quantum position 2 makes the
call return 0 but leaves `eof == 0` with `bytes == 3`: after `"AA!"` a later
call with `"="` returns 1. -/
theorem invalid_at_position_two_keeps_streaming :
    (base64_stream_decode .little base64_state_zero (ascii "AA!") zero_mem 0).ret = 0 ∧
    (base64_stream_decode .little base64_state_zero (ascii "AA!") zero_mem 0).state.eof = 0 ∧
    (base64_stream_decode .little base64_state_zero (ascii "AA!") zero_mem 0).state.bytes = 3 ∧
    (base64_stream_decode .little
      (base64_stream_decode .little base64_state_zero (ascii "AA!") zero_mem 0).state
      (ascii "=") zero_mem 1).ret = 1 := by
  decide

/-! ### The carry at position 0 -/

theorem data_quanta_of_not_data (n : Nat) (x : Byte) (xs : List Byte) (hx : ¬ dec_8bit x < 64) :
    data_quanta n (x :: xs) = 0 := by
  cases n with
  | zero => rfl
  | succ n =>
    have : ¬ quad_ok (x :: xs) := fun h => hx h.1
    simp [data_quanta, this]

/-- The carry written back by a call entered at position 0: the batch loop
leaves the carry alone, the scalar statements that follow it set it. -/
theorem stream_decode_zero_carry (bo : ByteOrder) (st : base64_state) (src : List Byte)
    (mem : Mem) (out : Nat) (he : st.eof = 0) (hb : st.bytes = 0) :
    (base64_stream_decode bo st src mem out).state.carry =
      (scalar_run 0 st.carry (src.drop
        (4 * data_quanta (if src.length < 8 then 0 else (src.length - 4) / 4) src))).st.carry := by
  obtain ⟨eof, bytes, carry⟩ := st
  simp only [] at he hb
  subst he hb
  have hk := stream_loop_head bo src.length
  obtain ⟨m1, e, -⟩ := dec_loop_generic_32_spec bo
    { s := src, slen := src.length, o := out, olen := 0, mem := mem }
  simp only [] at e
  generalize hc : data_quanta (if src.length < 8 then 0 else (src.length - 4) / 4) src = c at e
  unfold base64_stream_decode
  simp only [ne_eq, not_true_eq_false, if_false, if_true, stream_case0]
  rw [e]
  obtain ⟨-, h2⟩ := case0_scalar_refines hk
    { v := { s := src.drop (4 * c), slen := src.length - 4 * c, o := out + 3 * c,
             olen := 0 + 3 * c, mem := m1 },
      st := { eof := 0, bytes := 0, carry := carry }, ret := 0 }
    rfl rfl rfl (by simp only [List.length_drop]) (by show src.length - 4 * c ≤ src.length; omega)
  exact h2

/-- Claim C11. Misplaced padding or invalid byte at quantum position 0 or 1:
in a state with `eof == 0` and `bytes` 0 or 1, a chunk whose first byte is not
a data character (the pad or a byte outside the alphabet) makes
`base64_stream_decode` return 0 with `outlen == 0`, sets `eof` to
`BASE64_EOF`, and leaves `bytes` and `carry` unchanged. -/
theorem misplaced_first_byte (bo : ByteOrder) (st : base64_state) (x : Byte) (xs : List Byte)
    (mem : Mem) (out : Nat) (he : st.eof = 0) (hb : st.bytes = 0 ∨ st.bytes = 1)
    (hx : ¬ is_data x) :
    (base64_stream_decode bo st (x :: xs) mem out).ret = 0 ∧
    (base64_stream_decode bo st (x :: xs) mem out).outlen = 0 ∧
    (base64_stream_decode bo st (x :: xs) mem out).state.eof = BASE64_EOF ∧
    (base64_stream_decode bo st (x :: xs) mem out).state.bytes = st.bytes ∧
    (base64_stream_decode bo st (x :: xs) mem out).state.carry = st.carry := by
  have hx1 : ¬ dec_8bit x < 64 := fun h => hx ((is_data_iff x).mpr h)
  have hx2 : 254 ≤ dec_8bit x := by rcases dec_8bit_cases x with h | h | h <;> omega
  rcases hb with hb | hb
  · obtain ⟨a1, a2, a3, a4, -, -⟩ := stream_decode_streaming bo st (x :: xs) mem out 0 he hb
      (by omega)
    have hc := stream_decode_zero_carry bo st (x :: xs) mem out he hb
    rw [data_quanta_of_not_data _ x xs hx1] at hc
    simp only [scalar_run, if_pos hx2, Nat.mul_zero, List.drop_zero] at a1 a2 a3 a4 hc
    exact ⟨a1, by simpa using a4, a2, by rw [a3, hb], hc⟩
  · obtain ⟨a1, a2, a3, a4, -, a6⟩ := stream_decode_streaming bo st (x :: xs) mem out 1 he hb
      (by omega)
    have hc := a6 (by omega)
    simp only [scalar_run, if_pos hx2] at a1 a2 a3 a4 hc
    exact ⟨a1, by simpa using a4, a2, by rw [a3, hb], hc⟩

/-- Witness of claim C11: the pad as first byte of the chunk `"=AAA"` at
position 1 with carry `0x60`. -/
theorem misplaced_first_byte_witness :
    (base64_stream_decode .little ⟨0, 1, 0x60⟩ (CHARPAD :: ascii "AAA") zero_mem 0).ret = 0 ∧
    (base64_stream_decode .little ⟨0, 1, 0x60⟩ (CHARPAD :: ascii "AAA") zero_mem 0).outlen = 0 ∧
    (base64_stream_decode .little ⟨0, 1, 0x60⟩ (CHARPAD :: ascii "AAA") zero_mem 0).state.eof
      = BASE64_EOF ∧
    (base64_stream_decode .little ⟨0, 1, 0x60⟩ (CHARPAD :: ascii "AAA") zero_mem 0).state.bytes
      = 1 ∧
    (base64_stream_decode .little ⟨0, 1, 0x60⟩ (CHARPAD :: ascii "AAA") zero_mem 0).state.carry
      = 0x60 :=
  misplaced_first_byte .little ⟨0, 1, 0x60⟩ CHARPAD (ascii "AAA") zero_mem 0 rfl
    (Or.inr rfl) (by decide)

/-- Claim C12. ALMOST_DONE continuation with input: in a state with
`eof == BASE64_AEOF`, a non-empty chunk makes `base64_stream_decode` return 1
exactly when the chunk is the single character `=`, and 0 otherwise; in every
case `outlen` is 0 and the state written back has `eof == BASE64_EOF` and
`bytes == 0`. -/
theorem almost_done_continuation (bo : ByteOrder) (st : base64_state) (src : List Byte)
    (mem : Mem) (out : Nat) (he : st.eof = BASE64_AEOF) (hne : src ≠ []) :
    ((base64_stream_decode bo st src mem out).ret = 1 ↔ src = [CHARPAD]) ∧
    ((base64_stream_decode bo st src mem out).ret = 0 ↔ src ≠ [CHARPAD]) ∧
    (base64_stream_decode bo st src mem out).outlen = 0 ∧
    (base64_stream_decode bo st src mem out).state.eof = BASE64_EOF ∧
    (base64_stream_decode bo st src mem out).state.bytes = 0 := by
  cases src with
  | nil => exact absurd rfl hne
  | cons x xs =>
    unfold base64_stream_decode
    simp only [he, BASE64_AEOF, ne_eq, one_ne_zero, not_false_eq_true, if_true,
      List.length_cons, Nat.add_one_ne_zero, and_self, peek_cons, Nat.add_left_eq_self,
      List.length_eq_zero, List.cons.injEq]
    by_cases hx : dec_8bit x = 254
    · have ex := dec_8bit_eq_pad x hx
      by_cases hxs : xs = []
      · simp [hxs, ex, dec_8bit_pad]
      · simp [hx, hxs]
    · have ex : x ≠ CHARPAD := fun h => hx (by rw [h]; exact dec_8bit_pad)
      simp [hx, ex]

/-- Witness of claim C12: the state left by `"YQ="`, fed the chunk `"="`. -/
theorem almost_done_continuation_witness :
    ((base64_stream_decode .little ⟨BASE64_AEOF, 3, 0⟩ (ascii "=") zero_mem 1).ret = 1 ↔
      ascii "=" = [CHARPAD]) ∧
    ((base64_stream_decode .little ⟨BASE64_AEOF, 3, 0⟩ (ascii "=") zero_mem 1).ret = 0 ↔
      ascii "=" ≠ [CHARPAD]) ∧
    (base64_stream_decode .little ⟨BASE64_AEOF, 3, 0⟩ (ascii "=") zero_mem 1).outlen = 0 ∧
    (base64_stream_decode .little ⟨BASE64_AEOF, 3, 0⟩ (ascii "=") zero_mem 1).state.eof
      = BASE64_EOF ∧
    (base64_stream_decode .little ⟨BASE64_AEOF, 3, 0⟩ (ascii "=") zero_mem 1).state.bytes = 0 :=
  almost_done_continuation .little ⟨BASE64_AEOF, 3, 0⟩ (ascii "=") zero_mem 1 rfl (by decide)

/-- Counterexample to claim C13 as stated: in the ALMOST_DONE state left by
`"YQ="`, a call with the empty chunk returns 0, not 1. -/
theorem almost_done_empty_chunk_counterexample :
    (base64_stream_decode .little base64_state_zero (ascii "YQ=") zero_mem 0).state.eof
      = BASE64_AEOF ∧
    (base64_stream_decode .little
      (base64_stream_decode .little base64_state_zero (ascii "YQ=") zero_mem 0).state
      [] zero_mem 1).ret = 0 ∧
    (base64_stream_decode .little
      (base64_stream_decode .little base64_state_zero (ascii "YQ=") zero_mem 0).state
      [] zero_mem 1).ret ≠ 1 := by
  decide

/-- Claim C13 as amended. ALMOST_DONE with an empty chunk: in a state with
`eof == BASE64_AEOF`, `base64_stream_decode` called with a chunk of length 0
returns 0, with zero output bytes, and leaves the state and the memory
unchanged (still ALMOST_DONE). -/
theorem almost_done_empty_chunk (bo : ByteOrder) (st : base64_state) (mem : Mem) (out : Nat)
    (he : st.eof = BASE64_AEOF) :
    (base64_stream_decode bo st [] mem out).ret = 0 ∧
    (base64_stream_decode bo st [] mem out).outlen = 0 ∧
    (base64_stream_decode bo st [] mem out).state = st ∧
    (base64_stream_decode bo st [] mem out).state.eof = BASE64_AEOF ∧
    (base64_stream_decode bo st [] mem out).out = mem := by
  unfold base64_stream_decode
  simp [he, BASE64_AEOF]

/-- Witness of claim C13 as amended: the ALMOST_DONE state left by `"YQ="`. -/
theorem almost_done_empty_chunk_witness :
    (base64_stream_decode .little ⟨BASE64_AEOF, 3, 0⟩ [] zero_mem 1).ret = 0 ∧
    (base64_stream_decode .little ⟨BASE64_AEOF, 3, 0⟩ [] zero_mem 1).outlen = 0 ∧
    (base64_stream_decode .little ⟨BASE64_AEOF, 3, 0⟩ [] zero_mem 1).state
      = ⟨BASE64_AEOF, 3, 0⟩ ∧
    (base64_stream_decode .little ⟨BASE64_AEOF, 3, 0⟩ [] zero_mem 1).state.eof = BASE64_AEOF ∧
    (base64_stream_decode .little ⟨BASE64_AEOF, 3, 0⟩ [] zero_mem 1).out = zero_mem :=
  almost_done_empty_chunk .little ⟨BASE64_AEOF, 3, 0⟩ zero_mem 1 rfl

/-- Claim C14. Suspension on exhausted input: in a state with `eof == 0` and
`bytes` in {0,1,2,3}, with any carry, `base64_stream_decode` called with an
empty chunk returns 1, sets `outlen` to 0 and leaves `eof`, `bytes`, `carry`
and the memory unchanged; in particular the empty text decoded from the zero
state succeeds with zero bytes and `bytes == 0`, also through
`base64_decode`. -/
theorem empty_chunk_suspends (bo : ByteOrder) (st : base64_state) (mem : Mem) (out : Nat)
    (he : st.eof = 0) (hb0 : 0 ≤ st.bytes) (hb3 : st.bytes ≤ 3) :
    (base64_stream_decode bo st [] mem out).ret = 1 ∧
    (base64_stream_decode bo st [] mem out).outlen = 0 ∧
    (base64_stream_decode bo st [] mem out).state.eof = st.eof ∧
    (base64_stream_decode bo st [] mem out).state.bytes = st.bytes ∧
    (base64_stream_decode bo st [] mem out).state.carry = st.carry ∧
    (base64_stream_decode bo st [] mem out).out = mem ∧
    (base64_stream_decode bo base64_state_zero [] mem out).ret = 1 ∧
    (base64_stream_decode bo base64_state_zero [] mem out).outlen = 0 ∧
    (base64_stream_decode bo base64_state_zero [] mem out).state.bytes = 0 ∧
    (base64_decode bo [] mem out).ret = 1 ∧
    (base64_decode bo [] mem out).outlen = 0 := by
  have key : ∀ st1 : base64_state, st1.eof = 0 → 0 ≤ st1.bytes → st1.bytes ≤ 3 →
      (base64_stream_decode bo st1 [] mem out).ret = 1 ∧
      (base64_stream_decode bo st1 [] mem out).outlen = 0 ∧
      (base64_stream_decode bo st1 [] mem out).state.eof = st1.eof ∧
      (base64_stream_decode bo st1 [] mem out).state.bytes = st1.bytes ∧
      (base64_stream_decode bo st1 [] mem out).state.carry = st1.carry ∧
      (base64_stream_decode bo st1 [] mem out).out = mem := by
    intro st1 h0 h1 h2
    obtain ⟨eof, bytes, carry⟩ := st1
    simp only [] at h0 h1 h2
    subst h0
    have hcases : bytes = 0 ∨ bytes = 1 ∨ bytes = 2 ∨ bytes = 3 := by omega
    unfold base64_stream_decode
    rcases hcases with rfl | rfl | rfl | rfl <;>
      simp [stream_case0, stream_case0_scalar, stream_case1, stream_case2, stream_case3,
        dec_loop_generic_32]
  obtain ⟨z1, z2, z3, z4, -, -⟩ := key base64_state_zero rfl (by decide) (by decide)
  obtain ⟨k1, k2, k3, k4, k5, k6⟩ := key st he hb0 hb3
  refine ⟨k1, k2, k3, k4, k5, k6, z1, z2, z4, ?_, z2⟩
  unfold base64_decode
  simp only [z1, z4]
  decide

/-- Witness of claim C14: position 2 with carry `0x10`. -/
theorem empty_chunk_suspends_witness :
    (base64_stream_decode .little ⟨0, 2, 0x10⟩ [] zero_mem 0).ret = 1 ∧
    (base64_stream_decode .little ⟨0, 2, 0x10⟩ [] zero_mem 0).outlen = 0 ∧
    (base64_stream_decode .little ⟨0, 2, 0x10⟩ [] zero_mem 0).state.eof = 0 ∧
    (base64_stream_decode .little ⟨0, 2, 0x10⟩ [] zero_mem 0).state.bytes = 2 ∧
    (base64_stream_decode .little ⟨0, 2, 0x10⟩ [] zero_mem 0).state.carry = 0x10 ∧
    (base64_stream_decode .little ⟨0, 2, 0x10⟩ [] zero_mem 0).out = zero_mem :=
  ⟨(empty_chunk_suspends .little ⟨0, 2, 0x10⟩ zero_mem 0 rfl (by decide) (by decide)).1,
    (empty_chunk_suspends .little ⟨0, 2, 0x10⟩ zero_mem 0 rfl (by decide) (by decide)).2.1,
    (empty_chunk_suspends .little ⟨0, 2, 0x10⟩ zero_mem 0 rfl (by decide) (by decide)).2.2.1,
    (empty_chunk_suspends .little ⟨0, 2, 0x10⟩ zero_mem 0 rfl (by decide) (by decide)).2.2.2.1,
    (empty_chunk_suspends .little ⟨0, 2, 0x10⟩ zero_mem 0 rfl (by decide)
      (by decide)).2.2.2.2.1,
    (empty_chunk_suspends .little ⟨0, 2, 0x10⟩ zero_mem 0 rfl (by decide)
      (by decide)).2.2.2.2.2.1⟩

/-! ### The number of bytes produced -/

theorem scalar_run_outs_le (s : List Byte) (p : Nat) (c : Byte) (hp : p ≤ 3) :
    (scalar_run p c s).outs.length + (p + s.length + 3) / 4 ≤ s.length + (p + 3) / 4 := by
  induction s generalizing p c with
  | nil => simp [scalar_run]
  | cons x xs ih =>
    by_cases hx : 254 ≤ dec_8bit x
    · have e : (scalar_run p c (x :: xs)).outs = [] := by
        rcases p with _ | _ | _ | _ | p
        · simp [scalar_run, hx]
        · simp [scalar_run, hx]
        · simp only [scalar_run, if_pos hx]
          split
          · split <;> rfl
          · rfl
        · simp [scalar_run, hx]
        · omega
      rw [e]
      simp only [List.length_nil, List.length_cons]
      omega
    · rcases p with _ | _ | _ | _ | p
      · have := ih 1 (u8 (dec_8bit x <<< 2)) (by omega)
        simp only [scalar_run, if_neg hx, List.length_cons]
        omega
      · have := ih 2 (u8 (dec_8bit x <<< 4)) (by omega)
        simp only [scalar_run, if_neg hx, List.length_cons, Run.emit]
        omega
      · have := ih 3 (u8 (dec_8bit x <<< 6)) (by omega)
        simp only [scalar_run, if_neg hx, List.length_cons, Run.emit]
        omega
      · have := ih 0 0 (by omega)
        simp only [scalar_run, if_neg hx, List.length_cons, Run.emit]
        omega
      · omega

/-- Claim C15. Output bound: for every state with `bytes` in {0,1,2,3} and
every chunk of length `n`, the `outlen` reported by `base64_stream_decode` is
at most `ceil(n / 4) * 3`, and it is 0 whenever `eof != 0` on entry. -/
theorem outlen_bound (bo : ByteOrder) (st : base64_state) (src : List Byte) (mem : Mem)
    (out : Nat) (hb0 : 0 ≤ st.bytes) (hb3 : st.bytes ≤ 3) :
    (base64_stream_decode bo st src mem out).outlen ≤ (src.length + 3) / 4 * 3 ∧
    (st.eof ≠ 0 → (base64_stream_decode bo st src mem out).outlen = 0) := by
  have h0 : st.eof ≠ 0 → (base64_stream_decode bo st src mem out).outlen = 0 := by
    intro he
    unfold base64_stream_decode
    simp only [ne_eq, he, not_false_eq_true, if_true]
    split <;> rfl
  refine ⟨?_, h0⟩
  by_cases he : st.eof = 0
  · have hp : st.bytes = ((st.bytes.toNat : Nat) : Int) := (Int.toNat_of_nonneg hb0).symm
    obtain ⟨-, -, -, a4, -, -⟩ := stream_decode_streaming bo st src mem out st.bytes.toNat he hp
      (by omega)
    rw [a4]
    have := scalar_run_outs_le src st.bytes.toNat st.carry (by omega)
    omega
  · rw [h0 he]; omega

/-- Witness of claim C15: seven data characters entered at position 1 give
six bytes, the bound for a chunk of length 7. -/
theorem outlen_bound_witness :
    (base64_stream_decode .little ⟨0, 1, 0⟩ (ascii "AAAAAAA") zero_mem 0).outlen
      ≤ ((ascii "AAAAAAA").length + 3) / 4 * 3 ∧
    (base64_stream_decode .little ⟨0, 1, 0⟩ (ascii "AAAAAAA") zero_mem 0).outlen = 6 :=
  ⟨(outlen_bound .little ⟨0, 1, 0⟩ (ascii "AAAAAAA") zero_mem 0 (by decide) (by decide)).1,
    by decide⟩

/-- Claim C16. Concrete scenario: `base64_decode` on the 24-character text
`"MDEyMzQ1Njc4OWFiY2RlZg=="` returns 1, sets `outlen` to 16, writes the bytes
of the ASCII text `"0123456789abcdef"`, and the underlying stream state ends
with `bytes == 0` (and `eof == BASE64_EOF`). -/
theorem concrete_scenario (bo : ByteOrder) (mem : Mem) (out : Nat) :
    (base64_decode bo (ascii "MDEyMzQ1Njc4OWFiY2RlZg==") mem out).ret = 1 ∧
    (base64_decode bo (ascii "MDEyMzQ1Njc4OWFiY2RlZg==") mem out).outlen = 16 ∧
    load_bytes (base64_decode bo (ascii "MDEyMzQ1Njc4OWFiY2RlZg==") mem out).out out 16
      = ascii "0123456789abcdef" ∧
    (base64_stream_decode bo base64_state_zero (ascii "MDEyMzQ1Njc4OWFiY2RlZg==") mem
      out).state.bytes = 0 ∧
    (base64_stream_decode bo base64_state_zero (ascii "MDEyMzQ1Njc4OWFiY2RlZg==") mem
      out).state.eof = BASE64_EOF := by
  obtain ⟨h1, h2, h3, -⟩ := base64_decode_phase bo (ascii "MDEyMzQ1Njc4OWFiY2RlZg==") mem out
  obtain ⟨-, a2, a3, -, -, -⟩ := stream_decode_streaming bo base64_state_zero
    (ascii "MDEyMzQ1Njc4OWFiY2RlZg==") mem out 0 rfl rfl (by omega)
  have e : phase_run (.pos 0 0) (ascii "MDEyMzQ1Njc4OWFiY2RlZg==")
      = (.done, ascii "0123456789abcdef") := by decide
  have e2 : (scalar_run 0 base64_state_zero.carry (ascii "MDEyMzQ1Njc4OWFiY2RlZg==")).st.eof
        = BASE64_EOF ∧
      (scalar_run 0 base64_state_zero.carry (ascii "MDEyMzQ1Njc4OWFiY2RlZg==")).st.bytes
        = 0 := by decide
  rw [e] at h1 h2 h3
  refine ⟨h1, h2, ?_, a3.trans e2.2, a2.trans e2.1⟩
  exact wrote_load h3

/-- Claim C17. Alphabet table: `base64_table_dec_8bit` has 256 entries and
maps `A`..`Z` to 0..25, `a`..`z` to 26..51, `0`..`9` to 52..61, `+` to 62,
`/` to 63, `=` to the PAD marker 254, and every other byte to the INVALID
marker 255; so it inverts the RFC 4648 alphabet and is injective on data
characters. -/
theorem alphabet_table (b : Byte) :
    base64_table_dec_8bit.length = 256 ∧
    (65 ≤ b.val ∧ b.val ≤ 90 → dec_8bit b = b.val - 65) ∧
    (97 ≤ b.val ∧ b.val ≤ 122 → dec_8bit b = b.val - 97 + 26) ∧
    (48 ≤ b.val ∧ b.val ≤ 57 → dec_8bit b = b.val - 48 + 52) ∧
    (b.val = 43 → dec_8bit b = 62) ∧
    (b.val = 47 → dec_8bit b = 63) ∧
    (b.val = 61 → dec_8bit b = 254) ∧
    (¬ (65 ≤ b.val ∧ b.val ≤ 90) → ¬ (97 ≤ b.val ∧ b.val ≤ 122) →
      ¬ (48 ≤ b.val ∧ b.val ≤ 57) → b.val ≠ 43 → b.val ≠ 47 → b.val ≠ 61 →
      dec_8bit b = 255) ∧
    (is_data b ↔ (65 ≤ b.val ∧ b.val ≤ 90) ∨ (97 ≤ b.val ∧ b.val ≤ 122) ∨
      (48 ≤ b.val ∧ b.val ≤ 57) ∨ b.val = 43 ∨ b.val = 47) ∧
    (is_data b → enc_char (dec_8bit b) = b) ∧
    (∀ v, v < 64 → dec_8bit (enc_char v) = v) ∧
    (∀ b1 : Byte, is_data b → is_data b1 → dec_8bit b = dec_8bit b1 → b = b1) := by
  have hinv : ∀ c : Byte, is_data c → enc_char (dec_8bit c) = c := by
    intro c
    rw [dec_8bit_eq]
    revert c
    decide!
  have hd : is_data b ↔ (65 ≤ b.val ∧ b.val ≤ 90) ∨ (97 ≤ b.val ∧ b.val ≤ 122) ∨
      (48 ≤ b.val ∧ b.val ≤ 57) ∨ b.val = 43 ∨ b.val = 47 := by
    revert b
    decide!
  refine ⟨table_8bit_length, ?_, ?_, ?_, ?_, ?_, ?_, ?_, hd, hinv b,
    fun v hv => dec_8bit_enc_char v hv, ?_⟩
  · intro h; rw [dec_8bit_eq, alphabet_value, if_pos h]
  · intro h; rw [dec_8bit_eq, alphabet_value, if_neg (by omega), if_pos h]; omega
  · intro h
    rw [dec_8bit_eq, alphabet_value, if_neg (by omega), if_neg (by omega), if_pos h]; omega
  · intro h; rw [dec_8bit_eq, h]; rfl
  · intro h; rw [dec_8bit_eq, h]; rfl
  · intro h; rw [dec_8bit_eq, h]; rfl
  · intro h1 h2 h3 h4 h5 h6
    rw [dec_8bit_eq, alphabet_value, if_neg h1, if_neg h2, if_neg h3, if_neg h4, if_neg h5,
      if_neg h6]
  · intro b1 hb hb1 he
    rw [← hinv b hb, ← hinv b1 hb1, he]

/-! ### The scalar-only variant against the list-level machine -/

theorem stream_loop_scalar_head (n : Nat) : HeadSpec (stream_loop_scalar n) n := by
  induction n with
  | zero => intro f _ _ _ _ _ h; omega
  | succ n ih =>
    intro f he hb hc hr hs hn
    have := case0_scalar_refines ih f he hb hr hs (by omega)
    rw [hc] at this
    exact this

theorem stream_decode_scalar_streaming (st : base64_state) (src : List Byte)
    (mem : Mem) (out : Nat) (p : Nat) (he : st.eof = 0) (hb : st.bytes = p) (hp : p ≤ 3) :
    (base64_stream_decode_scalar st src mem out).ret = (scalar_run p st.carry src).ret ∧
    (base64_stream_decode_scalar st src mem out).state.eof = (scalar_run p st.carry src).st.eof ∧
    (base64_stream_decode_scalar st src mem out).state.bytes
      = (scalar_run p st.carry src).st.bytes ∧
    (base64_stream_decode_scalar st src mem out).outlen
      = (scalar_run p st.carry src).outs.length ∧
    Wrote mem (base64_stream_decode_scalar st src mem out).out out
      (scalar_run p st.carry src).outs ∧
    (base64_stream_decode_scalar st src mem out).state.carry
      = (scalar_run p st.carry src).st.carry := by
  obtain ⟨eof, bytes, carry⟩ := st
  simp only [] at he hb
  subst he hb
  have hk := stream_loop_scalar_head src.length
  unfold base64_stream_decode_scalar
  simp only [ne_eq, not_true_eq_false, if_false]
  rcases p with _ | _ | _ | _ | p
  · obtain ⟨⟨h1, h2, h3, h4, h5⟩, h6⟩ := case0_scalar_refines hk
      { v := { s := src, slen := src.length, o := out, olen := 0, mem := mem },
        st := { eof := 0, bytes := 0, carry := carry }, ret := 0 } rfl rfl rfl rfl (Nat.le_refl _)
    simp only [Nat.zero_add] at h4
    simp only [Nat.cast_zero, if_true]
    exact ⟨h1, h2, h3, h4, h5, h6⟩
  · obtain ⟨⟨h1, h2, h3, h4, h5⟩, h6⟩ := case1_refines hk
      { v := { s := src, slen := src.length, o := out, olen := 0, mem := mem },
        st := { eof := 0, bytes := 1, carry := carry }, ret := 0 } rfl rfl rfl rfl (Nat.le_refl _)
    simp only [Nat.zero_add] at h4
    simp only [Nat.zero_add, Nat.cast_one, one_ne_zero, if_false, if_true]
    exact ⟨h1, h2, h3, h4, h5, h6⟩
  · obtain ⟨⟨h1, h2, h3, h4, h5⟩, h6⟩ := case2_refines hk
      { v := { s := src, slen := src.length, o := out, olen := 0, mem := mem },
        st := { eof := 0, bytes := 2, carry := carry }, ret := 0 } rfl rfl rfl rfl (Nat.le_refl _)
    simp only [Nat.zero_add] at h4
    have e : ((0 + 1 + 1 : Nat) : Int) = 2 := rfl
    simp only [e, if_true]
    rw [if_neg (by decide), if_neg (by decide)]
    exact ⟨h1, h2, h3, h4, h5, h6⟩
  · obtain ⟨⟨h1, h2, h3, h4, h5⟩, h6⟩ := case3_refines hk
      { v := { s := src, slen := src.length, o := out, olen := 0, mem := mem },
        st := { eof := 0, bytes := 3, carry := carry }, ret := 0 } rfl rfl rfl rfl (Nat.le_refl _)
    simp only [Nat.zero_add] at h4
    have e : ((0 + 1 + 1 + 1 : Nat) : Int) = 3 := rfl
    simp only [e, if_true]
    rw [if_neg (by decide), if_neg (by decide), if_neg (by decide)]
    exact ⟨h1, h2, h3, h4, h5, h6⟩
  · omega

/-- Claim C18. The batch fast path is a pure optimisation: in a state with
`eof == 0` and `bytes` in {0,1,2,3}, `base64_stream_decode` returns the same
value, the same `outlen`, the same first `outlen` output bytes and the same
resulting `eof` and `bytes` as the variant with `dec_loop_generic_32` replaced
by a no-op; the resulting carry is the same too whenever the entry state has
`carry == 0` when `bytes == 0`. Neither touches the memory below `out`. -/
theorem batch_path_is_optimisation (bo : ByteOrder) (st : base64_state) (src : List Byte)
    (mem : Mem) (out : Nat) (he : st.eof = 0) (hb0 : 0 ≤ st.bytes) (hb3 : st.bytes ≤ 3) :
    (base64_stream_decode bo st src mem out).ret
      = (base64_stream_decode_scalar st src mem out).ret ∧
    (base64_stream_decode bo st src mem out).outlen
      = (base64_stream_decode_scalar st src mem out).outlen ∧
    load_bytes (base64_stream_decode bo st src mem out).out out
        (base64_stream_decode bo st src mem out).outlen
      = load_bytes (base64_stream_decode_scalar st src mem out).out out
        (base64_stream_decode_scalar st src mem out).outlen ∧
    (base64_stream_decode bo st src mem out).state.eof
      = (base64_stream_decode_scalar st src mem out).state.eof ∧
    (base64_stream_decode bo st src mem out).state.bytes
      = (base64_stream_decode_scalar st src mem out).state.bytes ∧
    ((st.bytes = 0 → st.carry = 0) →
      (base64_stream_decode bo st src mem out).state.carry
        = (base64_stream_decode_scalar st src mem out).state.carry) ∧
    (∀ j, j < out →
      (base64_stream_decode bo st src mem out).out j = mem j ∧
      (base64_stream_decode_scalar st src mem out).out j = mem j) := by
  have hp : st.bytes = ((st.bytes.toNat : Nat) : Int) := (Int.toNat_of_nonneg hb0).symm
  obtain ⟨a1, a2, a3, a4, a5, a6⟩ := stream_decode_streaming bo st src mem out
    st.bytes.toNat he hp (by omega)
  obtain ⟨b1, b2, b3, b4, b5, b6⟩ := stream_decode_scalar_streaming st src mem out
    st.bytes.toNat he hp (by omega)
  refine ⟨a1.trans b1.symm, a4.trans b4.symm, ?_, a2.trans b2.symm, a3.trans b3.symm, ?_, ?_⟩
  · rw [a4, b4, wrote_load a5, wrote_load b5]
  · intro hc
    rw [b6]
    apply a6
    intro h0
    apply hc
    omega
  · intro j hj
    exact ⟨a5.2 j hj, b5.2 j hj⟩

/-- Witness of claim C18: the 24-character text of the concrete scenario, on
which the batch loop runs five rounds. -/
theorem batch_path_is_optimisation_witness :
    (base64_stream_decode .little base64_state_zero (ascii "MDEyMzQ1Njc4OWFiY2RlZg==") zero_mem
      0).ret
      = (base64_stream_decode_scalar base64_state_zero (ascii "MDEyMzQ1Njc4OWFiY2RlZg==") zero_mem
        0).ret ∧
    (base64_stream_decode .little base64_state_zero (ascii "MDEyMzQ1Njc4OWFiY2RlZg==") zero_mem
      0).outlen
      = (base64_stream_decode_scalar base64_state_zero (ascii "MDEyMzQ1Njc4OWFiY2RlZg==") zero_mem
        0).outlen ∧
    (base64_stream_decode .little base64_state_zero (ascii "MDEyMzQ1Njc4OWFiY2RlZg==") zero_mem
      0).state.carry
      = (base64_stream_decode_scalar base64_state_zero (ascii "MDEyMzQ1Njc4OWFiY2RlZg==") zero_mem
        0).state.carry :=
  ⟨(batch_path_is_optimisation .little base64_state_zero (ascii "MDEyMzQ1Njc4OWFiY2RlZg==")
      zero_mem 0 rfl (by decide) (by decide)).1,
    (batch_path_is_optimisation .little base64_state_zero (ascii "MDEyMzQ1Njc4OWFiY2RlZg==")
      zero_mem 0 rfl (by decide) (by decide)).2.1,
    (batch_path_is_optimisation .little base64_state_zero (ascii "MDEyMzQ1Njc4OWFiY2RlZg==")
      zero_mem 0 rfl (by decide) (by decide)).2.2.2.2.2.1 (fun _ => rfl)⟩

/-- The proviso on the carry in claim C18 is needed: entered at position 0
with a stale carry `0x55`, the chunk `"AAAA!AAA"` leaves the carry `0x55` on
the batch path and 0 on the scalar path. -/
theorem batch_path_stale_carry :
    (base64_stream_decode .little ⟨0, 0, 0x55⟩ (ascii "AAAA!AAA") zero_mem 0).state.carry
      = 0x55 ∧
    (base64_stream_decode_scalar ⟨0, 0, 0x55⟩ (ascii "AAAA!AAA") zero_mem 0).state.carry
      = 0 := by
  decide

/-! ### Accounting of the batch loop -/

theorem leading_groups_of_not_quad (s : List Byte) (h : ¬ quad_ok s) : leading_groups s = 0 := by
  rcases s with _ | ⟨a, _ | ⟨b, _ | ⟨c, _ | ⟨d, rest⟩⟩⟩⟩
  · rfl
  · rfl
  · rfl
  · rfl
  · have : ¬ (is_data a ∧ is_data b ∧ is_data c ∧ is_data d) := by
      rintro ⟨ha, hb, hc, hd⟩
      exact h ⟨(is_data_iff a).mp ha, (is_data_iff b).mp hb, (is_data_iff c).mp hc,
        (is_data_iff d).mp hd⟩
    simp [leading_groups, this]

theorem leading_groups_of_quad (a b c d : Byte) (rest : List Byte)
    (h : quad_ok (a :: b :: c :: d :: rest)) :
    leading_groups (a :: b :: c :: d :: rest) = leading_groups rest + 1 := by
  have : is_data a ∧ is_data b ∧ is_data c ∧ is_data d :=
    ⟨(is_data_iff a).mpr h.1, (is_data_iff b).mpr h.2.1, (is_data_iff c).mpr h.2.2.1,
      (is_data_iff d).mpr h.2.2.2⟩
  simp [leading_groups, this]

/-- The count of the batch loop is the number of leading data groups, capped
by the budget. -/
theorem data_quanta_eq_min (n : Nat) (s : List Byte) :
    data_quanta n s = min n (leading_groups s) := by
  induction n generalizing s with
  | zero => simp [data_quanta]
  | succ n ih =>
    by_cases h : quad_ok s
    · obtain ⟨a, b, c, d, rest, rfl⟩ := quad_ok_cons h
      rw [leading_groups_of_quad a b c d rest h]
      simp only [data_quanta, if_pos h, List.drop_succ_cons, List.drop_zero, ih]
      omega
    · rw [leading_groups_of_not_quad s h]
      simp [data_quanta, h]

theorem leading_groups_drop (s : List Byte) :
    leading_groups (s.drop (4 * leading_groups s)) = 0 := by
  induction s using leading_groups.induct with
  | case1 a b c d rest h ih =>
    have e : leading_groups (a :: b :: c :: d :: rest) = leading_groups rest + 1 := by
      simp [leading_groups, h]
    rw [e, show 4 * (leading_groups rest + 1) = 4 * leading_groups rest + 4 by omega]
    simpa using ih
  | case2 a b c d rest h =>
    have e : leading_groups (a :: b :: c :: d :: rest) = 0 := by
      simp [leading_groups, h]
    rw [e]
    simpa using e
  | case3 s h =>
    have e : leading_groups s = 0 := by
      rcases s with _ | ⟨a, _ | ⟨b, _ | ⟨c, _ | ⟨d, rest⟩⟩⟩⟩
      · rfl
      · rfl
      · rfl
      · rfl
      · exact absurd rfl (h a b c d rest)
    rw [e]
    simpa using e

/-- Claim C19. Batch loop accounting: with `n = slen` remaining bytes,
`dec_loop_generic_32` changes nothing when `n < 8`; otherwise, with
`budget = (n - 4) / 4` and `k` the number of leading 4-byte groups made
entirely of data characters, it consumes exactly `c = min(budget, k)` quanta:
the input position advances by `4c`, the remaining length becomes `n - 4c`
(at least 4), the output position and `olen` advance by `3c`, the `3c` decoded
bytes are written, and when it stopped before the budget the group it stopped
at contains a non-data byte, whatever the 8/4/2/1 unrolling. -/
theorem batch_loop_accounting (bo : ByteOrder) (v : Vars) :
    (v.slen < 8 → dec_loop_generic_32 bo v = v) ∧
    (8 ≤ v.slen →
      (dec_loop_generic_32 bo v).s
        = v.s.drop (4 * min ((v.slen - 4) / 4) (leading_groups v.s)) ∧
      (dec_loop_generic_32 bo v).slen
        = v.slen - 4 * min ((v.slen - 4) / 4) (leading_groups v.s) ∧
      4 ≤ (dec_loop_generic_32 bo v).slen ∧
      (dec_loop_generic_32 bo v).o = v.o + 3 * min ((v.slen - 4) / 4) (leading_groups v.s) ∧
      (dec_loop_generic_32 bo v).olen
        = v.olen + 3 * min ((v.slen - 4) / 4) (leading_groups v.s) ∧
      Wrote v.mem (dec_loop_generic_32 bo v).mem v.o
        (decode_quads (min ((v.slen - 4) / 4) (leading_groups v.s)) v.s) ∧
      (min ((v.slen - 4) / 4) (leading_groups v.s) < (v.slen - 4) / 4 →
        leading_groups (dec_loop_generic_32 bo v).s = 0)) := by
  constructor
  · intro h
    unfold dec_loop_generic_32
    rw [if_pos h]
  · intro h
    obtain ⟨m1, e, w⟩ := dec_loop_generic_32_spec bo v
    rw [if_neg (by omega), data_quanta_eq_min] at e w
    rw [e]
    refine ⟨rfl, rfl, ?_, rfl, rfl, w, ?_⟩
    · show 4 ≤ v.slen - 4 * min ((v.slen - 4) / 4) (leading_groups v.s)
      omega
    · intro hlt
      show leading_groups (v.s.drop (4 * min ((v.slen - 4) / 4) (leading_groups v.s))) = 0
      have : min ((v.slen - 4) / 4) (leading_groups v.s) = leading_groups v.s := by omega
      rw [this]
      exact leading_groups_drop v.s

/-- Witness of claim C19: on the 24 bytes `"MDEy!zQ1Njc4OWFiY2RlZg=="` the
budget is 5 and only the first group is all data; the loop, which starts with
the 4-fold conjunction, consumes exactly that one quantum. -/
theorem batch_loop_accounting_witness :
    (dec_loop_generic_32 .little
      ⟨ascii "MDEy!zQ1Njc4OWFiY2RlZg==", 24, 0, 0, zero_mem⟩).s
      = ascii "!zQ1Njc4OWFiY2RlZg==" ∧
    (dec_loop_generic_32 .little
      ⟨ascii "MDEy!zQ1Njc4OWFiY2RlZg==", 24, 0, 0, zero_mem⟩).slen = 20 ∧
    (dec_loop_generic_32 .little
      ⟨ascii "MDEy!zQ1Njc4OWFiY2RlZg==", 24, 0, 0, zero_mem⟩).o = 3 ∧
    (dec_loop_generic_32 .little
      ⟨ascii "MDEy!zQ1Njc4OWFiY2RlZg==", 24, 0, 0, zero_mem⟩).olen = 3 :=
  ⟨((batch_loop_accounting .little
      ⟨ascii "MDEy!zQ1Njc4OWFiY2RlZg==", 24, 0, 0, zero_mem⟩).2 (by decide)).1,
    ((batch_loop_accounting .little
      ⟨ascii "MDEy!zQ1Njc4OWFiY2RlZg==", 24, 0, 0, zero_mem⟩).2 (by decide)).2.1,
    ((batch_loop_accounting .little
      ⟨ascii "MDEy!zQ1Njc4OWFiY2RlZg==", 24, 0, 0, zero_mem⟩).2 (by decide)).2.2.2.1,
    ((batch_loop_accounting .little
      ⟨ascii "MDEy!zQ1Njc4OWFiY2RlZg==", 24, 0, 0, zero_mem⟩).2 (by decide)).2.2.2.2.1⟩

theorem store_quantum_at (m : Mem) (o : Nat) (b0 b1 b2 b3 : Byte) :
    store (store (store (store m o b0) (o + 1) b1) (o + 2) b2) (o + 3) b3 o = b0 ∧
    store (store (store (store m o b0) (o + 1) b1) (o + 2) b2) (o + 3) b3 (o + 1) = b1 ∧
    store (store (store (store m o b0) (o + 1) b1) (o + 2) b2) (o + 3) b3 (o + 2) = b2 ∧
    store (store (store (store m o b0) (o + 1) b1) (o + 2) b2) (o + 3) b3 (o + 3) = b3 ∧
    ∀ j, j < o ∨ o + 3 < j →
      store (store (store (store m o b0) (o + 1) b1) (o + 2) b2) (o + 3) b3 j = m j := by
  refine ⟨?_, ?_, ?_, ?_, ?_⟩
  · show (if o = o + 3 then b3 else if o = o + 2 then b2 else if o = o + 1 then b1
      else if o = o then b0 else m o) = b0
    rw [if_neg (by omega), if_neg (by omega), if_neg (by omega), if_pos rfl]
  · show (if o + 1 = o + 3 then b3 else if o + 1 = o + 2 then b2 else if o + 1 = o + 1 then b1
      else if o + 1 = o then b0 else m (o + 1)) = b1
    rw [if_neg (by omega), if_neg (by omega), if_pos rfl]
  · show (if o + 2 = o + 3 then b3 else if o + 2 = o + 2 then b2 else if o + 2 = o + 1 then b1
      else if o + 2 = o then b0 else m (o + 2)) = b2
    rw [if_neg (by omega), if_pos rfl]
  · show (if o + 3 = o + 3 then b3 else _) = b3
    rw [if_pos rfl]
  · intro j hj
    show (if j = o + 3 then b3 else if j = o + 2 then b2 else if j = o + 1 then b1
      else if j = o then b0 else m j) = m j
    rw [if_neg (by omega), if_neg (by omega), if_neg (by omega), if_neg (by omega)]

/-- Claim C20. Batch inner step: on the four input bytes `a, b, c, d`,
`dec_loop_generic_32_inner` returns 1 exactly when all four are data
characters; then it stores the bytes `((va<<2)|(vb>>4)) mod 256`,
`((vb<<4)|(vc>>2)) mod 256`, `((vc<<6)|vd) mod 256` and one zero byte at the
output position and touches no other byte, advances the input by 4 and the
output by 3 and decrements `rounds` by 1; otherwise it returns 0 and leaves
input position, output position, memory and `rounds` unchanged. -/
theorem batch_inner_step (bo : ByteOrder) (a b c d : Byte) (rest : List Byte)
    (slen o olen : Nat) (mem : Mem) (rounds : Nat) (hr : 1 ≤ rounds) :
    ((dec_loop_generic_32_inner bo ⟨a :: b :: c :: d :: rest, slen, o, olen, mem⟩ rounds).1
        = true ↔ is_data a ∧ is_data b ∧ is_data c ∧ is_data d) ∧
    (is_data a ∧ is_data b ∧ is_data c ∧ is_data d →
      (dec_loop_generic_32_inner bo ⟨a :: b :: c :: d :: rest, slen, o, olen, mem⟩ rounds).2.1.s
        = rest ∧
      (dec_loop_generic_32_inner bo ⟨a :: b :: c :: d :: rest, slen, o, olen, mem⟩ rounds).2.1.o
        = o + 3 ∧
      (dec_loop_generic_32_inner bo ⟨a :: b :: c :: d :: rest, slen, o, olen, mem⟩ rounds).2.2
        + 1 = rounds ∧
      ((dec_loop_generic_32_inner bo ⟨a :: b :: c :: d :: rest, slen, o, olen, mem⟩
        rounds).2.1.mem o).val = (sextet a <<< 2 ||| sextet b >>> 4) % 256 ∧
      ((dec_loop_generic_32_inner bo ⟨a :: b :: c :: d :: rest, slen, o, olen, mem⟩
        rounds).2.1.mem (o + 1)).val = (sextet b <<< 4 ||| sextet c >>> 2) % 256 ∧
      ((dec_loop_generic_32_inner bo ⟨a :: b :: c :: d :: rest, slen, o, olen, mem⟩
        rounds).2.1.mem (o + 2)).val = (sextet c <<< 6 ||| sextet d) % 256 ∧
      (dec_loop_generic_32_inner bo ⟨a :: b :: c :: d :: rest, slen, o, olen, mem⟩
        rounds).2.1.mem (o + 3) = 0 ∧
      (∀ j, j < o ∨ o + 3 < j →
        (dec_loop_generic_32_inner bo ⟨a :: b :: c :: d :: rest, slen, o, olen, mem⟩
          rounds).2.1.mem j = mem j) ∧
      (dec_loop_generic_32_inner bo ⟨a :: b :: c :: d :: rest, slen, o, olen, mem⟩
        rounds).2.1.slen = slen ∧
      (dec_loop_generic_32_inner bo ⟨a :: b :: c :: d :: rest, slen, o, olen, mem⟩
        rounds).2.1.olen = olen) ∧
    (¬ (is_data a ∧ is_data b ∧ is_data c ∧ is_data d) →
      dec_loop_generic_32_inner bo ⟨a :: b :: c :: d :: rest, slen, o, olen, mem⟩ rounds
        = (false, ⟨a :: b :: c :: d :: rest, slen, o, olen, mem⟩, rounds)) := by
  have hq : quad_ok (a :: b :: c :: d :: rest) ↔
      is_data a ∧ is_data b ∧ is_data c ∧ is_data d := by
    simp only [quad_ok, peek, List.getD_cons_zero, List.getD_cons_succ, is_data_iff]
  rw [inner_eq]
  refine ⟨?_, ?_, ?_⟩
  · by_cases h : quad_ok (a :: b :: c :: d :: rest)
    · simp only [if_pos h, true_iff]; exact hq.mp h
    · simp only [if_neg h, Bool.false_eq_true, false_iff]; exact fun h1 => h (hq.mpr h1)
  · intro hd
    obtain ⟨ha, hb, hc, hdd⟩ := hd
    have h := hq.mpr ⟨ha, hb, hc, hdd⟩
    have da := (is_data_iff a).mp ha
    have db := (is_data_iff b).mp hb
    have dc := (is_data_iff c).mp hc
    have dd := (is_data_iff d).mp hdd
    obtain ⟨sb, -, -⟩ := small_mod (dec_8bit b) db
    obtain ⟨-, sc, -⟩ := small_mod (dec_8bit c) dc
    obtain ⟨-, -, sd⟩ := small_mod (dec_8bit d) dd
    rw [if_pos h]
    have ea : peek (a :: b :: c :: d :: rest) 0 = a := rfl
    have eb : peek (a :: b :: c :: d :: rest) 1 = b := rfl
    have ec : peek (a :: b :: c :: d :: rest) 2 = c := rfl
    have ed : peek (a :: b :: c :: d :: rest) 3 = d := rfl
    obtain ⟨m0, m1, m2, m3, mj⟩ := store_quantum_at mem o
      (u8 ((u8 (dec_8bit a <<< 2)).val ||| dec_8bit b >>> 4))
      (u8 ((u8 (dec_8bit b <<< 4)).val ||| dec_8bit c >>> 2))
      (u8 ((u8 (dec_8bit c <<< 6)).val ||| dec_8bit d)) 0
    simp only [ea, eb, ec, ed]
    refine ⟨rfl, trivial, ?_, ?_, ?_, ?_, m3, mj, trivial, trivial⟩
    · show rounds - 1 + 1 = rounds
      omega
    · rw [m0, sextet_eq a ha, sextet_eq b hb]
      simp only [u8_val, or_mod_256, Nat.mod_mod, sb]
    · rw [m1, sextet_eq b hb, sextet_eq c hc]
      simp only [u8_val, or_mod_256, Nat.mod_mod, sc]
    · rw [m2, sextet_eq c hc, sextet_eq d hdd]
      simp only [u8_val, or_mod_256, Nat.mod_mod, sd]
  · intro hnd
    rw [if_neg (fun h => hnd (hq.mp h))]

/-- Witness of claim C20: the group `"MDEy"` decodes to `"012"` followed by a
zero byte, with `rounds` going from 5 to 4. -/
theorem batch_inner_step_witness :
    (dec_loop_generic_32_inner .little ⟨77 :: 68 :: 69 :: 121 :: ascii "MzQ1", 8, 0, 0, zero_mem⟩
      5).1 = true ∧
    (dec_loop_generic_32_inner .little ⟨77 :: 68 :: 69 :: 121 :: ascii "MzQ1", 8, 0, 0, zero_mem⟩
      5).2.2 = 4 ∧
    load_bytes (dec_loop_generic_32_inner .little
      ⟨77 :: 68 :: 69 :: 121 :: ascii "MzQ1", 8, 0, 0, zero_mem⟩ 5).2.1.mem 0 4
      = [48, 49, 50, 0] :=
  ⟨(batch_inner_step .little 77 68 69 121 (ascii "MzQ1") 8 0 0 zero_mem 5 (by decide)).1.mpr
      (by decide),
    by decide, by decide⟩

/-! ### The wide tables and the two byte orders -/

theorem wide_value_data_lt : ∀ v, v < 64 →
    wide_value .little 0 v < 0x80000000 ∧ wide_value .little 1 v < 0x80000000 ∧
    wide_value .little 2 v < 0x80000000 ∧ wide_value .little 3 v < 0x80000000 ∧
    wide_value .big 0 v < 0xffffffff ∧ wide_value .big 1 v < 0xffffffff ∧
    wide_value .big 2 v < 0xffffffff ∧ wide_value .big 3 v < 0xffffffff := by
  decide!

theorem wide_value_min (bo : ByteOrder) (k v : Nat) :
    wide_value bo k v = wide_value bo (min k 3) v := by
  rcases k with _ | _ | _ | _ | k
  · rfl
  · rfl
  · rfl
  · rfl
  · have e : min (k + 4) 3 = 3 := by omega
    rw [e]
    cases bo <;> simp only [wide_value]

theorem wide_value_data_ne (bo : ByteOrder) (k v : Nat) (h : v < 64) :
    wide_value bo k v ≠ 0xffffffff := by
  have h8 := wide_value_data_lt v h
  rw [wide_value_min]
  have h3 : min k 3 = 0 ∨ min k 3 = 1 ∨ min k 3 = 2 ∨ min k 3 = 3 := by omega
  cases bo <;> rcases h3 with e | e | e | e <;> rw [e] <;> omega

theorem wide_value_data_unmarked (bo : ByteOrder) (k v : Nat) (h : v < 64) :
    wide_value bo k v &&& invalid_mark bo = 0 := by
  have h8 := wide_testBit_data v h
  have hm := (and_mark_ne_zero bo (wide_value bo k v)).not
  rw [not_not] at hm
  rw [hm, wide_value_min]
  have h3 : min k 3 = 0 ∨ min k 3 = 1 ∨ min k 3 = 2 ∨ min k 3 = 3 := by omega
  cases bo <;> rcases h3 with e | e | e | e <;> rw [e] <;> simp [h8]

/-- Claim C21. Wide decode tables: in both table sets, for every byte `b` and
every table index `k`, the entry `base64_table_dec_32bit_dk[b]` is the all-ones
word `0xffffffff` exactly when `base64_table_dec_8bit[b] >= 254` (so the pad
character is invalid in all wide tables); otherwise `b` is a data character
and the entry holds only its 6-bit value shifted to its position (spelled out
for each table of each set) with the marker bit clear. Hence the OR of the four
lookups of any four bytes has the marker bit set if and only if at least one
of the four bytes is not a data character. -/
theorem wide_tables (bo : ByteOrder) (k : Nat) (b : Byte) :
    (dec_32bit bo k b = 0xffffffff ↔ 254 ≤ dec_8bit b) ∧
    dec_32bit bo k CHARPAD = 0xffffffff ∧
    (dec_8bit b < 254 →
      is_data b ∧ dec_8bit b < 64 ∧
      dec_32bit bo k b &&& invalid_mark bo = 0 ∧
      dec_32bit .little 0 b = dec_8bit b <<< 2 ∧
      dec_32bit .little 1 b = dec_8bit b >>> 4 ||| (dec_8bit b &&& 15) <<< 12 ∧
      dec_32bit .little 2 b = (dec_8bit b >>> 2) <<< 8 ||| (dec_8bit b &&& 3) <<< 22 ∧
      dec_32bit .little 3 b = dec_8bit b <<< 16 ∧
      dec_32bit .big 0 b = dec_8bit b <<< 26 ∧
      dec_32bit .big 1 b = dec_8bit b <<< 20 ∧
      dec_32bit .big 2 b = dec_8bit b <<< 14 ∧
      dec_32bit .big 3 b = dec_8bit b <<< 8) ∧
    (∀ b0 b1 b2 b3 : Byte,
      (dec_32bit bo 0 b0 ||| dec_32bit bo 1 b1 ||| dec_32bit bo 2 b2 ||| dec_32bit bo 3 b3)
          &&& invalid_mark bo ≠ 0 ↔
        ¬ (is_data b0 ∧ is_data b1 ∧ is_data b2 ∧ is_data b3)) ∧
    (∀ b0 b1 b2 b3 : Byte,
      (dec_32bit .little 0 b0 ||| dec_32bit .little 1 b1 ||| dec_32bit .little 2 b2
          ||| dec_32bit .little 3 b3) &&& 0x80000000 ≠ 0 ↔
        ¬ (is_data b0 ∧ is_data b1 ∧ is_data b2 ∧ is_data b3)) := by
  have hor : ∀ (bo : ByteOrder) (b0 b1 b2 b3 : Byte),
      (dec_32bit bo 0 b0 ||| dec_32bit bo 1 b1 ||| dec_32bit bo 2 b2 ||| dec_32bit bo 3 b3)
          &&& invalid_mark bo ≠ 0 ↔
        ¬ (is_data b0 ∧ is_data b1 ∧ is_data b2 ∧ is_data b3) := by
    intro bo b0 b1 b2 b3
    simp only [dec_32bit_eq, is_data_iff]
    exact wide_or_marked bo _ _ _ _
  refine ⟨?_, ?_, ?_, hor bo, fun b0 b1 b2 b3 => hor .little b0 b1 b2 b3⟩
  · rw [dec_32bit_eq]
    constructor
    · intro h
      by_contra hn
      rcases dec_8bit_cases b with h1 | h1 | h1
      · exact wide_value_data_ne bo k _ h1 h
      · omega
      · omega
    · intro h
      exact wide_value_invalid bo k _ (by omega)
  · rw [dec_32bit_eq, dec_8bit_pad]
    exact wide_value_invalid bo k _ (by omega)
  · intro h
    have h64 : dec_8bit b < 64 := by
      rcases dec_8bit_cases b with h1 | h1 | h1
      · exact h1
      · omega
      · omega
    have hn : ¬ 64 ≤ dec_8bit b := by omega
    refine ⟨(is_data_iff b).mpr h64, h64, ?_, ?_, ?_, ?_, ?_, ?_, ?_, ?_, ?_⟩
    · rw [dec_32bit_eq]
      exact wide_value_data_unmarked bo k _ h64
    all_goals (rw [dec_32bit_eq]; simp only [wide_value, if_neg hn])

/-- Claim C22. Byte-order variants agree: for every four input bytes the
little-endian table set (word stored least-significant byte first, marker bit
`0x80000000`) and the big-endian table set (word stored most-significant byte
first, marker bit `0x00000001`) give the same accept/reject decision, and the
whole inner step has the same effect in both builds; when the step accepts, the
four stored bytes are the three decoded bytes followed by a zero byte. -/
theorem byte_order_variants_agree (a b c d : Byte) (rest : List Byte) (slen o olen : Nat)
    (mem : Mem) (rounds : Nat) :
    (((dec_32bit .little 0 a ||| dec_32bit .little 1 b ||| dec_32bit .little 2 c
          ||| dec_32bit .little 3 d) &&& 0x80000000 ≠ 0) ↔
      ((dec_32bit .big 0 a ||| dec_32bit .big 1 b ||| dec_32bit .big 2 c
          ||| dec_32bit .big 3 d) &&& 1 ≠ 0)) ∧
    (dec_loop_generic_32_inner .little ⟨a :: b :: c :: d :: rest, slen, o, olen, mem⟩ rounds).1
      = (dec_loop_generic_32_inner .big ⟨a :: b :: c :: d :: rest, slen, o, olen, mem⟩ rounds).1 ∧
    dec_loop_generic_32_inner .little ⟨a :: b :: c :: d :: rest, slen, o, olen, mem⟩ rounds
      = dec_loop_generic_32_inner .big ⟨a :: b :: c :: d :: rest, slen, o, olen, mem⟩ rounds ∧
    ((dec_loop_generic_32_inner .little ⟨a :: b :: c :: d :: rest, slen, o, olen, mem⟩ rounds).1
        = true →
      memcpy_u32 .little mem o (dec_32bit .little 0 a ||| dec_32bit .little 1 b
          ||| dec_32bit .little 2 c ||| dec_32bit .little 3 d)
        = memcpy_u32 .big mem o (dec_32bit .big 0 a ||| dec_32bit .big 1 b
          ||| dec_32bit .big 2 c ||| dec_32bit .big 3 d) ∧
      load_bytes (dec_loop_generic_32_inner .little
          ⟨a :: b :: c :: d :: rest, slen, o, olen, mem⟩ rounds).2.1.mem o 4
        = quantum_bytes (sextet a) (sextet b) (sextet c) (sextet d) ++ [0] ∧
      load_bytes (dec_loop_generic_32_inner .big
          ⟨a :: b :: c :: d :: rest, slen, o, olen, mem⟩ rounds).2.1.mem o 4
        = quantum_bytes (sextet a) (sextet b) (sextet c) (sextet d) ++ [0]) := by
  have hL := (wide_or_marked .little (dec_8bit a) (dec_8bit b) (dec_8bit c) (dec_8bit d))
  have hB := (wide_or_marked .big (dec_8bit a) (dec_8bit b) (dec_8bit c) (dec_8bit d))
  have e : dec_loop_generic_32_inner .little ⟨a :: b :: c :: d :: rest, slen, o, olen, mem⟩ rounds
      = dec_loop_generic_32_inner .big ⟨a :: b :: c :: d :: rest, slen, o, olen, mem⟩ rounds := by
    rw [inner_eq, inner_eq]
  refine ⟨?_, by rw [e], e, ?_⟩
  · simp only [dec_32bit_eq]
    exact hL.trans hB.symm
  · intro h
    rw [← e]
    rw [inner_eq] at h ⊢
    by_cases hq : quad_ok (a :: b :: c :: d :: rest)
    · have ha : dec_8bit a < 64 := hq.1
      have hb : dec_8bit b < 64 := hq.2.1
      have hc : dec_8bit c < 64 := hq.2.2.1
      have hd : dec_8bit d < 64 := hq.2.2.2
      have hl : load_bytes (if quad_ok (Vars.mk (a :: b :: c :: d :: rest) slen o olen mem).s then
            (true,
              { (Vars.mk (a :: b :: c :: d :: rest) slen o olen mem) with
                mem := store (store (store (store mem o
                  (u8 ((u8 (dec_8bit a <<< 2)).val ||| dec_8bit b >>> 4)))
                  (o + 1) (u8 ((u8 (dec_8bit b <<< 4)).val ||| dec_8bit c >>> 2)))
                  (o + 2) (u8 ((u8 (dec_8bit c <<< 6)).val ||| dec_8bit d)))
                  (o + 3) 0,
                s := rest, o := o + 3 },
              rounds - 1)
          else (false, Vars.mk (a :: b :: c :: d :: rest) slen o olen mem, rounds)).2.1.mem o 4
          = quantum_bytes (sextet a) (sextet b) (sextet c) (sextet d) ++ [0] := by
        rw [if_pos hq]
        rw [sextet_eq a ((is_data_iff a).mpr ha), sextet_eq b ((is_data_iff b).mpr hb),
          sextet_eq c ((is_data_iff c).mpr hc), sextet_eq d ((is_data_iff d).mpr hd)]
        obtain ⟨s0, s1, s2, s3, -⟩ := store_quantum_at mem o
          (u8 ((u8 (dec_8bit a <<< 2)).val ||| dec_8bit b >>> 4))
          (u8 ((u8 (dec_8bit b <<< 4)).val ||| dec_8bit c >>> 2))
          (u8 ((u8 (dec_8bit c <<< 6)).val ||| dec_8bit d)) 0
        show load_bytes (store (store (store (store mem o _) (o + 1) _) (o + 2) _) (o + 3) 0) o 4
          = _
        simp only [load_bytes, quantum_bytes]
        have r4 : List.range 4 = [0, 1, 2, 3] := by decide
        rw [r4]
        simp only [List.map_cons, List.map_nil, Nat.add_zero, List.cons_append, List.nil_append]
        rw [s0, s1, s2, s3]
      refine ⟨?_, hl, hl⟩
      simp only [dec_32bit_eq]
      rw [memcpy_quantum .little _ _ _ _ _ _ ha hb hc hd,
        memcpy_quantum .big _ _ _ _ _ _ ha hb hc hd]
    · rw [if_neg hq] at h
      exact absurd h (by simp)

/-! ### Single steps of the scalar path -/

/-- Claim C23. Scalar step on a data character: for every state with
`eof == 0` and a one-character chunk holding a data character of value `v`,
`base64_stream_decode` returns 1 with `eof` still 0, and: at `bytes == 0` it
emits nothing and sets `carry = (v << 2) mod 256`, `bytes = 1`; at `bytes == 1`
it emits `carry | (v >> 4)` and sets `carry = (v << 4) mod 256`, `bytes = 2`; at
`bytes == 2` it emits `carry | (v >> 2)` and sets `carry = (v << 6) mod 256`,
`bytes = 3`; at `bytes == 3` it emits `carry | v` and sets `carry = 0`,
`bytes = 0`. An emitted byte is the only change to the memory. -/
theorem scalar_step_data (bo : ByteOrder) (st : base64_state) (x : Byte) (mem : Mem)
    (out : Nat) (he : st.eof = 0) (hx : is_data x) :
    (st.bytes = 0 →
      (base64_stream_decode bo st [x] mem out).ret = 1 ∧
      (base64_stream_decode bo st [x] mem out).state = ⟨0, 1, u8 (sextet x <<< 2)⟩ ∧
      (base64_stream_decode bo st [x] mem out).outlen = 0 ∧
      (base64_stream_decode bo st [x] mem out).out = mem) ∧
    (st.bytes = 1 →
      (base64_stream_decode bo st [x] mem out).ret = 1 ∧
      (base64_stream_decode bo st [x] mem out).state = ⟨0, 2, u8 (sextet x <<< 4)⟩ ∧
      (base64_stream_decode bo st [x] mem out).outlen = 1 ∧
      (base64_stream_decode bo st [x] mem out).out
        = store mem out (u8 (st.carry.val ||| sextet x >>> 4))) ∧
    (st.bytes = 2 →
      (base64_stream_decode bo st [x] mem out).ret = 1 ∧
      (base64_stream_decode bo st [x] mem out).state = ⟨0, 3, u8 (sextet x <<< 6)⟩ ∧
      (base64_stream_decode bo st [x] mem out).outlen = 1 ∧
      (base64_stream_decode bo st [x] mem out).out
        = store mem out (u8 (st.carry.val ||| sextet x >>> 2))) ∧
    (st.bytes = 3 →
      (base64_stream_decode bo st [x] mem out).ret = 1 ∧
      (base64_stream_decode bo st [x] mem out).state = ⟨0, 0, 0⟩ ∧
      (base64_stream_decode bo st [x] mem out).outlen = 1 ∧
      (base64_stream_decode bo st [x] mem out).out
        = store mem out (u8 (st.carry.val ||| sextet x))) := by
  have hq : dec_8bit x < 64 := (is_data_iff x).mp hx
  have hn : ¬ dec_8bit x ≥ 254 := by omega
  rw [sextet_eq x hx]
  obtain ⟨eof, bytes, carry⟩ := st
  simp only at he
  subst he
  refine ⟨?_, ?_, ?_, ?_⟩
  · intro hb
    simp only at hb
    subst hb
    simp [base64_stream_decode, stream_case0, stream_case0_scalar, stream_case1,
      dec_loop_generic_32, peek, hn]
  · intro hb
    simp only at hb
    subst hb
    simp [base64_stream_decode, stream_case1, stream_case2, peek, hn]
  · intro hb
    simp only at hb
    subst hb
    simp [base64_stream_decode, stream_case2, stream_case3, peek, hn]
  · intro hb
    simp only at hb
    subst hb
    simp [base64_stream_decode, stream_case3, stream_loop, stream_case0, stream_case0_scalar,
      dec_loop_generic_32, peek, hn]

/-- Witness of claim C23: at `bytes == 1` with carry 0x60, the character `Q`
(value 16) emits the byte 0x61 and leaves `bytes == 2`. -/
theorem scalar_step_data_witness :
    is_data 81 ∧
    ((base64_stream_decode .little ⟨0, 1, 0x60⟩ [81] zero_mem 0).ret = 1 ∧
      (base64_stream_decode .little ⟨0, 1, 0x60⟩ [81] zero_mem 0).state
        = ⟨0, 2, u8 (sextet 81 <<< 4)⟩ ∧
      (base64_stream_decode .little ⟨0, 1, 0x60⟩ [81] zero_mem 0).outlen = 1 ∧
      (base64_stream_decode .little ⟨0, 1, 0x60⟩ [81] zero_mem 0).out
        = store zero_mem 0 (u8 ((0x60 : Byte).val ||| sextet 81 >>> 4))) ∧
    u8 ((0x60 : Byte).val ||| sextet 81 >>> 4) = 0x61 :=
  ⟨by decide, (scalar_step_data .little ⟨0, 1, 0x60⟩ 81 zero_mem 0 rfl (by decide)).2.1 rfl,
    by decide⟩

/-- Claim C24. Pad at quantum position 2: for every state with `eof == 0` and
`bytes == 2` and every chunk whose first byte is the pad character: if the
chunk has length 1 the call returns 1 with no output and the state becomes
ALMOST_DONE (`eof == BASE64_AEOF`, with `bytes == 3`); otherwise the state
becomes DONE (`eof == BASE64_EOF`, `bytes == 0`) and the call returns 1 if and
only if the chunk is exactly two pad characters, and 0 otherwise. No byte is
written and `carry` is kept in either case. -/
theorem pad_at_position_two (bo : ByteOrder) (st : base64_state) (xs : List Byte) (mem : Mem)
    (out : Nat) (he : st.eof = 0) (hb : st.bytes = 2) :
    (xs = [] →
      (base64_stream_decode bo st (CHARPAD :: xs) mem out).ret = 1 ∧
      (base64_stream_decode bo st (CHARPAD :: xs) mem out).state.eof = BASE64_AEOF ∧
      (base64_stream_decode bo st (CHARPAD :: xs) mem out).state.bytes = 3) ∧
    (xs ≠ [] →
      (base64_stream_decode bo st (CHARPAD :: xs) mem out).state.eof = BASE64_EOF ∧
      (base64_stream_decode bo st (CHARPAD :: xs) mem out).state.bytes = 0 ∧
      ((base64_stream_decode bo st (CHARPAD :: xs) mem out).ret = 1 ↔ xs = [CHARPAD]) ∧
      ((base64_stream_decode bo st (CHARPAD :: xs) mem out).ret = 0 ↔ xs ≠ [CHARPAD])) ∧
    (base64_stream_decode bo st (CHARPAD :: xs) mem out).outlen = 0 ∧
    (base64_stream_decode bo st (CHARPAD :: xs) mem out).out = mem ∧
    (base64_stream_decode bo st (CHARPAD :: xs) mem out).state.carry = st.carry := by
  obtain ⟨eof, bytes, carry⟩ := st
  simp only at he hb
  subst he hb
  cases xs with
  | nil =>
    simp [base64_stream_decode, stream_case2, peek, dec_8bit_pad]
  | cons y ys =>
    have hy : dec_8bit y = 254 ∧ ys = [] ↔ y = CHARPAD ∧ ys = [] := by
      constructor
      · intro h
        exact ⟨dec_8bit_eq_pad y h.1, h.2⟩
      · intro h
        rw [h.1]
        exact ⟨dec_8bit_pad, h.2⟩
    by_cases h : dec_8bit y = 254 ∧ ys = []
    · have h1 := hy.mp h
      simp [base64_stream_decode, stream_case2, peek, dec_8bit_pad, h, h1]
    · have h1 := hy.not.mp h
      simp [base64_stream_decode, stream_case2, peek, dec_8bit_pad, h, h1]

/-- Witness of claim C24: at `bytes == 2` the chunk `==` closes the value. -/
theorem pad_at_position_two_witness :
    ((ascii "=" ≠ [] →
      (base64_stream_decode .little ⟨0, 2, 0x10⟩ (CHARPAD :: ascii "=") zero_mem 1).state.eof
        = BASE64_EOF ∧
      (base64_stream_decode .little ⟨0, 2, 0x10⟩ (CHARPAD :: ascii "=") zero_mem 1).state.bytes
        = 0 ∧
      ((base64_stream_decode .little ⟨0, 2, 0x10⟩ (CHARPAD :: ascii "=") zero_mem 1).ret = 1 ↔
        ascii "=" = [CHARPAD]) ∧
      ((base64_stream_decode .little ⟨0, 2, 0x10⟩ (CHARPAD :: ascii "=") zero_mem 1).ret = 0 ↔
        ascii "=" ≠ [CHARPAD])) ∧
    (base64_stream_decode .little ⟨0, 2, 0x10⟩ (CHARPAD :: ascii "=") zero_mem 1).outlen = 0) ∧
    ascii "=" = [CHARPAD] :=
  ⟨⟨(pad_at_position_two .little ⟨0, 2, 0x10⟩ (ascii "=") zero_mem 1 rfl rfl).2.1,
    (pad_at_position_two .little ⟨0, 2, 0x10⟩ (ascii "=") zero_mem 1 rfl rfl).2.2.1⟩, by decide⟩

/-- Claim C25. Pad at quantum position 3: for every state with `eof == 0` and
`bytes == 3` and every chunk whose first byte is the pad character,
`base64_stream_decode` emits no byte, sets `eof = BASE64_EOF` and `bytes = 0`,
and returns 1 if and only if the chunk has length exactly 1 (0 otherwise). -/
theorem pad_at_position_three (bo : ByteOrder) (st : base64_state) (xs : List Byte) (mem : Mem)
    (out : Nat) (he : st.eof = 0) (hb : st.bytes = 3) :
    (base64_stream_decode bo st (CHARPAD :: xs) mem out).outlen = 0 ∧
    (base64_stream_decode bo st (CHARPAD :: xs) mem out).out = mem ∧
    (base64_stream_decode bo st (CHARPAD :: xs) mem out).state.eof = BASE64_EOF ∧
    (base64_stream_decode bo st (CHARPAD :: xs) mem out).state.bytes = 0 ∧
    ((base64_stream_decode bo st (CHARPAD :: xs) mem out).ret = 1 ↔
      (CHARPAD :: xs).length = 1) ∧
    ((base64_stream_decode bo st (CHARPAD :: xs) mem out).ret = 0 ↔
      (CHARPAD :: xs).length ≠ 1) := by
  obtain ⟨eof, bytes, carry⟩ := st
  simp only at he hb
  subst he hb
  cases xs with
  | nil =>
    simp [base64_stream_decode, stream_case3, peek, dec_8bit_pad]
  | cons y ys =>
    simp [base64_stream_decode, stream_case3, peek, dec_8bit_pad]

/-- Witness of claim C25: at `bytes == 3` the chunk `=` closes the value. -/
theorem pad_at_position_three_witness :
    (base64_stream_decode .little ⟨0, 3, 0x40⟩ (CHARPAD :: []) zero_mem 2).outlen = 0 ∧
    (base64_stream_decode .little ⟨0, 3, 0x40⟩ (CHARPAD :: []) zero_mem 2).out = zero_mem ∧
    (base64_stream_decode .little ⟨0, 3, 0x40⟩ (CHARPAD :: []) zero_mem 2).state.eof
      = BASE64_EOF ∧
    (base64_stream_decode .little ⟨0, 3, 0x40⟩ (CHARPAD :: []) zero_mem 2).state.bytes = 0 ∧
    ((base64_stream_decode .little ⟨0, 3, 0x40⟩ (CHARPAD :: []) zero_mem 2).ret = 1 ↔
      (CHARPAD :: ([] : List Byte)).length = 1) ∧
    ((base64_stream_decode .little ⟨0, 3, 0x40⟩ (CHARPAD :: []) zero_mem 2).ret = 0 ↔
      (CHARPAD :: ([] : List Byte)).length ≠ 1) :=
  pad_at_position_three .little ⟨0, 3, 0x40⟩ [] zero_mem 2 rfl rfl

/-- Claim C26. Carry is meaningless at position 0: for any two states that
both have `eof == 0` and `bytes == 0` (they differ at most in `carry`) and
every chunk, `base64_stream_decode` yields the same verdict, the same
`outlen`, the same output bytes and the same resulting `eof` and `bytes`. -/
theorem carry_meaningless_at_zero (bo : ByteOrder) (s1 s2 : base64_state) (src : List Byte)
    (mem : Mem) (out : Nat) (he1 : s1.eof = 0) (hb1 : s1.bytes = 0) (he2 : s2.eof = 0)
    (hb2 : s2.bytes = 0) :
    (base64_stream_decode bo s1 src mem out).ret = (base64_stream_decode bo s2 src mem out).ret ∧
    (base64_stream_decode bo s1 src mem out).outlen
      = (base64_stream_decode bo s2 src mem out).outlen ∧
    load_bytes (base64_stream_decode bo s1 src mem out).out out
        (base64_stream_decode bo s1 src mem out).outlen
      = load_bytes (base64_stream_decode bo s2 src mem out).out out
        (base64_stream_decode bo s2 src mem out).outlen ∧
    (base64_stream_decode bo s1 src mem out).state.eof
      = (base64_stream_decode bo s2 src mem out).state.eof ∧
    (base64_stream_decode bo s1 src mem out).state.bytes
      = (base64_stream_decode bo s2 src mem out).state.bytes := by
  obtain ⟨a1, a2, a3, a4, a5, -⟩ :=
    stream_decode_streaming bo s1 src mem out 0 he1 (by rw [hb1]; rfl) (by omega)
  obtain ⟨b1, b2, b3, b4, b5, -⟩ :=
    stream_decode_streaming bo s2 src mem out 0 he2 (by rw [hb2]; rfl) (by omega)
  obtain ⟨o1, o2, o3, o4⟩ := scalar_run_zero_obs src s1.carry s2.carry
  refine ⟨by rw [a1, b1, o1], by rw [a4, b4, o4], ?_, by rw [a2, b2, o2], by rw [a3, b3, o3]⟩
  rw [a4, b4, wrote_load a5, wrote_load b5, o4]

/-- Witness of claim C26: the carries 0x55 and 0 at `bytes == 0` on the chunk
`AAAA!AAA`. -/
theorem carry_meaningless_at_zero_witness :
    (base64_stream_decode .little ⟨0, 0, 0x55⟩ (ascii "AAAA!AAA") zero_mem 0).ret
      = (base64_stream_decode .little ⟨0, 0, 0⟩ (ascii "AAAA!AAA") zero_mem 0).ret ∧
    (base64_stream_decode .little ⟨0, 0, 0x55⟩ (ascii "AAAA!AAA") zero_mem 0).outlen
      = (base64_stream_decode .little ⟨0, 0, 0⟩ (ascii "AAAA!AAA") zero_mem 0).outlen ∧
    load_bytes (base64_stream_decode .little ⟨0, 0, 0x55⟩ (ascii "AAAA!AAA") zero_mem 0).out 0
        (base64_stream_decode .little ⟨0, 0, 0x55⟩ (ascii "AAAA!AAA") zero_mem 0).outlen
      = load_bytes (base64_stream_decode .little ⟨0, 0, 0⟩ (ascii "AAAA!AAA") zero_mem 0).out 0
        (base64_stream_decode .little ⟨0, 0, 0⟩ (ascii "AAAA!AAA") zero_mem 0).outlen ∧
    (base64_stream_decode .little ⟨0, 0, 0x55⟩ (ascii "AAAA!AAA") zero_mem 0).state.eof
      = (base64_stream_decode .little ⟨0, 0, 0⟩ (ascii "AAAA!AAA") zero_mem 0).state.eof ∧
    (base64_stream_decode .little ⟨0, 0, 0x55⟩ (ascii "AAAA!AAA") zero_mem 0).state.bytes
      = (base64_stream_decode .little ⟨0, 0, 0⟩ (ascii "AAAA!AAA") zero_mem 0).state.bytes :=
  carry_meaningless_at_zero .little ⟨0, 0, 0x55⟩ ⟨0, 0, 0⟩ (ascii "AAAA!AAA") zero_mem 0
    rfl rfl rfl rfl

/-! ### The capacity test of the parsers -/

/-- Claim C27, evaluated where it fails. Both parsers test the capacity against
`token->length / 4` rounded down, which is 0 for a token of fewer than 4
characters. With one byte of capacity left (`octets = 16`, `limit = 17`):
`parse_base64_sequence` on the contiguous tokens `YW` and `Jj` passes both
tests although `1 < ceil(2 / 4) * 3 = 3`, writes the three bytes `abc` at
addresses 16, 17, 18 and returns normally with `octets = 19 > limit`; after
that the unsigned difference `limit - octets` wraps around, so the test cannot
fail any more. `parse_base64` on the token `YWJ` passes its test as well and
the decoder writes two bytes, one of them at `limit`, before the input is
rejected. -/
theorem capacity_test_rounds_down :
    (⟨16, 17⟩ : rdata_t).octets ≤ (⟨16, 17⟩ : rdata_t).limit ∧
    ¬ (uintptr_sub 17 16 / 3 < (ascii "YW").length / 4) ∧
    17 - 16 < ((ascii "YW").length + 3) / 4 * 3 ∧
    (parse_base64_sequence .little 0 [ascii "YW", ascii "Jj"] ⟨16, 17⟩ zero_mem).outcome
      = .returned 0 ∧
    (parse_base64_sequence .little 0 [ascii "YW", ascii "Jj"] ⟨16, 17⟩ zero_mem).rdata
      = ⟨19, 17⟩ ∧
    load_bytes (parse_base64_sequence .little 0 [ascii "YW", ascii "Jj"] ⟨16, 17⟩ zero_mem).mem
      16 3 = ascii "abc" ∧
    (parse_base64_sequence .big 0 [ascii "YW", ascii "Jj"] ⟨16, 17⟩ zero_mem).rdata
      = ⟨19, 17⟩ ∧
    uintptr_sub 17 19 = 2 ^ 64 - 2 ∧
    ¬ (uintptr_sub 17 16 / 3 < (ascii "YWJ").length / 4) ∧
    17 - 16 < ((ascii "YWJ").length + 3) / 4 * 3 ∧
    (parse_base64 .little (ascii "YWJ") ⟨16, 17⟩ zero_mem).outcome = .syntax_error ∧
    load_bytes (parse_base64 .little (ascii "YWJ") ⟨16, 17⟩ zero_mem).mem 16 2 = ascii "ab" ∧
    (base64_stream_decode .little base64_state_zero (ascii "YWJ") zero_mem 16).outlen = 2 := by
  refine ⟨by decide, by decide, by decide, by decide, by decide, by decide, by decide, by decide,
    by decide, by decide, by decide, by decide, by decide⟩

/-! ### The state invariant -/

theorem scalar_run_state (s : List Byte) (p : Nat) (c : Byte) (hp : p ≤ 3) :
    state_in_range (scalar_run p c s).st ∧
    ((scalar_run p c s).st.eof = BASE64_AEOF → (scalar_run p c s).st.bytes = 3) ∧
    ((p = 0 → c = 0) → (scalar_run p c s).st.eof = 0 → (scalar_run p c s).st.bytes = 0 →
      (scalar_run p c s).st.carry = 0) := by
  induction s generalizing p c with
  | nil =>
    refine ⟨⟨Or.inl rfl, ?_, ?_⟩, ?_, ?_⟩
    · show (0 : Int) ≤ (p : Int)
      omega
    · show (p : Int) ≤ 3
      omega
    · intro h
      have h1 : (0 : Int) = BASE64_AEOF := h
      exact absurd h1 (by decide)
    · intro hc _ h0
      have h1 : (p : Int) = 0 := h0
      exact hc (by omega)
  | cons x xs ih =>
    by_cases hx : 254 ≤ dec_8bit x
    · rcases p with _ | _ | _ | _ | p
      · simp [scalar_run, hx, state_in_range, BASE64_AEOF, BASE64_EOF]
      · simp [scalar_run, hx, state_in_range, BASE64_AEOF, BASE64_EOF]
      · simp only [scalar_run, if_pos hx]
        split
        · split <;> simp [state_in_range, BASE64_AEOF, BASE64_EOF]
        · simp [state_in_range, BASE64_AEOF, BASE64_EOF]
      · simp [scalar_run, hx, state_in_range, BASE64_AEOF, BASE64_EOF]
      · omega
    · rcases p with _ | _ | _ | _ | p
      · have h := ih 1 (u8 (dec_8bit x <<< 2)) (by omega)
        simp only [scalar_run, if_neg hx]
        exact ⟨h.1, h.2.1, fun _ => h.2.2 (by omega)⟩
      · have h := ih 2 (u8 (dec_8bit x <<< 4)) (by omega)
        simp only [scalar_run, if_neg hx, Run.emit]
        exact ⟨h.1, h.2.1, fun _ => h.2.2 (by omega)⟩
      · have h := ih 3 (u8 (dec_8bit x <<< 6)) (by omega)
        simp only [scalar_run, if_neg hx, Run.emit]
        exact ⟨h.1, h.2.1, fun _ => h.2.2 (by omega)⟩
      · have h := ih 0 0 (by omega)
        simp only [scalar_run, if_neg hx, Run.emit]
        exact ⟨h.1, h.2.1, fun _ => h.2.2 (fun _ => rfl)⟩
      · omega

theorem stream_decode_closed_state (bo : ByteOrder) (st : base64_state) (src : List Byte)
    (mem : Mem) (out : Nat) (he : st.eof ≠ 0) :
    (base64_stream_decode bo st src mem out).state = st ∨
    (base64_stream_decode bo st src mem out).state = ⟨BASE64_EOF, 0, st.carry⟩ := by
  unfold base64_stream_decode
  simp only [he, ne_eq, not_false_eq_true, if_true]
  split
  · exact Or.inr rfl
  · exact Or.inl rfl

theorem stream_decode_in_range (bo : ByteOrder) (st : base64_state) (src : List Byte)
    (mem : Mem) (out : Nat) (h : state_in_range st) :
    state_in_range (base64_stream_decode bo st src mem out).state := by
  by_cases he : st.eof = 0
  · obtain ⟨-, hb0, hb3⟩ := h
    obtain ⟨-, a2, a3, -, -, -⟩ :=
      stream_decode_streaming bo st src mem out st.bytes.toNat he (by omega) (by omega)
    have hs := (scalar_run_state src st.bytes.toNat st.carry (by omega)).1
    unfold state_in_range at hs ⊢
    rw [a2, a3]
    exact hs
  · rcases stream_decode_closed_state bo st src mem out he with e | e
    · rw [e]; exact h
    · rw [e]
      exact ⟨Or.inr (Or.inr rfl), le_refl 0, by show (0 : Int) ≤ 3; decide⟩

theorem stream_decode_reachable_inv (bo : ByteOrder) (st : base64_state) (src : List Byte)
    (mem : Mem) (out : Nat) (h : state_reachable_inv st) :
    state_reachable_inv (base64_stream_decode bo st src mem out).state := by
  refine ⟨stream_decode_in_range bo st src mem out h.1, ?_⟩
  by_cases he : st.eof = 0
  · obtain ⟨⟨-, hb0, hb3⟩, -, hc⟩ := h
    obtain ⟨-, a2, a3, -, -, a6⟩ :=
      stream_decode_streaming bo st src mem out st.bytes.toNat he (by omega) (by omega)
    have hc0 : st.bytes.toNat = 0 → st.carry = 0 := fun h0 => hc he (by omega)
    have hs := scalar_run_state src st.bytes.toNat st.carry (by omega)
    rw [a2, a3, a6 hc0]
    exact ⟨hs.2.1, hs.2.2 hc0⟩
  · rcases stream_decode_closed_state bo st src mem out he with e | e
    · rw [e]; exact h.2
    · rw [e]
      refine ⟨fun h => absurd h ?_, fun h => absurd h ?_⟩
      · show BASE64_EOF ≠ BASE64_AEOF
        decide
      · show BASE64_EOF ≠ 0
        decide

theorem stream_decode_calls_inv (bo : ByteOrder) (calls : List (List Byte × Mem × Nat))
    (st : base64_state) (h : state_reachable_inv st) :
    state_reachable_inv (stream_decode_calls bo calls st) := by
  induction calls generalizing st with
  | nil => exact h
  | cons c cs ih =>
    obtain ⟨src, mem, out⟩ := c
    exact ih _ (stream_decode_reachable_inv bo st src mem out h)

theorem state_reachable_inv_zero : state_reachable_inv base64_state_zero := by
  refine ⟨⟨Or.inl rfl, by decide, by decide⟩, by decide, fun _ _ => rfl⟩

/-- Claim C28. State invariant: `base64_stream_decode` maps every state with
`eof` in {0,1,2} and `bytes` in {0,1,2,3} to a state with `eof` in {0,1,2} and
`bytes` in {0,1,2,3}; and in every state reachable from the zero-initialised
state by any sequence of calls (any chunks, memories and output pointers),
`eof == BASE64_AEOF` implies `bytes == 3`, and `eof == 0` with `bytes == 0`
implies `carry == 0`. -/
theorem state_invariant (bo : ByteOrder) :
    (∀ (st : base64_state) (src : List Byte) (mem : Mem) (out : Nat),
      (st.eof = 0 ∨ st.eof = 1 ∨ st.eof = 2) →
      (st.bytes = 0 ∨ st.bytes = 1 ∨ st.bytes = 2 ∨ st.bytes = 3) →
      ((base64_stream_decode bo st src mem out).state.eof = 0 ∨
        (base64_stream_decode bo st src mem out).state.eof = 1 ∨
        (base64_stream_decode bo st src mem out).state.eof = 2) ∧
      ((base64_stream_decode bo st src mem out).state.bytes = 0 ∨
        (base64_stream_decode bo st src mem out).state.bytes = 1 ∨
        (base64_stream_decode bo st src mem out).state.bytes = 2 ∨
        (base64_stream_decode bo st src mem out).state.bytes = 3)) ∧
    (∀ calls : List (List Byte × Mem × Nat),
      ((stream_decode_calls bo calls base64_state_zero).eof = BASE64_AEOF →
        (stream_decode_calls bo calls base64_state_zero).bytes = 3) ∧
      ((stream_decode_calls bo calls base64_state_zero).eof = 0 ∧
          (stream_decode_calls bo calls base64_state_zero).bytes = 0 →
        (stream_decode_calls bo calls base64_state_zero).carry = 0) ∧
      ((stream_decode_calls bo calls base64_state_zero).eof = 0 ∨
        (stream_decode_calls bo calls base64_state_zero).eof = 1 ∨
        (stream_decode_calls bo calls base64_state_zero).eof = 2) ∧
      0 ≤ (stream_decode_calls bo calls base64_state_zero).bytes ∧
      (stream_decode_calls bo calls base64_state_zero).bytes ≤ 3) := by
  constructor
  · intro st src mem out he hb
    have h := stream_decode_in_range bo st src mem out ⟨he, by omega, by omega⟩
    obtain ⟨h1, h2, h3⟩ := h
    refine ⟨h1, ?_⟩
    omega
  · intro calls
    obtain ⟨⟨h1, h2, h3⟩, h4, h5⟩ := stream_decode_calls_inv bo calls _ state_reachable_inv_zero
    exact ⟨h4, fun h => h5 h.1 h.2, h1, h2, h3⟩

/-! ### Accepted one-shot inputs -/

theorem scalar_run_data_outs (s : List Byte) (p : Nat) (c : Byte)
    (hd : ∀ x ∈ s, dec_8bit x < 64) (hp : p ≤ 3) :
    (scalar_run p c s).outs.length + (p + s.length + 3) / 4 = s.length + (p + 3) / 4 := by
  induction s generalizing p c with
  | nil => simp [scalar_run]
  | cons x xs ih =>
    have hx : ¬ 254 ≤ dec_8bit x := by
      have := hd x (List.mem_cons_self x xs)
      omega
    have hd1 : ∀ y ∈ xs, dec_8bit y < 64 := fun y hy => hd y (List.mem_cons_of_mem x hy)
    rcases p with _ | _ | _ | _ | p
    · have := ih 1 (u8 (dec_8bit x <<< 2)) hd1 (by omega)
      simp only [scalar_run, if_neg hx, List.length_cons]
      omega
    · have := ih 2 (u8 (dec_8bit x <<< 4)) hd1 (by omega)
      simp only [scalar_run, if_neg hx, List.length_cons, Run.emit]
      omega
    · have := ih 3 (u8 (dec_8bit x <<< 6)) hd1 (by omega)
      simp only [scalar_run, if_neg hx, List.length_cons, Run.emit]
      omega
    · have := ih 0 0 hd1 (by omega)
      simp only [scalar_run, if_neg hx, List.length_cons, Run.emit]
      omega
    · omega

theorem accepted_length (s : List Byte) (h : (phase_run (.pos 0 0) s).1.accepting = true) :
    s.length % 4 = 0 ∧ 3 * (s.length / 4) ≤ (phase_run (.pos 0 0) s).2.length + 2 ∧
      (phase_run (.pos 0 0) s).2.length ≤ 3 * (s.length / 4) := by
  obtain ⟨body, tail, e, hb, ht⟩ := accepting_split s 0 0 (by omega) h
  have hd : ∀ x ∈ body, dec_8bit x < 64 := fun x hx => (is_data_iff x).mp (hb x hx)
  have ho := scalar_run_data_outs body 0 0 hd (by omega)
  have hph := (scalar_run_phase s 0 0 (by omega) (fun _ => rfl)).1
  rw [← hph]
  rcases ht with ⟨t, hl⟩ | ⟨t, hl⟩ | ⟨t, hl⟩
  · subst t
    rw [List.append_nil] at e
    subst e
    omega
  · subst t
    have hp := scalar_run_prefix_outs body 0 0 CHARPAD [CHARPAD] hd
      (le_of_eq dec_8bit_pad.symm) (by omega)
    rw [e, hp]
    simp only [List.length_append, List.length_cons, List.length_nil]
    omega
  · subst t
    have hp := scalar_run_prefix_outs body 0 0 CHARPAD [] hd
      (le_of_eq dec_8bit_pad.symm) (by omega)
    rw [e, hp]
    simp only [List.length_append, List.length_cons, List.length_nil]
    omega

theorem uintptr_sub_of_le (a b : Nat) (h : b ≤ a) (ha : a < 2 ^ 64) : uintptr_sub a b = a - b := by
  unfold uintptr_sub
  have hb : b < 2 ^ 64 := by omega
  rw [Nat.mod_eq_of_lt ha, Nat.mod_eq_of_lt hb]
  have e : a + 2 ^ 64 - b = (a - b) + 2 ^ 64 := by omega
  rw [e, Nat.add_mod_right]
  exact Nat.mod_eq_of_lt (by omega)

/-- Claim C29. Length of accepted one-shot input: for every byte string `S` of
length `n`, if `base64_decode` returns 1 on `S` then `n` is a multiple of 4 and
the reported `outlen` satisfies `3 * (n / 4) - 2 <= outlen <= 3 * (n / 4)`;
hence a token accepted by `parse_base64` (entered with `octets <= limit`)
decodes to at most the `3 * (length / 4)` bytes that its capacity test
guarantees, and `octets` stays within `limit`. -/
theorem accepted_one_shot_length (bo : ByteOrder) (S : List Byte) (mem : Mem) (out : Nat)
    (h : (base64_decode bo S mem out).ret = 1) :
    S.length % 4 = 0 ∧
    3 * (S.length / 4) ≤ (base64_decode bo S mem out).outlen + 2 ∧
    3 * (S.length / 4) - 2 ≤ (base64_decode bo S mem out).outlen ∧
    (base64_decode bo S mem out).outlen ≤ 3 * (S.length / 4) ∧
    (∀ (rdata : rdata_t) (code : Int), rdata.octets ≤ rdata.limit → rdata.limit < 2 ^ 64 →
      (parse_base64 bo S rdata mem).outcome = .returned code →
        3 * (S.length / 4) ≤ rdata.limit - rdata.octets ∧
        (parse_base64 bo S rdata mem).rdata.octets
          = rdata.octets + (base64_decode bo S mem rdata.octets).outlen ∧
        (base64_decode bo S mem rdata.octets).outlen ≤ 3 * (S.length / 4) ∧
        (parse_base64 bo S rdata mem).rdata.octets ≤ rdata.limit) := by
  obtain ⟨a1, a2, -, -⟩ := base64_decode_phase bo S mem out
  have hacc : (phase_run (.pos 0 0) S).1.accepting = true := by
    rw [a1] at h
    by_contra hn
    rw [if_neg hn] at h
    exact absurd h (by decide)
  obtain ⟨l1, l2, l3⟩ := accepted_length S hacc
  refine ⟨l1, by rw [a2]; exact l2, by rw [a2]; omega, by rw [a2]; exact l3, ?_⟩
  intro rdata code hle hlim hout
  obtain ⟨-, b2, -, -⟩ := base64_decode_phase bo S mem rdata.octets
  unfold parse_base64 at hout ⊢
  simp only [uintptr_sub_of_le _ _ hle hlim] at hout ⊢
  by_cases hcap : (rdata.limit - rdata.octets) / 3 < S.length / 4
  · rw [if_pos hcap] at hout
    exact absurd hout (by simp)
  · rw [if_neg hcap] at hout ⊢
    by_cases hr : (base64_decode bo S mem rdata.octets).ret = 0
    · rw [if_pos hr] at hout
      exact absurd hout (by simp)
    · rw [if_neg hr]
      have hc : 3 * (S.length / 4) ≤ rdata.limit - rdata.octets := by omega
      refine ⟨hc, rfl, by rw [b2]; exact l3, ?_⟩
      show rdata.octets + (base64_decode bo S mem rdata.octets).outlen ≤ rdata.limit
      rw [b2]
      omega

/-- Witness of claim C29: the accepted text `YQ==` has length 4 and decodes to
one byte. -/
theorem accepted_one_shot_length_witness :
    (base64_decode .little (ascii "YQ==") zero_mem 0).ret = 1 ∧
    (ascii "YQ==").length % 4 = 0 ∧
    3 * ((ascii "YQ==").length / 4) ≤ (base64_decode .little (ascii "YQ==") zero_mem 0).outlen + 2 ∧
    (base64_decode .little (ascii "YQ==") zero_mem 0).outlen ≤ 3 * ((ascii "YQ==").length / 4) :=
  have h : (base64_decode .little (ascii "YQ==") zero_mem 0).ret = 1 := by decide
  ⟨h, (accepted_one_shot_length .little (ascii "YQ==") zero_mem 0 h).1,
    (accepted_one_shot_length .little (ascii "YQ==") zero_mem 0 h).2.1,
    (accepted_one_shot_length .little (ascii "YQ==") zero_mem 0 h).2.2.2.1⟩

theorem decode_two_pads (bo : ByteOrder) (x y : Byte) (mem : Mem) (out : Nat) (hx : is_data x)
    (hy : is_data y) :
    (base64_decode bo [x, y, CHARPAD, CHARPAD] mem out).ret = 1 ∧
    (base64_decode bo [x, y, CHARPAD, CHARPAD] mem out).outlen = 1 ∧
    load_bytes (base64_decode bo [x, y, CHARPAD, CHARPAD] mem out).out out 1
      = [u8 ((u8 (sextet x <<< 2)).val ||| sextet y >>> 4)] := by
  have h0 := (is_data_iff x).mp hx
  have h1 := (is_data_iff y).mp hy
  obtain ⟨a1, a2, a3, -⟩ := base64_decode_phase bo [x, y, CHARPAD, CHARPAD] mem out
  rw [phase_run_two_pads 0 x y h0 h1] at a1 a2 a3
  rw [sextet_eq x hx, sextet_eq y hy]
  exact ⟨a1, a2, wrote_load a3⟩

theorem decode_one_pad (bo : ByteOrder) (x y z : Byte) (mem : Mem) (out : Nat) (hx : is_data x)
    (hy : is_data y) (hz : is_data z) :
    (base64_decode bo [x, y, z, CHARPAD] mem out).ret = 1 ∧
    (base64_decode bo [x, y, z, CHARPAD] mem out).outlen = 2 ∧
    load_bytes (base64_decode bo [x, y, z, CHARPAD] mem out).out out 2
      = [u8 ((u8 (sextet x <<< 2)).val ||| sextet y >>> 4),
          u8 ((u8 (sextet y <<< 4)).val ||| sextet z >>> 2)] := by
  have h0 := (is_data_iff x).mp hx
  have h1 := (is_data_iff y).mp hy
  have h2 := (is_data_iff z).mp hz
  obtain ⟨a1, a2, a3, -⟩ := base64_decode_phase bo [x, y, z, CHARPAD] mem out
  rw [phase_run_one_pad 0 x y z h0 h1 h2] at a1 a2 a3
  rw [sextet_eq x hx, sextet_eq y hy, sextet_eq z hz]
  exact ⟨a1, a2, wrote_load a3⟩

/-- Claim C30. Non-canonical padding bits are accepted: the discarded low bits
of the last data character of a padded tail are not checked. For all data
characters `x`, `y`, `y1` with the values of `y` and `y1` agreeing in their top
2 bits, `base64_decode` accepts both `x y = =` and `x y1 = =` with the same
single output byte; and for data characters `z`, `z1` agreeing in their top 4
bits it accepts `x y z =` and `x y z1 =` with the same two output bytes. So
`YQ==` and `YR==` both decode to the byte 0x61, and decoding is not injective
on accepted texts. -/
theorem noncanonical_padding_accepted (bo : ByteOrder) (x y y1 z z1 : Byte) (mem : Mem)
    (out : Nat) (hx : is_data x) (hy : is_data y) (hy1 : is_data y1) (hz : is_data z)
    (hz1 : is_data z1) :
    (sextet y >>> 4 = sextet y1 >>> 4 →
      (base64_decode bo [x, y, CHARPAD, CHARPAD] mem out).ret = 1 ∧
      (base64_decode bo [x, y1, CHARPAD, CHARPAD] mem out).ret = 1 ∧
      (base64_decode bo [x, y, CHARPAD, CHARPAD] mem out).outlen = 1 ∧
      (base64_decode bo [x, y1, CHARPAD, CHARPAD] mem out).outlen = 1 ∧
      load_bytes (base64_decode bo [x, y, CHARPAD, CHARPAD] mem out).out out 1
        = load_bytes (base64_decode bo [x, y1, CHARPAD, CHARPAD] mem out).out out 1) ∧
    (sextet z >>> 2 = sextet z1 >>> 2 →
      (base64_decode bo [x, y, z, CHARPAD] mem out).ret = 1 ∧
      (base64_decode bo [x, y, z1, CHARPAD] mem out).ret = 1 ∧
      (base64_decode bo [x, y, z, CHARPAD] mem out).outlen = 2 ∧
      (base64_decode bo [x, y, z1, CHARPAD] mem out).outlen = 2 ∧
      load_bytes (base64_decode bo [x, y, z, CHARPAD] mem out).out out 2
        = load_bytes (base64_decode bo [x, y, z1, CHARPAD] mem out).out out 2) ∧
    ((base64_decode bo (ascii "YQ==") mem out).ret = 1 ∧
      (base64_decode bo (ascii "YR==") mem out).ret = 1 ∧
      (base64_decode bo (ascii "YQ==") mem out).outlen = 1 ∧
      (base64_decode bo (ascii "YR==") mem out).outlen = 1 ∧
      load_bytes (base64_decode bo (ascii "YQ==") mem out).out out 1 = [0x61] ∧
      load_bytes (base64_decode bo (ascii "YR==") mem out).out out 1 = [0x61] ∧
      ascii "YQ==" ≠ ascii "YR==") := by
  refine ⟨?_, ?_, ?_⟩
  · intro h
    obtain ⟨a1, a2, a3⟩ := decode_two_pads bo x y mem out hx hy
    obtain ⟨b1, b2, b3⟩ := decode_two_pads bo x y1 mem out hx hy1
    refine ⟨a1, b1, a2, b2, ?_⟩
    rw [a3, b3, h]
  · intro h
    obtain ⟨a1, a2, a3⟩ := decode_one_pad bo x y z mem out hx hy hz
    obtain ⟨b1, b2, b3⟩ := decode_one_pad bo x y z1 mem out hx hy hz1
    refine ⟨a1, b1, a2, b2, ?_⟩
    rw [a3, b3, h]
  · have e1 : ascii "YQ==" = [89, 81, CHARPAD, CHARPAD] := by decide
    have e2 : ascii "YR==" = [89, 82, CHARPAD, CHARPAD] := by decide
    obtain ⟨a1, a2, a3⟩ := decode_two_pads bo 89 81 mem out (by decide) (by decide)
    obtain ⟨b1, b2, b3⟩ := decode_two_pads bo 89 82 mem out (by decide) (by decide)
    rw [e1, e2]
    refine ⟨a1, b1, a2, b2, ?_, ?_, by decide⟩
    · rw [a3]; decide
    · rw [b3]; decide

/-- Witness of claim C30: `YQ==` and `YR==`, and `YQI=` and `YQJ=`. -/
theorem noncanonical_padding_accepted_witness :
    (is_data 89 ∧ is_data 81 ∧ is_data 82 ∧ is_data 73 ∧ is_data 74) ∧
    (sextet 81 >>> 4 = sextet 82 >>> 4 ∧ sextet 73 >>> 2 = sextet 74 >>> 2) ∧
    (load_bytes (base64_decode .little [89, 81, CHARPAD, CHARPAD] zero_mem 0).out 0 1
        = load_bytes (base64_decode .little [89, 82, CHARPAD, CHARPAD] zero_mem 0).out 0 1) ∧
    (load_bytes (base64_decode .little [89, 81, 73, CHARPAD] zero_mem 0).out 0 2
        = load_bytes (base64_decode .little [89, 81, 74, CHARPAD] zero_mem 0).out 0 2) :=
  ⟨by decide, by decide,
    ((noncanonical_padding_accepted .little 89 81 82 73 74 zero_mem 0 (by decide) (by decide)
      (by decide) (by decide) (by decide)).1 (by decide)).2.2.2.2,
    ((noncanonical_padding_accepted .little 89 81 82 73 74 zero_mem 0 (by decide) (by decide)
      (by decide) (by decide) (by decide)).2.1 (by decide)).2.2.2.2⟩

/-! ### The closed state and the empty chunk -/

/-- Claim C31. Empty chunk after closure: for every state with
`eof == BASE64_EOF`, also one reached by a clean close such as `YQ==`, a call
of `base64_stream_decode` with a chunk of length 0 returns failure (0) with
`outlen` 0 and leaves the state and the memory unchanged; so an empty follow-up
call does not confirm a cleanly closed value. -/
theorem empty_chunk_after_closure (bo : ByteOrder) (st : base64_state) (mem : Mem) (out : Nat)
    (he : st.eof = BASE64_EOF) :
    (base64_stream_decode bo st [] mem out).ret = 0 ∧
    (base64_stream_decode bo st [] mem out).outlen = 0 ∧
    (base64_stream_decode bo st [] mem out).state = st ∧
    (base64_stream_decode bo st [] mem out).out = mem ∧
    (∀ (mem1 mem2 : Mem) (out1 out2 : Nat),
      (base64_stream_decode bo base64_state_zero (ascii "YQ==") mem1 out1).ret = 1 ∧
      (base64_stream_decode bo base64_state_zero (ascii "YQ==") mem1 out1).state.eof
        = BASE64_EOF ∧
      (base64_stream_decode bo
        (base64_stream_decode bo base64_state_zero (ascii "YQ==") mem1 out1).state [] mem2
        out2).ret = 0 ∧
      (base64_stream_decode bo
        (base64_stream_decode bo base64_state_zero (ascii "YQ==") mem1 out1).state [] mem2
        out2).state
        = (base64_stream_decode bo base64_state_zero (ascii "YQ==") mem1 out1).state) := by
  have hgen : ∀ (s : base64_state) (m : Mem) (o : Nat), s.eof = BASE64_EOF →
      (base64_stream_decode bo s [] m o).ret = 0 ∧
      (base64_stream_decode bo s [] m o).outlen = 0 ∧
      (base64_stream_decode bo s [] m o).state = s ∧
      (base64_stream_decode bo s [] m o).out = m := by
    intro s m o hs
    unfold base64_stream_decode
    simp [hs, BASE64_EOF, BASE64_AEOF]
  obtain ⟨g1, g2, g3, g4⟩ := hgen st mem out he
  refine ⟨g1, g2, g3, g4, ?_⟩
  intro mem1 mem2 out1 out2
  obtain ⟨a1, a2, a3, -, -, -⟩ :=
    stream_decode_streaming bo base64_state_zero (ascii "YQ==") mem1 out1 0 rfl rfl (by omega)
  have r1 : (scalar_run 0 base64_state_zero.carry (ascii "YQ==")).ret = 1 := by decide
  have r2 : (scalar_run 0 base64_state_zero.carry (ascii "YQ==")).st.eof = BASE64_EOF := by
    decide
  rw [r1] at a1
  rw [r2] at a2
  obtain ⟨h1, -, h3, -⟩ := hgen _ mem2 out2 a2
  exact ⟨a1, a2, h1, h3⟩

/-- Witness of claim C31: the closed state `eof = BASE64_EOF`, `bytes = 0`. -/
theorem empty_chunk_after_closure_witness :
    (base64_stream_decode .little ⟨BASE64_EOF, 0, 0x10⟩ [] zero_mem 1).ret = 0 ∧
    (base64_stream_decode .little ⟨BASE64_EOF, 0, 0x10⟩ [] zero_mem 1).outlen = 0 ∧
    (base64_stream_decode .little ⟨BASE64_EOF, 0, 0x10⟩ [] zero_mem 1).state
      = ⟨BASE64_EOF, 0, 0x10⟩ ∧
    (base64_stream_decode .little ⟨BASE64_EOF, 0, 0x10⟩ [] zero_mem 1).out = zero_mem :=
  ⟨(empty_chunk_after_closure .little ⟨BASE64_EOF, 0, 0x10⟩ zero_mem 1 rfl).1,
    (empty_chunk_after_closure .little ⟨BASE64_EOF, 0, 0x10⟩ zero_mem 1 rfl).2.1,
    (empty_chunk_after_closure .little ⟨BASE64_EOF, 0, 0x10⟩ zero_mem 1 rfl).2.2.1,
    (empty_chunk_after_closure .little ⟨BASE64_EOF, 0, 0x10⟩ zero_mem 1 rfl).2.2.2.1⟩

end Base64
